import Mathlib

/-!
# neoagent: the event-driven proxy engine (`event.c`) and the health checker (`hc.c`)

A shallow embedding of the per-connection callbacks, the termination routine,
the accept callback and the health-check callback, with theorems about them.

Conventions of the embedding.

* C `int` / `size_t` values that are never negative in the code are `Nat`;
  file descriptors and `cur_pool` (which use `-1`) are `Int`.
* A buffer (`char *`) is the list of the bytes it holds; bytes are `Nat`.
* System calls and the helpers of this repository whose source is not part of
  the three files at hand (`socket.c`, `memproto.c`, `slowlog.c`, ...) get
  their results from an explicit record of outcomes, and every call leaves an
  entry in a trace, in program order.
* `errno` is part of the state: a failing call stores its error number there,
  a succeeding call leaves it alone.
-/

namespace Neoagent

/-! ## Constants and small types -/

/-- The error numbers the code distinguishes, and a catch-all for the rest. -/
inductive Errno where
  | EAGAIN | EWOULDBLOCK | EINTR | EPIPE | EINPROGRESS | EALREADY
  | other (n : Nat)
deriving DecidableEq, Repr

/-- The enumerators of `na_error_t` used in `event.c` and `hc.c`. -/
inductive na_error_t where
  | NA_ERROR_INVALID_FD
  | NA_ERROR_CONNECTION_FAILED
  | NA_ERROR_INVALID_CONNPOOL
  | NA_ERROR_OUTOF_LOOP
  | NA_ERROR_FAILED_READ
  | NA_ERROR_FAILED_WRITE
  | NA_ERROR_BROKEN_PIPE
  | NA_ERROR_OUTOF_MEMORY
deriving DecidableEq, Repr

/-- The four states of a session, `NA_EVENT_STATE_*`. -/
inductive na_event_state_t where
  | NA_EVENT_STATE_CLIENT_READ
  | NA_EVENT_STATE_CLIENT_WRITE
  | NA_EVENT_STATE_TARGET_READ
  | NA_EVENT_STATE_TARGET_WRITE
deriving DecidableEq, Repr

/-- The commands of `na_memproto_cmd_t` that `event.c` names; every other
enumerator of the (absent) declaration is `OTHER`. -/
inductive na_memproto_cmd_t where
  | NA_MEMPROTO_CMD_NOT_DETECTED
  | NA_MEMPROTO_CMD_UNKNOWN
  | NA_MEMPROTO_CMD_GET
  | NA_MEMPROTO_CMD_SET
  | NA_MEMPROTO_CMD_QUIT
  | OTHER (code : Nat)
deriving DecidableEq, Repr

/-- The graceful phases, `NA_GRACEFUL_PHASE_*`. -/
inductive na_graceful_phase_t where
  | NA_GRACEFUL_PHASE_NORMAL
  | NA_GRACEFUL_PHASE_ENABLED
  | NA_GRACEFUL_PHASE_STOP_ACCEPT
  | NA_GRACEFUL_PHASE_COMPLETED
deriving DecidableEq, Repr

/-- Event mask of libev: no event. -/
def EV_NONE : Nat := 0
/-- Event mask of libev: readable. -/
def EV_READ : Nat := 1
/-- Event mask of libev: writable. -/
def EV_WRITE : Nat := 2

/-- The test `revents & flag` for a one-bit `flag`. -/
def hasFlag (revents flag : Nat) : Bool := (revents / flag) % 2 == 1

/-- Width of `size_t`: unsigned subtraction wraps modulo this. -/
def SIZE_MOD : Nat := 2 ^ 64

/-- Unsigned subtraction `a - b` on `size_t`. -/
def size_sub (a b : Nat) : Nat := (a + SIZE_MOD - b % SIZE_MOD) % SIZE_MOD

/-- Unsigned multiplication `a * b` on `size_t`. -/
def size_mul (a b : Nat) : Nat := (a * b) % SIZE_MOD

/-- Byte `'\r'`. -/
def CR : Nat := 13
/-- Byte `'\n'`. -/
def LF : Nat := 10

/-- A `struct timespec`. -/
structure timespec where
  tv_sec : Nat
  tv_nsec : Nat
deriving DecidableEq, Repr

/-- The state of a libev I/O watcher: started or not, and what it watches. -/
structure ev_watcher where
  active : Bool
  fd : Int
  events : Nat
deriving DecidableEq, Repr

/-- Which of a session's two watchers. -/
inductive watcher_id where
  | c_watcher
  | ts_watcher
deriving DecidableEq, Repr

/-- Which of the two connection pools a `na_connpool_t *` points to. -/
inductive connpool_ref where
  | active
  | backup
deriving DecidableEq, Repr

/-- Which upstream a `na_server_t *` points to. -/
inductive server_ref where
  | target_server
  | backup_server
deriving DecidableEq, Repr

/-! ## Buffers -/

/-- Store `data` at offset `off` of a buffer (the effect of `read` into
`buf + off`, or of one assignment `buf[off] = b`). -/
def bufWrite (buf : List Nat) (off : Nat) (data : List Nat) : List Nat :=
  (buf.take off ++ List.replicate (off - buf.length) 0) ++ data ++ buf.drop (off + data.length)

/-- The byte `buf[i]`. -/
def bufAt (buf : List Nat) (i : Nat) : Nat := buf.getD i 0

/-- The call `realloc(buf, n)`: the block has `n` bytes afterwards, and the
contents are kept up to the smaller of the old and the new size. The length
of the list is the size of the block; the bytes that C leaves indeterminate
read as 0, as in `bufAt`. -/
def realloc (buf : List Nat) (n : Nat) : List Nat :=
  buf.take n ++ List.replicate (n - buf.length) 0

/-! ## The data model -/

/-- A connection pool, `na_connpool_t`: a socket and a reservation mark per slot. -/
structure na_connpool_t where
  fd_pool : List Int
  mark : List Nat
deriving DecidableEq, Repr

/-- The fields of `na_env_t` that `event.c` and `hc.c` use. -/
structure na_env_t where
  is_refused_active : Bool
  is_refused_accept : Bool
  is_use_backup : Bool
  loop_max : Nat
  conn_max : Nat
  current_conn : Nat
  current_conn_max : Nat
  connpool_max : Nat
  client_pool_max : Nat
  worker_max : Nat
  is_worker_busy : List Bool
  request_bufsize : Nat
  response_bufsize : Nat
  try_max : Nat
  tsfd : Int
  connpool_active : na_connpool_t
  connpool_backup : na_connpool_t
deriving DecidableEq, Repr

/-- The six time stamps of a session. -/
structure na_times_t where
  na_from_ts_time_begin : timespec
  na_from_ts_time_end : timespec
  na_to_ts_time_begin : timespec
  na_to_ts_time_end : timespec
  na_to_client_time_begin : timespec
  na_to_client_time_end : timespec
deriving DecidableEq, Repr

/-- A session, `na_client_t`. -/
structure na_client_t where
  cfd : Int
  tsfd : Int
  c_watcher : ev_watcher
  ts_watcher : ev_watcher
  is_refused_active : Bool
  is_use_connpool : Bool
  is_use_client_pool : Bool
  is_used : Bool
  cur_pool : Int
  crbuf : List Nat
  srbuf : List Nat
  crbufsize : Nat
  cwbufsize : Nat
  srbufsize : Nat
  swbufsize : Nat
  request_bufsize : Nat
  response_bufsize : Nat
  event_state : na_event_state_t
  req_cnt : Int
  res_cnt : Int
  loop_cnt : Nat
  cmd : na_memproto_cmd_t
  connpool : connpool_ref
  times : na_times_t
deriving DecidableEq, Repr

/-- The state shared by all sessions: the environment, the global
`GracefulPhase` and `errno`. -/
structure Shared where
  env : na_env_t
  GracefulPhase : na_graceful_phase_t
  errno : Errno
deriving DecidableEq, Repr

/-- What a callback does to the outside, in program order. -/
inductive Action where
  | close (fd : Int)
  | read (fd : Int) (off count : Nat)
  | write (fd : Int) (sent : List Nat)
  | write_failed (fd : Int)
  | ev_io_stop (w : watcher_id)
  | ev_io_start (w : watcher_id) (fd : Int) (events : Nat)
  | error_output (e : na_error_t)
  | free_client
  | tcpsock_init (fd : Int)
  | connect (fd : Int) (server : server_ref)
  | accept (fd : Int)
  | connpool_switch
  | queue_push
  | fs_watcher_none
  | hc_event_set
  | output (msg : String)
deriving DecidableEq, Repr

/-- Result of `read`: the bytes delivered, or `-1` with an error number. -/
inductive ReadRes where
  | ok (bytes : List Nat)
  | err (e : Errno)
deriving DecidableEq, Repr

/-- Result of `write`: the number of bytes taken, or `-1` with an error number. -/
inductive WriteRes where
  | ok (n : Nat)
  | err (e : Errno)
deriving DecidableEq, Repr

/-- The functions of `memproto.c` (absent) that the callbacks call. -/
structure Memproto where
  na_memproto_detect_command : List Nat → na_memproto_cmd_t
  na_memproto_count_request_get : List Nat → Nat → Int
  na_memproto_count_response_get : List Nat → Nat → Int

/-- The outcomes of the calls one session callback can make: the `read`, the
`write`, the socket helpers of `socket.c` and the two helpers of `slowlog.c`
(`gettime` maps the old content of the time stamp to the one left there). -/
structure Oracle where
  read : ReadRes
  write : WriteRes
  tcpsock_init : Int
  connect : Option Errno
  gettime : timespec → timespec
  slow_query_check : na_times_t → na_times_t

/-- A call either returns, or ends the process (`NA_DIE_WITH_ERROR`). -/
inductive Outcome (α : Type) where
  | ret (a : α)
  | die (e : na_error_t)
deriving DecidableEq, Repr

/-- What a session callback leaves behind. -/
structure CbResult where
  st : Shared
  client : na_client_t
  trace : List Action
deriving DecidableEq, Repr

/-! ## Small accessors -/

/-- Dereference a `na_connpool_t *`. -/
def na_env_t.pool (env : na_env_t) : connpool_ref → na_connpool_t
  | .active => env.connpool_active
  | .backup => env.connpool_backup

/-- Store through a `na_connpool_t *`. -/
def na_env_t.setPool (env : na_env_t) (r : connpool_ref) (p : na_connpool_t) : na_env_t :=
  match r with
  | .active => { env with connpool_active := p }
  | .backup => { env with connpool_backup := p }

/-- A time stamp is unset when both of its fields are 0. -/
def timespec.isZero (t : timespec) : Bool := t.tv_sec == 0 && t.tv_nsec == 0

/-- Stop one of the session's watchers. -/
def ev_io_stop (w : watcher_id) (client : na_client_t) : na_client_t :=
  match w with
  | .c_watcher => { client with c_watcher := { client.c_watcher with active := false } }
  | .ts_watcher => { client with ts_watcher := { client.ts_watcher with active := false } }

/-- The pair `ev_io_set(w, fd, events); ev_io_start(w)`. -/
def ev_io_set_start (w : watcher_id) (fd : Int) (events : Nat) (client : na_client_t) :
    na_client_t :=
  match w with
  | .c_watcher => { client with c_watcher := { active := true, fd := fd, events := events } }
  | .ts_watcher => { client with ts_watcher := { active := true, fd := fd, events := events } }

/-- The function `na_event_switch`: stop `old`, set and start `new`. -/
def na_event_switch (old new : watcher_id) (fd : Int) (revent : Nat) (r : CbResult) : CbResult :=
  { r with
    client := ev_io_set_start new fd revent (ev_io_stop old r.client)
    trace := r.trace ++ [Action.ev_io_stop old, Action.ev_io_start new fd revent] }

/-- The server a (re)connect goes to, as computed in both callbacks. -/
def select_server (env : na_env_t) : server_ref :=
  if env.is_use_backup then
    (if env.is_refused_active then .backup_server else .target_server)
  else .target_server

/-! ## The termination routine -/

/-- The function `na_client_close` (event.c 121-158). -/
def na_client_close (st : Shared) (client : na_client_t) : CbResult :=
  let t1 := [Action.close client.cfd, Action.ev_io_stop .c_watcher, Action.ev_io_stop .ts_watcher]
  let client := ev_io_stop .ts_watcher (ev_io_stop .c_watcher client)
  let client := { client with cfd := -1 }
  let pool := st.env.pool client.connpool
  let i := client.cur_pool.toNat
  let t2 :=
    if client.is_use_connpool then
      (if pool.mark.getD i 0 == 0 then [Action.close (pool.fd_pool.getD i 0)] else [])
    else [Action.close client.tsfd]
  let env :=
    if client.is_use_connpool then
      st.env.setPool client.connpool { pool with mark := pool.mark.set i 0 }
    else st.env
  let client := { client with tsfd := -1 }
  let t3 := if client.is_use_client_pool then [] else [Action.free_client]
  let client := if client.is_use_client_pool then { client with is_used := false } else client
  let phase :=
    if env.current_conn > 0 then
      (if st.GracefulPhase == .NA_GRACEFUL_PHASE_STOP_ACCEPT && env.current_conn - 1 == 0
        then .NA_GRACEFUL_PHASE_COMPLETED else st.GracefulPhase)
    else st.GracefulPhase
  let env := if env.current_conn > 0 then { env with current_conn := env.current_conn - 1 } else env
  { st := { st with env := env, GracefulPhase := phase }
    client := client
    trace := t1 ++ t2 ++ t3 }

/-- The function `na_event_stop`: stop the callback's own watcher `w`, then
run the termination routine. -/
def na_event_stop (w : watcher_id) (st : Shared) (client : na_client_t) : CbResult :=
  let r := na_client_close st (ev_io_stop w client)
  { r with trace := Action.ev_io_stop w :: r.trace }

/-- The statement macro `NA_EVENT_FAIL`: `na_event_stop`, then the error message. -/
def NA_EVENT_FAIL (e : na_error_t) (w : watcher_id) (st : Shared) (client : na_client_t) :
    CbResult :=
  let r := na_event_stop w st client
  { r with trace := r.trace ++ [Action.error_output e] }

/-! ## The per-session callbacks -/

/-- The test `env->loop_max > 0 && client->loop_cnt++ > env->loop_max`: its
value, and the session after its side effect (the increment happens only
when the left operand holds). -/
def loop_check (env : na_env_t) (client : na_client_t) : Bool × na_client_t :=
  if env.loop_max > 0 then
    (decide (client.loop_cnt > env.loop_max), { client with loop_cnt := client.loop_cnt + 1 })
  else (false, client)

/-- The test at the head of both callbacks:
`client->is_refused_active != env->is_refused_active || env->is_refused_accept`. -/
def role_check (env : na_env_t) (client : na_client_t) : Bool :=
  (client.is_refused_active != env.is_refused_active) || env.is_refused_accept

/-- The test `errno == EAGAIN || errno == EWOULDBLOCK || errno == EINTR`. -/
def is_retry (e : Errno) : Bool :=
  e == .EAGAIN || e == .EWOULDBLOCK || e == .EINTR

/-- The state of `errno` after a `read`. -/
def errno_after_read (e : Errno) : ReadRes → Errno
  | .ok _ => e
  | .err e1 => e1

/-- The state of `errno` after a `write`. -/
def errno_after_write (e : Errno) : WriteRes → Errno
  | .ok _ => e
  | .err e1 => e1

/-- The growth step in front of both reads:
`if (size >= cap) { es = (cap - 1) * 2; buf = realloc(buf, es + 1); cap = es; }`. -/
def grow (buf : List Nat) (size cap : Nat) : List Nat × Nat :=
  if size ≥ cap then
    let es := size_mul (size_sub cap 1) 2
    (realloc buf (es + 1), es)
  else (buf, cap)

/-- The test that the `size` bytes of `buf` end in `"\r\n"`. -/
def ends_crlf (buf : List Nat) (size : Nat) : Bool :=
  bufAt buf (size - 2) == CR && bufAt buf (size - 1) == LF

/-- The reconnect of a pool slot after a failed upstream write
(event.c 246-274): the environment, `errno` and trace afterwards, or the end
of the process. -/
def reconnect_slot (o : Oracle) (st : Shared) (client : na_client_t) :
    Outcome (Shared × List Action) :=
  let i := client.cur_pool.toNat
  let server := select_server st.env
  let pool := st.env.pool client.connpool
  let t1 := if pool.fd_pool.getD i 0 > 0 then [Action.close (pool.fd_pool.getD i 0)] else []
  let fd := o.tcpsock_init
  let pool := { pool with fd_pool := pool.fd_pool.set i fd }
  let st := { st with env := st.env.setPool client.connpool pool }
  let t2 := t1 ++ [Action.tcpsock_init fd]
  if fd ≤ 0 then .die .NA_ERROR_INVALID_FD
  else
    match o.connect with
    | none => .ret (st, t2 ++ [Action.connect fd server])
    | some e =>
      if e ≠ .EINPROGRESS ∧ e ≠ .EALREADY then .die .NA_ERROR_CONNECTION_FAILED
      else .ret ({ st with errno := e }, t2 ++ [Action.connect fd server])

/-- The upstream-readable branch after a `read` of `size > 0` bytes
(event.c 211-229): append the bytes, and decide whether the response is
complete. -/
def ts_response (mp : Memproto) (o : Oracle) (st : Shared) (client : na_client_t)
    (bytes : List Nat) (t : List Action) : CbResult :=
  let cfd := client.cfd
  let srbuf := bufWrite client.srbuf client.srbufsize bytes
  let srbufsize := client.srbufsize + bytes.length
  let srbuf := bufWrite srbuf srbufsize [0]
  let client := { client with srbuf := srbuf, srbufsize := srbufsize }
  let advance (client : na_client_t) : CbResult :=
    let client := { client with event_state := .NA_EVENT_STATE_CLIENT_WRITE }
    let r := na_event_switch .ts_watcher .c_watcher cfd EV_WRITE
      { st := st, client := client, trace := t }
    { r with client := { r.client with times := { r.client.times with
        na_from_ts_time_end := o.gettime r.client.times.na_from_ts_time_end } } }
  if client.cmd = .NA_MEMPROTO_CMD_GET then
    let client := { client with
      res_cnt := mp.na_memproto_count_response_get client.srbuf client.srbufsize }
    if client.res_cnt ≥ client.req_cnt then advance client
    else { st := st, client := client, trace := t }
  else if client.srbufsize > 2 && ends_crlf client.srbuf client.srbufsize then
    advance client
  else { st := st, client := client, trace := t }

/-- The branch `revents & EV_READ` of `na_target_server_callback`
(event.c 184-229). -/
def ts_readable (mp : Memproto) (o : Oracle) (st : Shared) (client : na_client_t) : CbResult :=
  let tsfd := client.ts_watcher.fd
  let times :=
    if client.times.na_from_ts_time_begin.isZero then
      { client.times with
        na_from_ts_time_begin := o.gettime client.times.na_from_ts_time_begin }
    else client.times
  let client := { client with times := times }
  let g := grow client.srbuf client.srbufsize client.response_bufsize
  let client := { client with srbuf := g.1, response_bufsize := g.2 }
  let t := [Action.read tsfd client.srbufsize (size_sub g.2 client.srbufsize)]
  let st := { st with errno := errno_after_read st.errno o.read }
  match o.read with
  | .err _ =>
    if is_retry st.errno then { st := st, client := client, trace := t }
    else
      let r := NA_EVENT_FAIL .NA_ERROR_FAILED_READ .ts_watcher st client
      { r with trace := t ++ r.trace }
  | .ok bytes =>
    if bytes.length = 0 then
      if is_retry st.errno then { st := st, client := client, trace := t }
      else
        let r := NA_EVENT_FAIL .NA_ERROR_FAILED_READ .ts_watcher st client
        { r with trace := t ++ r.trace }
    else ts_response mp o st client bytes t

/-- The branch `revents & EV_WRITE` of `na_target_server_callback`
(event.c 231-294). -/
def ts_writable (o : Oracle) (st : Shared) (client : na_client_t) : Outcome CbResult :=
  let tsfd := client.ts_watcher.fd
  let times :=
    if client.times.na_to_ts_time_begin.isZero then
      { client.times with na_to_ts_time_begin := o.gettime client.times.na_to_ts_time_begin }
    else client.times
  let client := { client with times := times }
  let count := size_sub client.crbufsize client.swbufsize
  let st := { st with errno := errno_after_write st.errno o.write }
  match o.write with
  | .err _ =>
    let t := [Action.write_failed tsfd]
    if is_retry st.errno then .ret { st := st, client := client, trace := t }
    else
      let rc : Outcome (Shared × List Action) :=
        if client.is_use_connpool then reconnect_slot o st client else .ret (st, [])
      match rc with
      | .die e => .die e
      | .ret (st, t2) =>
        let r :=
          if st.errno = .EPIPE then NA_EVENT_FAIL .NA_ERROR_BROKEN_PIPE .ts_watcher st client
          else NA_EVENT_FAIL .NA_ERROR_FAILED_WRITE .ts_watcher st client
        .ret { r with trace := t ++ t2 ++ r.trace }
  | .ok n =>
    let t := [Action.write tsfd (((client.crbuf.drop client.swbufsize).take count).take n)]
    let client := { client with swbufsize := client.swbufsize + n }
    if client.swbufsize < client.crbufsize then
      .ret (na_event_switch .ts_watcher .ts_watcher tsfd EV_WRITE
        { st := st, client := client, trace := t })
    else
      let client := { client with event_state := .NA_EVENT_STATE_TARGET_READ }
      let r := na_event_switch .ts_watcher .ts_watcher tsfd EV_READ
        { st := st, client := client, trace := t }
      .ret { r with client := { r.client with times := { r.client.times with
        na_to_ts_time_end := o.gettime r.client.times.na_to_ts_time_end } } }

/-- The function `na_target_server_callback` (event.c 160-298). -/
def na_target_server_callback (mp : Memproto) (o : Oracle) (revents : Nat)
    (st : Shared) (client : na_client_t) : Outcome CbResult :=
  if role_check st.env client then
    .ret (NA_EVENT_FAIL .NA_ERROR_INVALID_CONNPOOL .ts_watcher st client)
  else if (loop_check st.env client).1 then
    .ret (NA_EVENT_FAIL .NA_ERROR_OUTOF_LOOP .ts_watcher st (loop_check st.env client).2)
  else if hasFlag revents EV_READ then
    .ret (ts_readable mp o st (loop_check st.env client).2)
  else if hasFlag revents EV_WRITE then
    ts_writable o st (loop_check st.env client).2
  else .ret { st := st, client := (loop_check st.env client).2, trace := [] }

/-- The client-readable branch after a `read` of `size > 0` bytes
(event.c 348-374): append the bytes, detect the command, and decide whether
the request is complete. -/
def client_request (mp : Memproto) (st : Shared) (client : na_client_t)
    (bytes : List Nat) (t : List Action) : CbResult :=
  let tsfd := client.tsfd
  let crbuf := bufWrite client.crbuf client.crbufsize bytes
  let crbufsize := client.crbufsize + bytes.length
  let crbuf := bufWrite crbuf crbufsize [0]
  let client := { client with crbuf := crbuf, crbufsize := crbufsize }
  let client := { client with cmd := mp.na_memproto_detect_command client.crbuf }
  if client.cmd = .NA_MEMPROTO_CMD_QUIT then
    let r := na_event_stop .c_watcher st client
    { r with trace := t ++ r.trace }
  else
    let client :=
      if client.cmd = .NA_MEMPROTO_CMD_GET ∨ client.cmd = .NA_MEMPROTO_CMD_SET then
        { client with
          req_cnt := mp.na_memproto_count_request_get client.crbuf client.crbufsize }
      else client
    if client.crbufsize < 2 then { st := st, client := client, trace := t }
    else if ends_crlf client.crbuf client.crbufsize then
      if client.cmd = .NA_MEMPROTO_CMD_UNKNOWN then
        let r := na_event_stop .c_watcher st client
        { r with trace := t ++ r.trace }
      else if client.cmd = .NA_MEMPROTO_CMD_SET ∧ client.req_cnt < 2 then
        { st := st, client := client, trace := t }
      else
        let client := { client with event_state := .NA_EVENT_STATE_TARGET_WRITE }
        na_event_switch .c_watcher .ts_watcher tsfd EV_WRITE
          { st := st, client := client, trace := t }
    else { st := st, client := client, trace := t }

/-- The branch `revents & EV_READ` of `na_client_callback` (event.c 324-374). -/
def client_readable (mp : Memproto) (o : Oracle) (st : Shared) (client : na_client_t) :
    CbResult :=
  let cfd := client.c_watcher.fd
  let g := grow client.crbuf client.crbufsize client.request_bufsize
  let client := { client with crbuf := g.1, request_bufsize := g.2 }
  let t := [Action.read cfd client.crbufsize (size_sub g.2 client.crbufsize)]
  let st := { st with errno := errno_after_read st.errno o.read }
  match o.read with
  | .err _ =>
    if is_retry st.errno then { st := st, client := client, trace := t }
    else
      let r := NA_EVENT_FAIL .NA_ERROR_FAILED_READ .c_watcher st client
      { r with trace := t ++ r.trace }
  | .ok bytes =>
    if bytes.length = 0 then
      let r := na_event_stop .c_watcher st client
      { r with trace := t ++ r.trace }
    else client_request mp st client bytes t

/-- The branch `revents & EV_WRITE` of `na_client_callback` (event.c 376-420). -/
def client_writable (o : Oracle) (st : Shared) (client : na_client_t) : CbResult :=
  let cfd := client.c_watcher.fd
  let times :=
    if client.times.na_to_client_time_begin.isZero then
      { client.times with
        na_to_client_time_begin := o.gettime client.times.na_to_client_time_begin }
    else client.times
  let client := { client with times := times }
  let count := size_sub client.srbufsize client.cwbufsize
  let st := { st with errno := errno_after_write st.errno o.write }
  match o.write with
  | .err _ =>
    let t := [Action.write_failed cfd]
    if is_retry st.errno then { st := st, client := client, trace := t }
    else
      let r :=
        if st.errno = .EPIPE then NA_EVENT_FAIL .NA_ERROR_BROKEN_PIPE .c_watcher st client
        else NA_EVENT_FAIL .NA_ERROR_FAILED_WRITE .c_watcher st client
      { r with trace := t ++ r.trace }
  | .ok n =>
    let t := [Action.write cfd (((client.srbuf.drop client.cwbufsize).take count).take n)]
    let client := { client with cwbufsize := client.cwbufsize + n }
    if client.cwbufsize < client.srbufsize then
      na_event_switch .c_watcher .c_watcher cfd EV_WRITE
        { st := st, client := client, trace := t }
    else
      let times := { client.times with
        na_to_client_time_end := o.gettime client.times.na_to_client_time_end }
      let times := o.slow_query_check times
      let client := { client with
        times := times
        crbufsize := 0
        cwbufsize := 0
        srbufsize := 0
        swbufsize := 0
        request_bufsize := st.env.request_bufsize
        response_bufsize := st.env.response_bufsize
        event_state := .NA_EVENT_STATE_CLIENT_READ
        req_cnt := 0
        res_cnt := 0 }
      na_event_switch .c_watcher .c_watcher cfd EV_READ
        { st := st, client := client, trace := t }

/-- The function `na_client_callback` (event.c 300-424). -/
def na_client_callback (mp : Memproto) (o : Oracle) (revents : Nat)
    (st : Shared) (client : na_client_t) : CbResult :=
  if role_check st.env client then
    NA_EVENT_FAIL .NA_ERROR_INVALID_CONNPOOL .c_watcher st client
  else if (loop_check st.env client).1 then
    NA_EVENT_FAIL .NA_ERROR_OUTOF_LOOP .c_watcher st (loop_check st.env client).2
  else if hasFlag revents EV_READ then
    client_readable mp o st (loop_check st.env client).2
  else if hasFlag revents EV_WRITE then
    client_writable o st (loop_check st.env client).2
  else { st := st, client := (loop_check st.env client).2, trace := [] }

/-! ## The health checker (`hc.c`) -/

/-- The bytes of an ASCII string literal. -/
def bytes_of (s : String) : List Nat := s.toList.map Char.toNat

/-- The conversion `%ld` of a non-negative number. -/
def bytes_of_nat (n : Nat) : List Nat := (Nat.toDigits 10 n).map Char.toNat

/-- The C string held at the start of a buffer: the bytes before the first NUL. -/
def cstr (buf : List Nat) : List Nat := buf.takeWhile (fun b => b != 0)

/-- The library call `strlen`. -/
def strlen (buf : List Nat) : Nat := (cstr buf).length

/-- The test `strcmp(a, b) != 0`: two buffers differ as C strings. -/
def strcmp_ne (a b : List Nat) : Bool := cstr a != cstr b

/-- The libc constant `BUFSIZ`. -/
def BUFSIZ : Nat := 8192

/-- The call `snprintf(buf, BUFSIZ, ...)`: the formatted text, cut to fit. -/
def snprintf_bufsiz (text : List Nat) : List Nat := text.take (BUFSIZ - 1)

/-- The constant `na_hc_test_key`. -/
def na_hc_test_key : List Nat := bytes_of "neoagent_test_key"

/-- The constant `na_hc_test_val`. -/
def na_hc_test_val : List Nat := bytes_of "neoagent_test_val"

/-- The reply expected to the probe's `set`. -/
def STORED : List Nat := bytes_of "STORED\r\n"

/-- The reply expected to the probe's `delete`. -/
def DELETED : List Nat := bytes_of "DELETED\r\n"

/-- The probe's `set` command (`scmd`). -/
def hc_scmd (hostname : List Nat) : List Nat :=
  snprintf_bufsiz (bytes_of "set " ++ na_hc_test_key ++ bytes_of "_" ++ cstr hostname
    ++ bytes_of " 0 0 " ++ bytes_of_nat (strlen na_hc_test_val + 1 + strlen hostname)
    ++ bytes_of "\r\n" ++ na_hc_test_val ++ bytes_of "_" ++ cstr hostname ++ bytes_of "\r\n")

/-- The probe's `get` command (`gcmd`). -/
def hc_gcmd (hostname : List Nat) : List Nat :=
  snprintf_bufsiz (bytes_of "get " ++ na_hc_test_key ++ bytes_of "_" ++ cstr hostname
    ++ bytes_of "\r\n")

/-- The probe's `delete` command (`dcmd`). -/
def hc_dcmd (hostname : List Nat) : List Nat :=
  snprintf_bufsiz (bytes_of "delete " ++ na_hc_test_key ++ bytes_of "_" ++ cstr hostname
    ++ bytes_of "\r\n")

/-- The reply expected to the probe's `get` (`gres`). -/
def hc_gres (hostname : List Nat) : List Nat :=
  snprintf_bufsiz (bytes_of "VALUE " ++ na_hc_test_key ++ bytes_of "_" ++ cstr hostname
    ++ bytes_of " 0 " ++ bytes_of_nat (strlen na_hc_test_val + 1 + strlen hostname)
    ++ bytes_of "\r\n" ++ na_hc_test_val ++ bytes_of "_" ++ cstr hostname
    ++ bytes_of "\r\nEND\r\n")

/-- The results of the `write` and of the `read` of one probe command. -/
structure CmdOutcome where
  write : WriteRes
  read : ReadRes
deriving DecidableEq, Repr

/-- The function `is_success_command` (hc.c 29-48), on the results `out` of its
two system calls. -/
def is_success_command (_tsfd : Int) (_command : List Nat) (expected : List Nat)
    (out : CmdOutcome) : Bool :=
  match out.write with
  | .err _ => false
  | .ok _ =>
    match out.read with
    | .err _ => false
    | .ok bytes =>
      let rbuf := bufWrite bytes bytes.length [0]
      if strcmp_ne rbuf expected then false else true

/-- One turn of the loop of `na_hc_test_request`: `cnt_fail` after iteration
`i`; the probe commands are numbered in the order they are issued. -/
def hc_iteration (tsfd : Int) (hostname : List Nat) (out : Nat → CmdOutcome)
    (cnt_fail i : Nat) : Nat :=
  let c1 :=
    if !is_success_command tsfd (hc_scmd hostname) STORED (out (3 * i)) then cnt_fail + 1
    else cnt_fail
  let c2 :=
    if !is_success_command tsfd (hc_gcmd hostname) (hc_gres hostname) (out (3 * i + 1)) then c1 + 1
    else c1
  let c3 :=
    if !is_success_command tsfd (hc_dcmd hostname) DELETED (out (3 * i + 2)) then c2 + 1
    else c2
  c3

/-- The function `na_hc_test_request` (hc.c 50-94). -/
def na_hc_test_request (tsfd : Int) (try_max : Nat) (hostname : List Nat)
    (out : Nat → CmdOutcome) : Bool :=
  let cnt_fail := (List.range try_max).foldl (hc_iteration tsfd hostname out) 0
  if cnt_fail == try_max * 3 then false else true

/-- The outcomes of the calls one health-check tick can make. -/
structure HcOracle where
  tcpsock_init : Int
  connect : Option Errno
  hostname : List Nat
  probe : Nat → CmdOutcome

/-- The block both branches of `na_hc_callback` run to switch the role
(hc.c 117-127 and 130-140); `na_connpool_switch` (connpool.c, absent) is the
parameter `sw`, which yields the two pools it leaves behind. -/
def hc_switch (sw : na_env_t → na_connpool_t × na_connpool_t) (role : Bool) (env : na_env_t) :
    na_env_t :=
  let env := { env with is_refused_accept := true }
  let env := { env with is_refused_active := role }
  let env := { env with connpool_active := (sw env).1, connpool_backup := (sw env).2 }
  let env := { env with current_conn := 0 }
  { env with is_refused_accept := false }

/-- The health check proper of `na_hc_callback` (hc.c 115-145), run once the
probe socket is there; `t` is the trace so far. -/
def hc_decide (sw : na_env_t → na_connpool_t × na_connpool_t) (o : HcOracle)
    (st : Shared) (t : List Action) : Shared × List Action :=
  if st.env.is_refused_active
      && na_hc_test_request st.env.tsfd st.env.try_max o.hostname o.probe then
    ({ st with env := hc_switch sw false st.env },
      t ++ [Action.connpool_switch, Action.output "switch target server",
        Action.hc_event_set])
  else if !st.env.is_refused_active
      && !na_hc_test_request st.env.tsfd st.env.try_max o.hostname o.probe then
    ({ st with env := hc_switch sw true st.env },
      t ++ [Action.connpool_switch, Action.output "switch backup server",
        Action.close st.env.tsfd, Action.hc_event_set])
  else (st, t ++ [Action.hc_event_set])

/-- The function `na_hc_callback` (hc.c 96-146). The health checker runs on the
support thread, whose `errno` is its own, so `errno` of `Shared` is left alone. -/
def na_hc_callback (sw : na_env_t → na_connpool_t × na_connpool_t) (o : HcOracle)
    (st : Shared) : Outcome (Shared × List Action) :=
  if st.env.is_refused_active then
    let st := { st with env := { st.env with tsfd := o.tcpsock_init } }
    if st.env.tsfd < 0 then .die .NA_ERROR_INVALID_FD
    else
      match o.connect with
      | some _ =>
        .ret (st, [Action.tcpsock_init st.env.tsfd, Action.connect st.env.tsfd .target_server,
          Action.close st.env.tsfd, Action.hc_event_set])
      | none =>
        .ret (hc_decide sw o st
          [Action.tcpsock_init st.env.tsfd, Action.connect st.env.tsfd .target_server])
  else .ret (hc_decide sw o st [])

/-! ## The client slot pool, the connection pool and the accept callback -/

/-- The first index, counting down from `max - 1`, at which `free` holds:
the loop `for (int i = max - 1; i >= 0; --i)`. -/
def scan_down (free : Nat → Bool) (max : Nat) : Option Nat :=
  (List.range max).reverse.find? free

/-- The first index, counting up from 0, at which `free` holds:
the loop `for (int i = 0; i < max; ++i)`. -/
def scan_up (free : Nat → Bool) (max : Nat) : Option Nat :=
  (List.range max).find? free

/-- The two-phase probing shared by the slot assignments: the index `r1 % max`
if it is free, else the first free index of a scan whose direction is
`r2 % 2` (0: downwards, otherwise upwards). -/
def probe_slot (free : Nat → Bool) (max r1 r2 : Nat) : Option Nat :=
  let ri := r1 % max
  if free ri then some ri
  else if r2 % 2 = 0 then scan_down free max
  else scan_up free max

/-- The test `ClientPool[i].is_used == false`. -/
def client_free (pool : List na_client_t) (i : Nat) : Bool :=
  match pool[i]? with
  | some c => c.is_used == false
  | none => false

/-- Set `ClientPool[i].is_used = true`. -/
def client_claim (pool : List na_client_t) (i : Nat) : List na_client_t :=
  match pool[i]? with
  | some c => pool.set i { c with is_used := true }
  | none => pool

/-- The function `na_client_assign` (event.c 81-119); `r1` and `r2` are the
values of its two calls of `rand()`. -/
def na_client_assign (env : na_env_t) (pool : List na_client_t) (r1 r2 : Nat) :
    Int × List na_client_t :=
  match probe_slot (client_free pool) env.client_pool_max r1 r2 with
  | some i => ((i : Int), client_claim pool i)
  | none => (-1, pool)

/-- Modelled from the spec: `na_connpool_select` (connpool.c is absent),
"choose which underlying pool is live (active or backup) given current role". -/
def na_connpool_select (env : na_env_t) : connpool_ref :=
  if env.is_refused_active then .backup else .active

/-- What `na_connpool_assign` hands back: the slot and its socket, if any,
and the pool afterwards. -/
structure AssignResult where
  slot : Option (Nat × Int)
  pool : na_connpool_t
  trace : List Action
deriving DecidableEq, Repr

/-- Modelled from the spec: `na_connpool_assign` (connpool.c is absent), "find
a free slot (scan from a random start, both directions), CAS its mark from 0
to 1, and return its fd; if the fd is closed/invalid, reconnect it first.
Returns false if the pool is exhausted". `sock` is the socket a reconnect
creates. -/
def na_connpool_assign (env : na_env_t) (pool : na_connpool_t) (server : server_ref)
    (r1 r2 : Nat) (sock : Int) : AssignResult :=
  match probe_slot (fun i => decide (i < pool.mark.length) && pool.mark.getD i 0 == 0)
      env.connpool_max r1 r2 with
  | none => { slot := none, pool := pool, trace := [] }
  | some i =>
    let pool := { pool with mark := pool.mark.set i 1 }
    if pool.fd_pool.getD i 0 > 0 then
      { slot := some (i, pool.fd_pool.getD i 0), pool := pool, trace := [] }
    else
      { slot := some (i, sock), pool := { pool with fd_pool := pool.fd_pool.set i sock }
        trace := [Action.tcpsock_init sock, Action.connect sock server] }

/-- The function `na_is_worker_busy` (event.c 598-614). -/
def na_is_worker_busy (env : na_env_t) : Bool :=
  let count_is_worker_busy :=
    ((List.range env.worker_max).filter (fun i => env.is_worker_busy.getD i false)).length
  count_is_worker_busy == env.worker_max

/-- The process-wide state: the shared state, the global `ClientPool` and the
sessions allocated with `malloc` that have not been freed. -/
structure System where
  st : Shared
  ClientPool : List na_client_t
  heap : List na_client_t
deriving DecidableEq, Repr

/-- The outcomes of the calls one run of the accept callback can make. -/
structure AcceptOracle where
  assign_r1 : Nat
  assign_r2 : Nat
  assign_sock : Int
  tcpsock_init : Int
  connect : Option Errno
  accept : Int
  client_r1 : Nat
  client_r2 : Nat
  malloc_client : Bool
  malloc_crbuf : Bool
  malloc_srbuf : Bool
  queue_push : Bool

/-- The block after the label `finally:` of the accept callback (event.c 588-594). -/
def front_finally (r : System × List Action) : System × List Action :=
  if r.1.st.GracefulPhase = .NA_GRACEFUL_PHASE_ENABLED then
    ({ r.1 with st := { r.1.st with GracefulPhase := .NA_GRACEFUL_PHASE_STOP_ACCEPT } },
      r.2 ++ [Action.fs_watcher_none])
  else r

/-- The roll-back of the upstream reservation that the error paths of the
accept callback share: close the ephemeral socket, or unmark the pool slot. -/
def front_rollback (connpool : connpool_ref) (cur_pool tsfd : Int) (s : System) :
    System × List Action :=
  if cur_pool = -1 then (s, [Action.close tsfd])
  else
    let pool := s.st.env.pool connpool
    let pool := { pool with mark := pool.mark.set cur_pool.toNat 0 }
    ({ s with st := { s.st with env := s.st.env.setPool connpool pool } }, [])

/-- A session structure after `memset(client, 0, sizeof(*client))`. -/
def client_zero : na_client_t :=
  { cfd := 0, tsfd := 0
    c_watcher := { active := false, fd := 0, events := 0 }
    ts_watcher := { active := false, fd := 0, events := 0 }
    is_refused_active := false, is_use_connpool := false, is_use_client_pool := false
    is_used := false, cur_pool := 0, crbuf := [], srbuf := []
    crbufsize := 0, cwbufsize := 0, srbufsize := 0, swbufsize := 0
    request_bufsize := 0, response_bufsize := 0
    event_state := .NA_EVENT_STATE_CLIENT_READ, req_cnt := 0, res_cnt := 0, loop_cnt := 0
    cmd := .NA_MEMPROTO_CMD_NOT_DETECTED, connpool := .active
    times := { na_from_ts_time_begin := ⟨0, 0⟩, na_from_ts_time_end := ⟨0, 0⟩
               na_to_ts_time_begin := ⟨0, 0⟩, na_to_ts_time_end := ⟨0, 0⟩
               na_to_client_time_begin := ⟨0, 0⟩, na_to_client_time_end := ⟨0, 0⟩ } }

/-- A session structure after `memset` and the `malloc` of its two buffers
(event.c 516-518): blocks of capacity + 1 bytes, whose indeterminate bytes
read as 0. -/
def client_malloc (env : na_env_t) : na_client_t :=
  { client_zero with
    crbuf := List.replicate (env.request_bufsize + 1) 0
    srbuf := List.replicate (env.response_bufsize + 1) 0 }

/-- The initialisation of the session fields in the accept callback
(event.c 537-565). -/
def client_init (env : na_env_t) (client : na_client_t) (cfd tsfd cur_pool cur_cli : Int)
    (connpool : connpool_ref) : na_client_t :=
  { client with
    cfd := cfd
    tsfd := tsfd
    is_refused_active := env.is_refused_active
    is_use_connpool := decide (cur_pool ≠ -1)
    is_use_client_pool := decide (cur_cli ≠ -1)
    cur_pool := cur_pool
    crbufsize := 0
    cwbufsize := 0
    srbufsize := 0
    swbufsize := 0
    request_bufsize := env.request_bufsize
    response_bufsize := env.response_bufsize
    event_state := .NA_EVENT_STATE_CLIENT_READ
    req_cnt := 0
    res_cnt := 0
    loop_cnt := 0
    cmd := .NA_MEMPROTO_CMD_NOT_DETECTED
    connpool := connpool
    times := client_zero.times }

/-- The two `ev_io_init` and the `ev_io_start` that arm a new session. -/
def client_arm (client : na_client_t) : na_client_t :=
  { client with
    c_watcher := { active := true, fd := client.cfd, events := EV_READ }
    ts_watcher := { active := false, fd := client.tsfd, events := EV_NONE } }

/-- The tail of the accept callback (event.c 537-586): initialise the session
`client`, count it, hand it to a worker or arm it here; `store` puts the
session structure back where it lives. -/
def front_enroll (o : AcceptOracle) (connpool : connpool_ref) (cfd tsfd cur_pool cur_cli : Int)
    (client : na_client_t) (store : na_client_t → System → System) (s : System) :
    System × List Action :=
  let client := client_init s.st.env client cfd tsfd cur_pool cur_cli connpool
  let env : na_env_t := { s.st.env with current_conn := s.st.env.current_conn + 1 }
  let env : na_env_t :=
    if env.current_conn > env.current_conn_max then
      { env with current_conn_max := env.current_conn }
    else env
  let s := { s with st := { s.st with env := env } }
  if !na_is_worker_busy env then
    if !o.queue_push then
      (store (client_arm client) s,
        [Action.output "Too Many Connections!", Action.ev_io_start .c_watcher cfd EV_READ])
    else (store client s, [Action.queue_push])
  else (store (client_arm client) s, [Action.ev_io_start .c_watcher cfd EV_READ])

/-- The accept callback from the call of `na_server_accept` to the hand-off
(event.c 481-586), the upstream socket `tsfd` being at hand. -/
def front_accept (o : AcceptOracle) (connpool : connpool_ref) (cur_pool tsfd : Int)
    (s : System) : System × List Action :=
  let cfd := o.accept
  if cfd < 0 then
    let r := front_rollback connpool cur_pool tsfd s
    (r.1, r.2 ++ [Action.error_output .NA_ERROR_INVALID_FD])
  else
    let a := na_client_assign s.st.env s.ClientPool o.client_r1 o.client_r2
    let cur_cli := a.1
    let s := { s with ClientPool := a.2 }
    if cur_cli ≥ 0 then
      match s.ClientPool[cur_cli.toNat]? with
      | some client =>
        let t := if client.tsfd > 0 then [Action.close client.tsfd] else []
        let r := front_enroll o connpool cfd tsfd cur_pool cur_cli client
          (fun c s => { s with ClientPool := s.ClientPool.set cur_cli.toNat c }) s
        (r.1, Action.accept cfd :: t ++ r.2)
      | none => (s, [Action.accept cfd])
    else if !o.malloc_client then
      let r := front_rollback connpool cur_pool tsfd s
      (r.1, [Action.accept cfd, Action.close cfd] ++ r.2
        ++ [Action.error_output .NA_ERROR_OUTOF_MEMORY])
    else if !o.malloc_crbuf || !o.malloc_srbuf then
      let r := front_rollback connpool cur_pool tsfd s
      (r.1, [Action.accept cfd, Action.free_client, Action.close cfd] ++ r.2
        ++ [Action.error_output .NA_ERROR_OUTOF_MEMORY])
    else
      let r := front_enroll o connpool cfd tsfd cur_pool cur_cli (client_malloc s.st.env)
        (fun c s => { s with heap := s.heap ++ [c] }) s
      (r.1, Action.accept cfd :: r.2)

/-- The accept callback before the label `finally:` (event.c 441-586). -/
def front_body (o : AcceptOracle) (s : System) : System × List Action :=
  if s.st.env.is_refused_accept then (s, [])
  else if s.st.env.current_conn ≥ s.st.env.conn_max then (s, [])
  else
    let connpool := na_connpool_select s.st.env
    let server := select_server s.st.env
    let a := na_connpool_assign s.st.env (s.st.env.pool connpool) server
      o.assign_r1 o.assign_r2 o.assign_sock
    let s := { s with st := { s.st with env := s.st.env.setPool connpool a.pool } }
    match a.slot with
    | some (cur_pool, tsfd) =>
      let r := front_accept o connpool (cur_pool : Int) tsfd s
      (r.1, a.trace ++ r.2)
    | none =>
      let tsfd := o.tcpsock_init
      if tsfd < 0 then (s, [Action.error_output .NA_ERROR_INVALID_FD])
      else
        match o.connect with
        | some e =>
          let s := { s with st := { s.st with errno := e } }
          if e ≠ .EINPROGRESS ∧ e ≠ .EALREADY then
            (s, [Action.tcpsock_init tsfd, Action.connect tsfd server, Action.close tsfd,
              Action.error_output .NA_ERROR_CONNECTION_FAILED])
          else
            let r := front_accept o connpool (-1) tsfd s
            (r.1, [Action.tcpsock_init tsfd, Action.connect tsfd server] ++ r.2)
        | none =>
          let r := front_accept o connpool (-1) tsfd s
          (r.1, [Action.tcpsock_init tsfd, Action.connect tsfd server] ++ r.2)

/-- The function `na_front_server_callback` (event.c 426-596). -/
def na_front_server_callback (o : AcceptOracle) (s : System) : System × List Action :=
  front_finally (front_body o s)

/-! ## The system as a transition system -/

/-- A session of the system: a slot of `ClientPool`, or a session on the heap. -/
inductive SessionRef where
  | slot (i : Nat)
  | heap (j : Nat)
deriving DecidableEq, Repr

/-- The events that move the system: a run of the accept callback, the
termination of a live session, a tick of the health checker. -/
inductive Event where
  | accept (o : AcceptOracle)
  | terminate (r : SessionRef)
  | hc (o : HcOracle)

/-- The number of live sessions: the client slots in use and the sessions on
the heap. -/
def live (s : System) : Nat :=
  s.ClientPool.countP (fun c => c.is_used) + s.heap.length

/-- The termination routine run on a live session of the system; `none` when
the session is not live. -/
def terminate (s : System) : SessionRef → Option System
  | .slot i =>
    match s.ClientPool[i]? with
    | some c =>
      if c.is_used then
        let r := na_client_close s.st c
        some { s with st := r.st, ClientPool := s.ClientPool.set i r.client }
      else none
    | none => none
  | .heap j =>
    match s.heap[j]? with
    | some c =>
      let r := na_client_close s.st c
      some { s with st := r.st, heap := s.heap.eraseIdx j }
    | none => none

/-- One event; `none` when the event cannot happen or ends the process. -/
def step (sw : na_env_t → na_connpool_t × na_connpool_t) (s : System) : Event → Option System
  | .accept o => some (na_front_server_callback o s).1
  | .terminate r => terminate s r
  | .hc o =>
    match na_hc_callback sw o s.st with
    | .ret r => some { s with st := r.1 }
    | .die _ => none

/-- A sequence of events, from left to right. -/
def run (sw : na_env_t → na_connpool_t × na_connpool_t) (s : System) :
    List Event → Option System
  | [] => some s
  | e :: es =>
    match step sw s e with
    | some s1 => run sw s1 es
    | none => none

/-- No event of the run changes the role flag `is_refused_active`: no
failover switch happens. -/
def no_switch (sw : na_env_t → na_connpool_t × na_connpool_t) (s : System) :
    List Event → Bool
  | [] => true
  | e :: es =>
    match step sw s e with
    | some s1 =>
      (s1.st.env.is_refused_active == s.st.env.is_refused_active) && no_switch sw s1 es
    | none => true

/-- An initial state: no sessions and `current_conn = 0`. -/
def initial (s : System) : Prop :=
  s.heap = [] ∧ (∀ c ∈ s.ClientPool, c.is_used = false) ∧ s.st.env.current_conn = 0

/-! ## Vocabulary of the statements -/

/-- An entry of the trace that is a `read` or a `write`. -/
def Action.is_rw : Action → Bool
  | .read _ _ _ => true
  | .write _ _ => true
  | .write_failed _ => true
  | _ => false

/-- The bytes that the `write` calls of a trace have handed over, in order. -/
def written : List Action → List Nat
  | [] => []
  | .write _ sent :: t => sent ++ written t
  | _ :: t => written t

/-- The callback gets as far as its `read` or `write`: the role check and the
loop bound let it pass. -/
def passes_checks (st : Shared) (client : na_client_t) : Prop :=
  role_check st.env client = false ∧ (loop_check st.env client).1 = false

instance (st : Shared) (client : na_client_t) : Decidable (passes_checks st client) := by
  unfold passes_checks; infer_instance

/-- Consecutive runs of `na_target_server_callback` on one session for the
readiness `revents`, the i-th with the outcomes `os[i]`; the traces are
concatenated. -/
def ts_callbacks (mp : Memproto) (revents : Nat) :
    Shared → na_client_t → List Oracle → Outcome CbResult
  | st, c, [] => .ret { st := st, client := c, trace := [] }
  | st, c, o :: os =>
    match na_target_server_callback mp o revents st c with
    | .die e => .die e
    | .ret r =>
      match ts_callbacks mp revents r.st r.client os with
      | .die e => .die e
      | .ret r2 => .ret { r2 with trace := r.trace ++ r2.trace }

/-- Every callback of the sequence reaches its `write`, which returns a number
`n` of bytes with `0 ≤ n ≤ crbufsize - swbufsize`. -/
def writes_in_range (mp : Memproto) (revents : Nat) :
    Shared → na_client_t → List Oracle → Prop
  | _, _, [] => True
  | st, c, o :: os =>
    passes_checks st c ∧
    (∃ n, o.write = .ok n ∧ n ≤ c.crbufsize - c.swbufsize) ∧
    match na_target_server_callback mp o revents st c with
    | .die _ => False
    | .ret r => writes_in_range mp revents r.st r.client os

/-- Which probe command the `k`-th one is, and whether it succeeded. -/
def hc_command_ok (tsfd : Int) (hostname : List Nat) (out : Nat → CmdOutcome) (k : Nat) : Bool :=
  if k % 3 = 0 then is_success_command tsfd (hc_scmd hostname) STORED (out k)
  else if k % 3 = 1 then is_success_command tsfd (hc_gcmd hostname) (hc_gres hostname) (out k)
  else is_success_command tsfd (hc_dcmd hostname) DELETED (out k)

/-! ## Concrete values, to evaluate the definitions on -/

/-- A pool of two slots, the first reserved. -/
def ex_pool : na_connpool_t := { fd_pool := [5, 6], mark := [1, 0] }

/-- An environment in the active role with room for one connection. -/
def ex_env : na_env_t :=
  { is_refused_active := false, is_refused_accept := false, is_use_backup := true
    loop_max := 0, conn_max := 1, current_conn := 0, current_conn_max := 0
    connpool_max := 2, client_pool_max := 2, worker_max := 1, is_worker_busy := [true]
    request_bufsize := 16, response_bufsize := 16, try_max := 1, tsfd := 3
    connpool_active := { fd_pool := [5, 6], mark := [0, 0] }
    connpool_backup := { fd_pool := [7, 8], mark := [0, 0] } }

/-- The shared state around `ex_env`. -/
def ex_shared : Shared :=
  { env := ex_env, GracefulPhase := .NA_GRACEFUL_PHASE_NORMAL, errno := .other 0 }

/-- The shared state after a switch to the backup role. -/
def ex_shared_backup : Shared :=
  { ex_shared with env := { ex_env with is_refused_active := true } }

/-- A session on pool slot 0 and in a client slot, waiting for a request. -/
def ex_client : na_client_t :=
  { client_zero with
    cfd := 10, tsfd := 5
    c_watcher := { active := true, fd := 10, events := EV_READ }
    ts_watcher := { active := false, fd := 5, events := EV_NONE }
    is_use_connpool := true, is_use_client_pool := true, is_used := true
    request_bufsize := 16, response_bufsize := 16 }

/-- A stand-in for the framer of `memproto.c`: the command is told from the
first byte, the counts are the numbers of `'\n'` and of `'V'` bytes. -/
def ex_mp : Memproto :=
  { na_memproto_detect_command := fun buf =>
      match buf with
      | [] => .NA_MEMPROTO_CMD_NOT_DETECTED
      | b :: _ =>
        if b = 103 then .NA_MEMPROTO_CMD_GET
        else if b = 115 then .NA_MEMPROTO_CMD_SET
        else if b = 113 then .NA_MEMPROTO_CMD_QUIT
        else if b = 100 then .OTHER 0
        else .NA_MEMPROTO_CMD_UNKNOWN
    na_memproto_count_request_get := fun buf size => ((buf.take size).count 10 : Nat)
    na_memproto_count_response_get := fun buf size => ((buf.take size).count 86 : Nat) }

/-- Outcomes of a callback: `read` delivers `bytes`, `write` takes `n` bytes;
the clock stands still. -/
def ex_oracle (bytes : List Nat) (n : Nat) : Oracle :=
  { read := .ok bytes, write := .ok n, tcpsock_init := 9, connect := none
    gettime := fun t => t, slow_query_check := fun t => t }

/-- The bytes of `get a\r\n`. -/
def ex_get_request : List Nat := [103, 101, 116, 32, 97, 13, 10]

/-- A session waiting for the response to `cmd`, one item requested. -/
def ex_client_tr (cmd : na_memproto_cmd_t) : na_client_t :=
  { ex_client with
    c_watcher := { active := false, fd := 10, events := EV_READ }
    ts_watcher := { active := true, fd := 5, events := EV_READ }
    crbuf := ex_get_request ++ [0], crbufsize := 7, swbufsize := 7
    event_state := .NA_EVENT_STATE_TARGET_READ, cmd := cmd, req_cnt := 1 }

/-- The bytes of `VALUE a 0 1\r\nb\r\nEND\r\n`. -/
def ex_get_response : List Nat :=
  [86, 65, 76, 85, 69, 32, 97, 32, 48, 32, 49, 13, 10, 98, 13, 10, 69, 78, 68, 13, 10]

/-- The bytes of `STORED\r\n`. -/
def ex_stored : List Nat := [83, 84, 79, 82, 69, 68, 13, 10]

/-- A session with the response to a get in its buffer, about to write it to
the client. -/
def ex_client_cw : na_client_t :=
  { ex_client_tr .NA_MEMPROTO_CMD_GET with
    c_watcher := { active := true, fd := 10, events := EV_WRITE }
    ts_watcher := { active := false, fd := 5, events := EV_READ }
    srbuf := ex_get_response ++ [0], srbufsize := 21, res_cnt := 1
    event_state := .NA_EVENT_STATE_CLIENT_WRITE }

/-- The shared state with a loop bound of 5. -/
def ex_shared_loop : Shared := { ex_shared with env := { ex_env with loop_max := 5 } }

/-- A session with the request `get a\r\n` read, about to forward it. -/
def ex_client_tw : na_client_t :=
  { ex_client with
    c_watcher := { active := false, fd := 10, events := EV_READ }
    ts_watcher := { active := true, fd := 5, events := EV_WRITE }
    crbuf := ex_get_request ++ [0], crbufsize := 7
    event_state := .NA_EVENT_STATE_TARGET_WRITE, cmd := .NA_MEMPROTO_CMD_GET, req_cnt := 1 }

/-- A system with the two sessions `ex_client_cw` and `ex_client_tw` in its
client slots, the first on slot 0 of the active pool. -/
def ex_system : System :=
  { st := { ex_shared with env := { ex_env with
      current_conn := 2, connpool_active := { fd_pool := [5, 6], mark := [1, 1] } } }
    ClientPool := [ex_client_cw, { ex_client_tw with cur_pool := 1, tsfd := 6 }]
    heap := [] }

/-- The number of failed commands among the first `m`. -/
def hc_failed (tsfd : Int) (hostname : List Nat) (out : Nat → CmdOutcome) (m : Nat) : Nat :=
  ((List.range m).filter (fun k => !hc_command_ok tsfd hostname out k)).length

/-- A stand-in for `na_connpool_switch`: exchange the two pools. -/
def ex_switch (env : na_env_t) : na_connpool_t × na_connpool_t :=
  (env.connpool_backup, env.connpool_active)

/-- Outcomes of a health-check tick in which every probe command fails. -/
def ex_hc_down : HcOracle :=
  { tcpsock_init := 4, connect := none, hostname := [104]
    probe := fun _ => { write := .err .EPIPE, read := .err .EPIPE } }

/-- A system with two free client slots and room for one connection. -/
def ex_init : System :=
  { st := ex_shared
    ClientPool := [{ client_zero with tsfd := -1 }, { client_zero with tsfd := -1 }]
    heap := [] }

/-- Outcomes of a run of the accept callback in which every call succeeds. -/
def ex_accept (cfd : Int) : AcceptOracle :=
  { assign_r1 := 0, assign_r2 := 0, assign_sock := 20, tcpsock_init := 21, connect := none
    accept := cfd, client_r1 := 0, client_r2 := 1
    malloc_client := true, malloc_crbuf := true, malloc_srbuf := true, queue_push := true }

/-- Every client slot in use belongs to a session that knows it uses a slot. -/
def slots_wf (s : System) : Prop :=
  ∀ c ∈ s.ClientPool, c.is_used = true → c.is_use_client_pool = true

/-- What the accept callback may do to the counts: nothing, or one more live
session and one more counted connection; the bound and the role stay. -/
def Moves (s s1 : System) : Prop :=
  s1.st.env.conn_max = s.st.env.conn_max ∧
  s1.st.env.is_refused_active = s.st.env.is_refused_active ∧
  (slots_wf s → slots_wf s1) ∧
  ((live s1 = live s ∧ s1.st.env.current_conn = s.st.env.current_conn) ∨
    (live s1 = live s + 1 ∧ s1.st.env.current_conn = s.st.env.current_conn + 1))

/-- The shared state in the graceful phase stop_accept with `current_conn`
set to `n`. -/
def ex_shared_stop (n : Nat) : Shared :=
  { ex_shared with
    env := { ex_env with current_conn := n }
    GracefulPhase := .NA_GRACEFUL_PHASE_STOP_ACCEPT }

/-- A system with a free pool slot whose two client slots are in use. -/
def ex_system_full : System :=
  { st := { ex_shared with env := { ex_env with
      conn_max := 3
      current_conn := 2
      connpool_active := { fd_pool := [5, 6], mark := [1, 0] } } }
    ClientPool := ex_system.ClientPool
    heap := [] }

/-- The error an upstream write failure of a pooled session is reported with:
`errno` is read after the reconnect, which has overwritten it when the
connect did not succeed at once. -/
def pooled_write_error (e : Errno) (connect : Option Errno) : na_error_t :=
  match connect with
  | none => if e = .EPIPE then .NA_ERROR_BROKEN_PIPE else .NA_ERROR_FAILED_WRITE
  | some e2 => if e2 = .EPIPE then .NA_ERROR_BROKEN_PIPE else .NA_ERROR_FAILED_WRITE

/-- A pooled session in TARGET_WRITE on slot 0 of the active pool, the slot
marked. -/
def ex_system_tw : Shared :=
  { ex_shared with env := { ex_env with
      connpool_active := { fd_pool := [5, 6], mark := [1, 0] } } }

/-- Outcomes of an upstream-writable callback whose `write` fails with `e`
and whose reconnect creates socket 9, `connect` reporting `c`. -/
def ex_oracle_wfail (e : Errno) (c : Option Errno) : Oracle :=
  { ex_oracle [] 0 with write := .err e, connect := c }

/-- The errors a trace reports with `NA_ERROR_OUTPUT_MESSAGE`, in order. -/
def errors : List Action → List na_error_t
  | [] => []
  | .error_output e :: t => e :: errors t
  | _ :: t => errors t

/-- The errors reported by a callback that returns; none when the process
ends. -/
def errors_of : Outcome CbResult → List na_error_t
  | .ret r => errors r.trace
  | .die _ => []

/-- The fields of a session that the loop bound and the buffer growth are
about: `loop_cnt`, the recorded role, the two capacities and the two sizes
read so far. -/
def core (c : na_client_t) : Nat × Bool × Nat × Nat × Nat × Nat :=
  (c.loop_cnt, c.is_refused_active, c.request_bufsize, c.response_bufsize,
    c.crbufsize, c.srbufsize)

/-- An entry of the trace that closes a descriptor. -/
def Action.is_close : Action → Bool
  | .close _ => true
  | _ => false

/-- The callback has run the termination routine. -/
def was_closed (r : CbResult) : Bool := r.trace.any Action.is_close

/-- One invocation of a callback of a session: which watcher fired (`ts` for
the upstream watcher, that is `na_target_server_callback`), the event mask,
the outcome of the system calls, and the shared state at that moment. -/
structure CbCall where
  ts : Bool
  revents : Nat
  o : Oracle
  st : Shared

/-- The callback that a call invokes on the session. -/
def run_call (mp : Memproto) (c : na_client_t) (call : CbCall) : Outcome CbResult :=
  if call.ts then na_target_server_callback mp call.o call.revents call.st c
  else .ret (na_client_callback mp call.o call.revents call.st c)

/-- The successive callbacks of one session: each call runs on the session
as the previous one left it; the run ends with the call that runs the
termination routine, or that ends the process. -/
def session_calls (mp : Memproto) : na_client_t → List CbCall → List (Outcome CbResult)
  | _, [] => []
  | c, call :: rest =>
    match run_call mp c call with
    | .die e => [.die e]
    | .ret r => .ret r :: (if was_closed r then [] else session_calls mp r.client rest)

/-- The number of bytes that the `read` of a call delivers. -/
def CbCall.nread (call : CbCall) : Nat :=
  match call.o.read with
  | .ok b => b.length
  | .err _ => 0

/-- The call is a client-writable callback whose `write` sends the last byte
of the response (event.c 399-417). -/
def completes (c : na_client_t) (call : CbCall) : Bool :=
  !call.ts && !hasFlag call.revents EV_READ && hasFlag call.revents EV_WRITE &&
    (match call.o.write with
      | .ok n => !decide (c.cwbufsize + n < c.srbufsize)
      | .err _ => false)

/-- The core fields after a call that passes both checks at the head of the
callback. -/
def core_after (c : na_client_t) (call : CbCall) : Nat × Bool × Nat × Nat × Nat × Nat :=
  let lc := (loop_check call.st.env c).2.loop_cnt
  if hasFlag call.revents EV_READ then
    if call.ts then
      (lc, c.is_refused_active, c.request_bufsize,
        (grow c.srbuf c.srbufsize c.response_bufsize).2, c.crbufsize,
        c.srbufsize + call.nread)
    else
      (lc, c.is_refused_active, (grow c.crbuf c.crbufsize c.request_bufsize).2,
        c.response_bufsize, c.crbufsize + call.nread, c.srbufsize)
  else if completes c call then
    (lc, c.is_refused_active, call.st.env.request_bufsize, call.st.env.response_bufsize, 0, 0)
  else
    (lc, c.is_refused_active, c.request_bufsize, c.response_bufsize, c.crbufsize, c.srbufsize)

/-- A client-readable call under a loop bound of 5 whose `read` delivers the
single byte `g`. -/
def ex_call_read : CbCall :=
  { ts := false, revents := EV_READ, o := ex_oracle [103] 0, st := ex_shared_loop }

/-- The session of `ex_client_cw` with the response capacity that its 21-byte
response needed: 30, grown from the configured 16. -/
def ex_client_grown : na_client_t := { ex_client_cw with response_bufsize := 30 }

/-- A session waiting for the rest of the response to a get: the first 16
bytes are in the buffer, which is full. -/
def ex_client_full : na_client_t :=
  { ex_client_tr .NA_MEMPROTO_CMD_GET with
    srbuf := ex_get_response.take 16 ++ [0], srbufsize := 16 }

/-- The upstream-readable call that delivers the last 5 bytes of the response. -/
def ex_call_grow : CbCall :=
  { ts := true, revents := EV_READ, o := ex_oracle (ex_get_response.drop 16) 0, st := ex_shared }

/-- The client-writable call whose `write` takes all 21 bytes of the response. -/
def ex_call_done : CbCall :=
  { ts := false, revents := EV_WRITE, o := ex_oracle [] 21, st := ex_shared }

/-- The capacities of the session after each callback of a run. -/
def capacities (outs : List (Outcome CbResult)) : List (Option (Nat × Nat)) :=
  outs.map fun out =>
    match out with
    | .ret r => some (r.client.request_bufsize, r.client.response_bufsize)
    | .die _ => none

/-- The sizes read so far fit the capacities, and both capacities are at
least 3. -/
def sizes_fit (c : na_client_t) : Prop :=
  c.crbufsize ≤ c.request_bufsize ∧ c.srbufsize ≤ c.response_bufsize ∧
  3 ≤ c.request_bufsize ∧ 3 ≤ c.response_bufsize

/-- One step of a session: the session before the call, the call, and its
outcome. -/
structure Step where
  pre : na_client_t
  call : CbCall
  out : Outcome CbResult

/-- The steps of the run of a session, in the order of `session_calls`. -/
def session_steps (mp : Memproto) : na_client_t → List CbCall → List Step
  | _, [] => []
  | c, call :: rest =>
    { pre := c, call := call, out := run_call mp c call } ::
      (match run_call mp c call with
        | .ret r => if was_closed r then [] else session_steps mp r.client rest
        | .die _ => [])

/-- Both blocks hold at least capacity + 1 bytes (they are allocated with
`malloc(capacity + 1)`, event.c 517-518 and 724-725), and the capacities are
at least the configured `R` and `S`. -/
def allocated (R S : Nat) (c : na_client_t) : Prop :=
  R ≤ c.request_bufsize ∧ S ≤ c.response_bufsize ∧
  c.request_bufsize + 1 ≤ c.crbuf.length ∧ c.response_bufsize + 1 ≤ c.srbuf.length

/-- The termination routine makes no `read` and no `write`. -/
theorem client_close_no_rw (st : Shared) (client : na_client_t) :
    ∀ a ∈ (na_client_close st client).trace, a.is_rw = false := by
  intro a ha
  simp only [na_client_close, List.mem_append, List.mem_cons, List.mem_singleton,
    List.not_mem_nil, or_false] at ha
  rcases ha with ((rfl | rfl | rfl) | ha) | ha
  · rfl
  · rfl
  · rfl
  · split at ha
    · split at ha
      · simp only [List.mem_singleton] at ha; subst ha; rfl
      · simp at ha
    · simp only [List.mem_singleton] at ha; subst ha; rfl
  · split at ha
    · simp at ha
    · simp only [List.mem_singleton] at ha; subst ha; rfl

/-- What the termination routine leaves of the session: the buffers, sizes,
capacities, counters, command and state are untouched, both descriptors are -1. -/
theorem client_close_client (st : Shared) (client : na_client_t) :
    let r := na_client_close st client
    r.client.crbuf = client.crbuf ∧ r.client.srbuf = client.srbuf ∧
    r.client.crbufsize = client.crbufsize ∧ r.client.cwbufsize = client.cwbufsize ∧
    r.client.srbufsize = client.srbufsize ∧ r.client.swbufsize = client.swbufsize ∧
    r.client.request_bufsize = client.request_bufsize ∧
    r.client.response_bufsize = client.response_bufsize ∧
    r.client.loop_cnt = client.loop_cnt ∧
    r.client.cfd = -1 ∧ r.client.tsfd = -1 ∧
    r.client.event_state = client.event_state ∧ r.client.cmd = client.cmd ∧
    r.client.req_cnt = client.req_cnt ∧ r.client.res_cnt = client.res_cnt := by
  simp only [na_client_close, ev_io_stop]
  split <;> simp

/-- The same for `NA_EVENT_FAIL`, which adds the stop of the callback's own
watcher and the error message. -/
theorem event_fail_client (e : na_error_t) (w : watcher_id) (st : Shared)
    (client : na_client_t) :
    let r := NA_EVENT_FAIL e w st client
    (∀ a ∈ r.trace, a.is_rw = false) ∧
    r.client.crbuf = client.crbuf ∧ r.client.srbuf = client.srbuf ∧
    r.client.crbufsize = client.crbufsize ∧ r.client.cwbufsize = client.cwbufsize ∧
    r.client.srbufsize = client.srbufsize ∧ r.client.swbufsize = client.swbufsize ∧
    r.client.request_bufsize = client.request_bufsize ∧
    r.client.response_bufsize = client.response_bufsize ∧
    r.client.loop_cnt = client.loop_cnt ∧
    r.client.cfd = -1 ∧ r.client.tsfd = -1 := by
  have h1 := client_close_no_rw st (ev_io_stop w client)
  have h2 := client_close_client st (ev_io_stop w client)
  simp only at h2
  obtain ⟨a1, a2, a3, a4, a5, a6, a7, a8, a9, a10, a11, -⟩ := h2
  have hw : ∀ c : na_client_t, (ev_io_stop w c).crbuf = c.crbuf ∧ (ev_io_stop w c).srbuf = c.srbuf ∧
      (ev_io_stop w c).crbufsize = c.crbufsize ∧ (ev_io_stop w c).cwbufsize = c.cwbufsize ∧
      (ev_io_stop w c).srbufsize = c.srbufsize ∧ (ev_io_stop w c).swbufsize = c.swbufsize ∧
      (ev_io_stop w c).request_bufsize = c.request_bufsize ∧
      (ev_io_stop w c).response_bufsize = c.response_bufsize ∧
      (ev_io_stop w c).loop_cnt = c.loop_cnt := by
    intro c; cases w <;> simp [ev_io_stop]
  obtain ⟨b1, b2, b3, b4, b5, b6, b7, b8, b9⟩ := hw client
  refine ⟨?_, ?_⟩
  · intro a ha
    simp only [NA_EVENT_FAIL, na_event_stop, List.mem_append, List.mem_cons,
      List.mem_singleton] at ha
    rcases ha with (rfl | ha) | ha
    · rfl
    · exact h1 a ha
    · simp only [List.not_mem_nil, or_false] at ha
      subst ha; rfl
  · simp only [NA_EVENT_FAIL, na_event_stop]
    exact ⟨a1.trans b1, a2.trans b2, a3.trans b3, a4.trans b4, a5.trans b5, a6.trans b6,
      a7.trans b7, a8.trans b8, a9.trans b9, a10, a11⟩

/-- C1: when the role recorded in the session differs from the role of the
environment, or `is_refused_accept` is set, both callbacks, whatever the
readiness event, run the termination routine and report
`NA_ERROR_INVALID_CONNPOOL`; no `read` or `write` is made and the buffers,
the four sizes, the capacities and the loop counter of the session are as
before. -/
theorem C1_role_mismatch_terminates (mp : Memproto) (o : Oracle) (revents : Nat)
    (st : Shared) (client : na_client_t)
    (h : client.is_refused_active ≠ st.env.is_refused_active ∨ st.env.is_refused_accept = true) :
    ∃ rc rt,
      na_client_callback mp o revents st client = rc ∧
      na_target_server_callback mp o revents st client = .ret rt ∧
      rc.st = (na_client_close st (ev_io_stop .c_watcher client)).st ∧
      rc.client = (na_client_close st (ev_io_stop .c_watcher client)).client ∧
      rt.st = (na_client_close st (ev_io_stop .ts_watcher client)).st ∧
      rt.client = (na_client_close st (ev_io_stop .ts_watcher client)).client ∧
      rc.trace = Action.ev_io_stop .c_watcher ::
        (na_client_close st (ev_io_stop .c_watcher client)).trace
          ++ [Action.error_output .NA_ERROR_INVALID_CONNPOOL] ∧
      rt.trace = Action.ev_io_stop .ts_watcher ::
        (na_client_close st (ev_io_stop .ts_watcher client)).trace
          ++ [Action.error_output .NA_ERROR_INVALID_CONNPOOL] ∧
      (∀ r ∈ [rc, rt],
        (∀ a ∈ r.trace, a.is_rw = false) ∧
        r.client.crbuf = client.crbuf ∧ r.client.srbuf = client.srbuf ∧
        r.client.crbufsize = client.crbufsize ∧ r.client.cwbufsize = client.cwbufsize ∧
        r.client.srbufsize = client.srbufsize ∧ r.client.swbufsize = client.swbufsize ∧
        r.client.request_bufsize = client.request_bufsize ∧
        r.client.response_bufsize = client.response_bufsize ∧
        r.client.loop_cnt = client.loop_cnt ∧
        r.client.cfd = -1 ∧ r.client.tsfd = -1) := by
  have hr : role_check st.env client = true := by
    unfold role_check
    rcases h with h | h
    · cases h1 : client.is_refused_active <;> cases h2 : st.env.is_refused_active <;>
        simp_all
    · simp [h]
  have hc : na_client_callback mp o revents st client
      = NA_EVENT_FAIL .NA_ERROR_INVALID_CONNPOOL .c_watcher st client := by
    simp only [na_client_callback, hr, if_true]
  have ht : na_target_server_callback mp o revents st client
      = .ret (NA_EVENT_FAIL .NA_ERROR_INVALID_CONNPOOL .ts_watcher st client) := by
    simp only [na_target_server_callback, hr, if_true]
  refine ⟨_, _, hc, ht, rfl, rfl, rfl, rfl, rfl, rfl, ?_⟩
  intro r hmem
  simp only [List.mem_cons, List.mem_singleton, List.not_mem_nil, or_false] at hmem
  rcases hmem with rfl | rfl
  · exact event_fail_client _ _ st client
  · exact event_fail_client _ _ st client

/-- C1 at a concrete input: a session born in the active role meets an
environment that has switched to the backup role. -/
theorem C1_role_mismatch_terminates_witness :
    (ex_client.is_refused_active ≠ ex_shared_backup.env.is_refused_active
      ∨ ex_shared_backup.env.is_refused_accept = true) ∧
    ∃ rc rt,
      na_client_callback ex_mp (ex_oracle [103] 0) EV_READ ex_shared_backup ex_client = rc ∧
      na_target_server_callback ex_mp (ex_oracle [103] 0) EV_READ ex_shared_backup ex_client
        = .ret rt ∧
      (∀ a ∈ rc.trace ++ rt.trace, a.is_rw = false) ∧
      rc.client.crbufsize = 0 ∧ rt.client.cfd = -1 := by
  refine ⟨Or.inl (by decide), ?_⟩
  obtain ⟨rc, rt, h1, h2, -, -, -, -, -, -, h5⟩ :=
    C1_role_mismatch_terminates ex_mp (ex_oracle [103] 0) EV_READ ex_shared_backup ex_client
      (Or.inl (by decide))
  refine ⟨rc, rt, h1, h2, ?_, ?_, ?_⟩
  · intro a ha
    rcases List.mem_append.1 ha with ha | ha
    · exact (h5 rc (by simp)).1 a ha
    · exact (h5 rt (by simp)).1 a ha
  · exact (h5 rc (by simp)).2.2.2.1
  · exact (h5 rt (by simp)).2.2.2.2.2.2.2.2.2.2.1

/-- The loop check touches nothing of the session but `loop_cnt`. -/
theorem loop_check_snd (env : na_env_t) (c : na_client_t) :
    (loop_check env c).2 = { c with loop_cnt := (loop_check env c).2.loop_cnt } := by
  unfold loop_check; split <;> rfl

/-- What `na_event_stop` leaves of the session, and that it closes the client socket. -/
theorem event_stop_client (w : watcher_id) (st : Shared) (client : na_client_t) :
    let r := na_event_stop w st client
    r.client.crbuf = client.crbuf ∧ r.client.crbufsize = client.crbufsize ∧
    r.client.cmd = client.cmd ∧ r.client.event_state = client.event_state ∧
    r.client.cfd = -1 ∧ Action.close client.cfd ∈ r.trace := by
  have h2 := client_close_client st (ev_io_stop w client)
  simp only at h2
  obtain ⟨a1, -, a3, -, -, -, -, -, -, a10, -, a12, a13, -, -⟩ := h2
  have hw : (ev_io_stop w client).crbuf = client.crbuf ∧
      (ev_io_stop w client).crbufsize = client.crbufsize ∧
      (ev_io_stop w client).cmd = client.cmd ∧
      (ev_io_stop w client).event_state = client.event_state ∧
      (ev_io_stop w client).cfd = client.cfd := by
    cases w <;> simp [ev_io_stop]
  obtain ⟨b1, b2, b3, b4, b5⟩ := hw
  refine ⟨a1.trans b1, a3.trans b2, a13.trans b3, a12.trans b4, a10, ?_⟩
  simp only [na_event_stop, na_client_close, b5]
  simp

/-- The decision taken after a client `read` of at least one byte. -/
theorem client_request_spec (mp : Memproto) (st : Shared) (c : na_client_t)
    (bytes : List Nat) (t : List Action)
    (hstate : c.event_state = .NA_EVENT_STATE_CLIENT_READ)
    (ht : ∀ fd, Action.close fd ∉ t) :
    let r := client_request mp st c bytes t
    let size := c.crbufsize + bytes.length
    let buf := bufWrite (bufWrite c.crbuf c.crbufsize bytes) size [0]
    let cmd := mp.na_memproto_detect_command buf
    let req_cnt := mp.na_memproto_count_request_get buf size
    let crlf := bufAt buf (size - 2) = CR ∧ bufAt buf (size - 1) = LF
    let ready := cmd ≠ .NA_MEMPROTO_CMD_QUIT ∧ 2 ≤ size ∧ crlf ∧
      cmd ≠ .NA_MEMPROTO_CMD_UNKNOWN ∧ (cmd = .NA_MEMPROTO_CMD_SET → 2 ≤ req_cnt)
    let terminated := cmd = .NA_MEMPROTO_CMD_QUIT ∨
      (cmd = .NA_MEMPROTO_CMD_UNKNOWN ∧ 2 ≤ size ∧ crlf)
    r.client.crbuf = buf ∧ r.client.crbufsize = size ∧ r.client.cmd = cmd ∧
    (r.client.event_state = .NA_EVENT_STATE_TARGET_WRITE ↔ ready) ∧
    (ready → r.client.ts_watcher = { active := true, fd := c.tsfd, events := EV_WRITE } ∧
      r.client.c_watcher.active = false ∧
      ∀ fd, Action.close fd ∉ r.trace) ∧
    (¬ ready → r.client.event_state = .NA_EVENT_STATE_CLIENT_READ) ∧
    (terminated → Action.close c.cfd ∈ r.trace ∧ r.client.cfd = -1) ∧
    (¬ ready → ¬ terminated → r.client.c_watcher = c.c_watcher ∧
      r.client.ts_watcher = c.ts_watcher ∧ ∀ fd, Action.close fd ∉ r.trace) := by
  dsimp only
  unfold client_request
  dsimp only
  generalize bufWrite (bufWrite c.crbuf c.crbufsize bytes) (c.crbufsize + bytes.length) [0] = buf
  generalize mp.na_memproto_count_request_get buf (c.crbufsize + bytes.length) = cnt
  generalize mp.na_memproto_detect_command buf = cmd
  generalize c.crbufsize + bytes.length = size
  have hcr : (ends_crlf buf size = true) ↔ (bufAt buf (size - 2) = CR ∧ bufAt buf (size - 1) = LF) := by
    simp [ends_crlf]
  by_cases hq : cmd = .NA_MEMPROTO_CMD_QUIT
  · subst hq
    have hs := event_stop_client .c_watcher st
      { c with crbuf := buf, crbufsize := size, cmd := .NA_MEMPROTO_CMD_QUIT }
    dsimp only at hs
    obtain ⟨s1, s2, s3, s4, s5, s6⟩ := hs
    rw [if_pos rfl]
    have s4' := s4.trans hstate
    refine ⟨s1, s2, s3, ?_, ?_, ?_, ?_, ?_⟩ <;> simp [s4', s5, s6]
  · rw [if_neg hq]
    by_cases h2 : size < 2
    · have h2' : ¬ 2 ≤ size := by omega
      split <;> simp [h2, h2', hstate, ht, hq]
    · have h2' : 2 ≤ size := by omega
      by_cases hu : cmd = .NA_MEMPROTO_CMD_UNKNOWN
      · subst hu
        by_cases hc : ends_crlf buf size = true
        · have hs := event_stop_client .c_watcher st
            { c with crbuf := buf, crbufsize := size, cmd := .NA_MEMPROTO_CMD_UNKNOWN }
          dsimp only at hs
          obtain ⟨s1, s2, s3, s4, s5, s6⟩ := hs
          have hc' := hcr.1 hc
          have hgs : ¬ ((na_memproto_cmd_t.NA_MEMPROTO_CMD_UNKNOWN = .NA_MEMPROTO_CMD_GET)
              ∨ (na_memproto_cmd_t.NA_MEMPROTO_CMD_UNKNOWN = .NA_MEMPROTO_CMD_SET)) := by simp
          simp only [hgs, if_false, h2, hc, if_true]
          have s4' := s4.trans hstate
          refine ⟨s1, s2, s3, ?_, ?_, ?_, ?_, ?_⟩ <;> simp [s4', s5, s6, h2', hc']
        · have hc' : bufAt buf (size - 2) = CR → ¬ bufAt buf (size - 1) = LF :=
            fun a b => hc (hcr.2 ⟨a, b⟩)
          simp [h2, hc, hstate, ht]
          tauto
      · by_cases hc : ends_crlf buf size = true
        · have hc' := hcr.1 hc
          by_cases hset : cmd = .NA_MEMPROTO_CMD_SET
          · subst hset
            by_cases hcnt : cnt < 2
            · have : ¬ 2 ≤ cnt := by omega
              simp [h2, h2', hc, hc', hstate, ht, hcnt, this]
            · have : 2 ≤ cnt := by omega
              simp [h2, h2', hc, hc', ht, hcnt, this, na_event_switch, ev_io_stop,
                ev_io_set_start]
          · split <;>
              simp [h2, h2', hc, hc', ht, hu, hq, hset, na_event_switch, ev_io_stop,
                ev_io_set_start]
        · have hc' : bufAt buf (size - 2) = CR → ¬ bufAt buf (size - 1) = LF :=
            fun a b => hc (hcr.2 ⟨a, b⟩)
          split <;> simp [h2, hc, hstate, ht, hu, hq] <;> tauto

/-- C2: in a client-readable callback whose `read` returns n > 0 bytes, the
session goes from CLIENT_READ to TARGET_WRITE (upstream-write watcher armed,
nothing closed) if and only if the detected command is not quit, the request
(of at least 2 bytes) ends with CR LF, the command is not unknown and, for
set, `req_cnt ≥ 2`; otherwise the state is still CLIENT_READ, and the session
is terminated exactly for quit and for an unknown command ending in CR LF. -/
theorem C2_client_read_advance (mp : Memproto) (o : Oracle) (revents : Nat) (st : Shared)
    (client : na_client_t) (bytes : List Nat)
    (hp : passes_checks st client) (hev : hasFlag revents EV_READ = true)
    (hread : o.read = .ok bytes) (hn : 0 < bytes.length)
    (hstate : client.event_state = .NA_EVENT_STATE_CLIENT_READ) :
    let r := na_client_callback mp o revents st client
    let size := client.crbufsize + bytes.length
    let buf := bufWrite (bufWrite (grow client.crbuf client.crbufsize client.request_bufsize).1
      client.crbufsize bytes) size [0]
    let cmd := mp.na_memproto_detect_command buf
    let req_cnt := mp.na_memproto_count_request_get buf size
    let crlf := bufAt buf (size - 2) = CR ∧ bufAt buf (size - 1) = LF
    let ready := cmd ≠ .NA_MEMPROTO_CMD_QUIT ∧ 2 ≤ size ∧ crlf ∧
      cmd ≠ .NA_MEMPROTO_CMD_UNKNOWN ∧ (cmd = .NA_MEMPROTO_CMD_SET → 2 ≤ req_cnt)
    let terminated := cmd = .NA_MEMPROTO_CMD_QUIT ∨
      (cmd = .NA_MEMPROTO_CMD_UNKNOWN ∧ 2 ≤ size ∧ crlf)
    r.client.crbuf = buf ∧ r.client.crbufsize = size ∧ r.client.cmd = cmd ∧
    (r.client.event_state = .NA_EVENT_STATE_TARGET_WRITE ↔ ready) ∧
    (ready → r.client.ts_watcher = { active := true, fd := client.tsfd, events := EV_WRITE } ∧
      r.client.c_watcher.active = false ∧
      ∀ fd, Action.close fd ∉ r.trace) ∧
    (¬ ready → r.client.event_state = .NA_EVENT_STATE_CLIENT_READ) ∧
    (terminated → Action.close client.cfd ∈ r.trace ∧ r.client.cfd = -1) ∧
    (¬ ready → ¬ terminated → r.client.c_watcher = client.c_watcher ∧
      r.client.ts_watcher = client.ts_watcher ∧ ∀ fd, Action.close fd ∉ r.trace) := by
  obtain ⟨hr, hl⟩ := hp
  have hne : bytes.length ≠ 0 := by omega
  obtain ⟨lc, hlc⟩ : ∃ lc, (loop_check st.env client).2 = { client with loop_cnt := lc } :=
    ⟨_, loop_check_snd _ _⟩
  have hcb : na_client_callback mp o revents st client
      = client_request mp { st with errno := st.errno }
        { client with
          loop_cnt := lc
          crbuf := (grow client.crbuf client.crbufsize client.request_bufsize).1
          request_bufsize := (grow client.crbuf client.crbufsize client.request_bufsize).2 }
        bytes [Action.read client.c_watcher.fd client.crbufsize
          (size_sub (grow client.crbuf client.crbufsize client.request_bufsize).2
            client.crbufsize)] := by
    simp [na_client_callback, hr, hl, hev, hlc, client_readable, hread, hne, errno_after_read]
  have h := client_request_spec mp { st with errno := st.errno }
    { client with
      loop_cnt := lc
      crbuf := (grow client.crbuf client.crbufsize client.request_bufsize).1
      request_bufsize := (grow client.crbuf client.crbufsize client.request_bufsize).2 }
    bytes [Action.read client.c_watcher.fd client.crbufsize
      (size_sub (grow client.crbuf client.crbufsize client.request_bufsize).2
        client.crbufsize)] hstate (by simp)
  rw [← hcb] at h
  exact h

/-- C2 at a concrete input: the request `get a\r\n` read in one piece moves the
session to TARGET_WRITE. -/
theorem C2_client_read_advance_witness :
    passes_checks ex_shared ex_client ∧ hasFlag EV_READ EV_READ = true ∧
    0 < ex_get_request.length ∧
    (na_client_callback ex_mp (ex_oracle ex_get_request 0) EV_READ ex_shared
      ex_client).client.event_state = .NA_EVENT_STATE_TARGET_WRITE :=
  ⟨by decide, by decide, by decide,
    (C2_client_read_advance ex_mp (ex_oracle ex_get_request 0) EV_READ ex_shared ex_client
      ex_get_request (by decide) (by decide) rfl (by decide) rfl).2.2.2.1.2 (by decide)⟩

/-- The decision taken after an upstream `read` of at least one byte. -/
theorem ts_response_spec (mp : Memproto) (o : Oracle) (st : Shared) (c : na_client_t)
    (bytes : List Nat) (t : List Action)
    (hstate : c.event_state = .NA_EVENT_STATE_TARGET_READ) :
    let r := ts_response mp o st c bytes t
    let size := c.srbufsize + bytes.length
    let buf := bufWrite (bufWrite c.srbuf c.srbufsize bytes) size [0]
    let cnt := mp.na_memproto_count_response_get buf size
    let crlf := bufAt buf (size - 2) = CR ∧ bufAt buf (size - 1) = LF
    let ready := (c.cmd = .NA_MEMPROTO_CMD_GET ∧ cnt ≥ c.req_cnt) ∨
      (c.cmd ≠ .NA_MEMPROTO_CMD_GET ∧ 2 < size ∧ crlf)
    r.client.srbuf = buf ∧ r.client.srbufsize = size ∧ r.client.cmd = c.cmd ∧
    r.client.req_cnt = c.req_cnt ∧
    (c.cmd = .NA_MEMPROTO_CMD_GET → r.client.res_cnt = cnt) ∧
    (r.client.event_state = .NA_EVENT_STATE_CLIENT_WRITE ↔ ready) ∧
    (ready → r.client.c_watcher = { active := true, fd := c.cfd, events := EV_WRITE } ∧
      r.client.ts_watcher.active = false) ∧
    (¬ ready → r.client.event_state = .NA_EVENT_STATE_TARGET_READ ∧
      r.client.c_watcher = c.c_watcher ∧ r.client.ts_watcher = c.ts_watcher ∧ r.trace = t) := by
  dsimp only
  unfold ts_response
  dsimp only
  generalize bufWrite (bufWrite c.srbuf c.srbufsize bytes) (c.srbufsize + bytes.length) [0] = buf
  generalize mp.na_memproto_count_response_get buf (c.srbufsize + bytes.length) = cnt
  generalize c.srbufsize + bytes.length = size
  have hcr : (ends_crlf buf size = true) ↔
      (bufAt buf (size - 2) = CR ∧ bufAt buf (size - 1) = LF) := by
    simp [ends_crlf]
  by_cases hg : c.cmd = .NA_MEMPROTO_CMD_GET
  · by_cases hc : cnt ≥ c.req_cnt
    · simp [hg, hc, na_event_switch, ev_io_stop, ev_io_set_start]
    · simp [hg, hc, hstate]
  · by_cases h2 : 2 < size
    · by_cases hc : ends_crlf buf size = true
      · have hc' := hcr.1 hc
        simp [hg, h2, hc, hc', na_event_switch, ev_io_stop, ev_io_set_start]
      · simp [hg, h2, hc, hstate]
        tauto
    · simp [hg, h2, hstate]

/-- An upstream-readable callback whose `read` returns at least one byte. -/
theorem ts_read_spec (mp : Memproto) (o : Oracle) (revents : Nat) (st : Shared)
    (client : na_client_t) (bytes : List Nat)
    (hp : passes_checks st client) (hev : hasFlag revents EV_READ = true)
    (hread : o.read = .ok bytes) (hn : 0 < bytes.length)
    (hstate : client.event_state = .NA_EVENT_STATE_TARGET_READ) :
    ∃ r, na_target_server_callback mp o revents st client = .ret r ∧
      let size := client.srbufsize + bytes.length
      let buf := bufWrite (bufWrite (grow client.srbuf client.srbufsize
        client.response_bufsize).1 client.srbufsize bytes) size [0]
      let cnt := mp.na_memproto_count_response_get buf size
      let crlf := bufAt buf (size - 2) = CR ∧ bufAt buf (size - 1) = LF
      let ready := (client.cmd = .NA_MEMPROTO_CMD_GET ∧ cnt ≥ client.req_cnt) ∨
        (client.cmd ≠ .NA_MEMPROTO_CMD_GET ∧ 2 < size ∧ crlf)
      r.client.srbuf = buf ∧ r.client.srbufsize = size ∧ r.client.cmd = client.cmd ∧
      r.client.req_cnt = client.req_cnt ∧
      (client.cmd = .NA_MEMPROTO_CMD_GET → r.client.res_cnt = cnt) ∧
      (r.client.event_state = .NA_EVENT_STATE_CLIENT_WRITE ↔ ready) ∧
      (ready → r.client.c_watcher = { active := true, fd := client.cfd, events := EV_WRITE } ∧
        r.client.ts_watcher.active = false) ∧
      (¬ ready → r.client.event_state = .NA_EVENT_STATE_TARGET_READ ∧
        r.client.c_watcher = client.c_watcher ∧ r.client.ts_watcher = client.ts_watcher) := by
  obtain ⟨hr, hl⟩ := hp
  have hne : bytes.length ≠ 0 := by omega
  obtain ⟨lc, hlc⟩ : ∃ lc, (loop_check st.env client).2 = { client with loop_cnt := lc } :=
    ⟨_, loop_check_snd _ _⟩
  obtain ⟨tm, htm⟩ : ∃ tm, tm = (if client.times.na_from_ts_time_begin.isZero then
      { client.times with
        na_from_ts_time_begin := o.gettime client.times.na_from_ts_time_begin }
      else client.times) := ⟨_, rfl⟩
  have hcb : na_target_server_callback mp o revents st client
      = .ret (ts_response mp o { st with errno := st.errno }
        { client with
          loop_cnt := lc
          times := tm
          srbuf := (grow client.srbuf client.srbufsize client.response_bufsize).1
          response_bufsize := (grow client.srbuf client.srbufsize client.response_bufsize).2 }
        bytes [Action.read client.ts_watcher.fd client.srbufsize
          (size_sub (grow client.srbuf client.srbufsize client.response_bufsize).2
            client.srbufsize)]) := by
    simp [na_target_server_callback, hr, hl, hev, hlc, ts_readable, hread, hne,
      errno_after_read, htm]
  have h := ts_response_spec mp o { st with errno := st.errno }
    { client with
      loop_cnt := lc
      times := tm
      srbuf := (grow client.srbuf client.srbufsize client.response_bufsize).1
      response_bufsize := (grow client.srbuf client.srbufsize client.response_bufsize).2 }
    bytes [Action.read client.ts_watcher.fd client.srbufsize
      (size_sub (grow client.srbuf client.srbufsize client.response_bufsize).2
        client.srbufsize)] hstate
  refine ⟨_, hcb, ?_⟩
  dsimp only at h ⊢
  obtain ⟨h1, h2, h3, h4, h5, h6, h7, h8⟩ := h
  exact ⟨h1, h2, h3, h4, h5, h6, h7, fun hn => ⟨(h8 hn).1, (h8 hn).2.1, (h8 hn).2.2.1⟩⟩

/-- C4: for a session whose command is get, an upstream-readable callback
whose `read` returns n > 0 bytes appends them to the response buffer and
moves the session to CLIENT_WRITE if and only if
`na_memproto_count_response_get` of the buffer is at least `req_cnt`,
whatever the bytes are; otherwise the session stays in TARGET_READ. -/
theorem C4_get_response_advance (mp : Memproto) (o : Oracle) (revents : Nat) (st : Shared)
    (client : na_client_t) (bytes : List Nat)
    (hp : passes_checks st client) (hev : hasFlag revents EV_READ = true)
    (hread : o.read = .ok bytes) (hn : 0 < bytes.length)
    (hstate : client.event_state = .NA_EVENT_STATE_TARGET_READ)
    (hcmd : client.cmd = .NA_MEMPROTO_CMD_GET) :
    ∃ r, na_target_server_callback mp o revents st client = .ret r ∧
      let size := client.srbufsize + bytes.length
      let buf := bufWrite (bufWrite (grow client.srbuf client.srbufsize
        client.response_bufsize).1 client.srbufsize bytes) size [0]
      let cnt := mp.na_memproto_count_response_get buf size
      r.client.srbuf = buf ∧ r.client.srbufsize = size ∧ r.client.res_cnt = cnt ∧
      (r.client.event_state = .NA_EVENT_STATE_CLIENT_WRITE ↔ cnt ≥ client.req_cnt) ∧
      (cnt ≥ client.req_cnt →
        r.client.c_watcher = { active := true, fd := client.cfd, events := EV_WRITE } ∧
        r.client.ts_watcher.active = false) ∧
      (¬ cnt ≥ client.req_cnt → r.client.event_state = .NA_EVENT_STATE_TARGET_READ ∧
        r.client.c_watcher = client.c_watcher ∧ r.client.ts_watcher = client.ts_watcher) := by
  obtain ⟨r, hr, h⟩ := ts_read_spec mp o revents st client bytes hp hev hread hn hstate
  refine ⟨r, hr, ?_⟩
  dsimp only at h ⊢
  obtain ⟨h1, h2, -, -, h5, h6, h7, h8⟩ := h
  simp only [hcmd, true_and, ne_eq, not_true_eq_false, false_and, or_false] at h5 h6 h7 h8
  exact ⟨h1, h2, h5 trivial, h6, h7, h8⟩

/-- C4 at a concrete input: one `VALUE` line answers a get of one key. -/
theorem C4_get_response_advance_witness :
    passes_checks ex_shared (ex_client_tr .NA_MEMPROTO_CMD_GET) ∧
    ∃ r, na_target_server_callback ex_mp (ex_oracle ex_get_response 0) EV_READ ex_shared
        (ex_client_tr .NA_MEMPROTO_CMD_GET) = .ret r ∧
      r.client.event_state = .NA_EVENT_STATE_CLIENT_WRITE := by
  refine ⟨by decide, ?_⟩
  obtain ⟨r, hr, h⟩ := C4_get_response_advance ex_mp (ex_oracle ex_get_response 0) EV_READ
    ex_shared (ex_client_tr .NA_MEMPROTO_CMD_GET) ex_get_response (by decide) (by decide) rfl
    (by decide) rfl rfl
  exact ⟨r, hr, h.2.2.2.1.2 (by decide)⟩

/-- C5, refuted as stated: a response of exactly two bytes, CR LF, to a set
leaves the session in TARGET_READ although the buffer (size 2) ends in CR LF. -/
theorem C5_counterexample :
    passes_checks ex_shared (ex_client_tr .NA_MEMPROTO_CMD_SET) ∧
    (ex_client_tr .NA_MEMPROTO_CMD_SET).cmd ≠ .NA_MEMPROTO_CMD_GET ∧
    ∃ r, na_target_server_callback ex_mp (ex_oracle [CR, LF] 0) EV_READ ex_shared
        (ex_client_tr .NA_MEMPROTO_CMD_SET) = .ret r ∧
      2 ≤ r.client.srbufsize ∧
      bufAt r.client.srbuf (r.client.srbufsize - 2) = CR ∧
      bufAt r.client.srbuf (r.client.srbufsize - 1) = LF ∧
      r.client.event_state = .NA_EVENT_STATE_TARGET_READ ∧
      r.client.event_state ≠ .NA_EVENT_STATE_CLIENT_WRITE :=
  ⟨by decide, by decide, _, rfl, by decide, by decide, by decide, by decide, by decide⟩

/-- C5, amended: for a session whose command is not get, an upstream-readable
callback whose `read` returns n > 0 bytes moves the session to CLIENT_WRITE
if and only if the response buffer then holds more than 2 bytes and ends in
CR LF; otherwise (no CR LF at the end, or at most 2 bytes) the session stays
in TARGET_READ. -/
theorem C5_other_response_advance (mp : Memproto) (o : Oracle) (revents : Nat) (st : Shared)
    (client : na_client_t) (bytes : List Nat)
    (hp : passes_checks st client) (hev : hasFlag revents EV_READ = true)
    (hread : o.read = .ok bytes) (hn : 0 < bytes.length)
    (hstate : client.event_state = .NA_EVENT_STATE_TARGET_READ)
    (hcmd : client.cmd ≠ .NA_MEMPROTO_CMD_GET) :
    ∃ r, na_target_server_callback mp o revents st client = .ret r ∧
      let size := client.srbufsize + bytes.length
      let buf := bufWrite (bufWrite (grow client.srbuf client.srbufsize
        client.response_bufsize).1 client.srbufsize bytes) size [0]
      let crlf := bufAt buf (size - 2) = CR ∧ bufAt buf (size - 1) = LF
      r.client.srbuf = buf ∧ r.client.srbufsize = size ∧
      (r.client.event_state = .NA_EVENT_STATE_CLIENT_WRITE ↔ 2 < size ∧ crlf) ∧
      (2 < size ∧ crlf →
        r.client.c_watcher = { active := true, fd := client.cfd, events := EV_WRITE } ∧
        r.client.ts_watcher.active = false) ∧
      (¬ (2 < size ∧ crlf) → r.client.event_state = .NA_EVENT_STATE_TARGET_READ ∧
        r.client.c_watcher = client.c_watcher ∧ r.client.ts_watcher = client.ts_watcher) := by
  obtain ⟨r, hr, h⟩ := ts_read_spec mp o revents st client bytes hp hev hread hn hstate
  refine ⟨r, hr, ?_⟩
  dsimp only at h ⊢
  obtain ⟨h1, h2, -, -, -, h6, h7, h8⟩ := h
  simp only [hcmd, false_and, ne_eq, not_false_eq_true, true_and, false_or] at h6 h7 h8
  exact ⟨h1, h2, h6, h7, h8⟩

/-- C5 (amended) at a concrete input: `STORED\r\n` answers a set. -/
theorem C5_other_response_advance_witness :
    passes_checks ex_shared (ex_client_tr .NA_MEMPROTO_CMD_SET) ∧
    ∃ r, na_target_server_callback ex_mp (ex_oracle ex_stored 0) EV_READ ex_shared
        (ex_client_tr .NA_MEMPROTO_CMD_SET) = .ret r ∧
      r.client.event_state = .NA_EVENT_STATE_CLIENT_WRITE := by
  refine ⟨by decide, ?_⟩
  obtain ⟨r, hr, h⟩ := C5_other_response_advance ex_mp (ex_oracle ex_stored 0) EV_READ
    ex_shared (ex_client_tr .NA_MEMPROTO_CMD_SET) ex_stored (by decide) (by decide) rfl
    (by decide) rfl (by decide)
  exact ⟨r, hr, h.2.2.1.2 (by decide)⟩

/-- C6, refuted as stated: after the response to a get has been written
completely the session is back in CLIENT_READ, but its command is still get,
not not_detected; and a partial write under a loop bound changes `loop_cnt`
besides `cwbufsize`. -/
theorem C6_counterexample :
    (passes_checks ex_shared ex_client_cw ∧
      ex_client_cw.event_state = .NA_EVENT_STATE_CLIENT_WRITE ∧
      ex_client_cw.cwbufsize + 21 = ex_client_cw.srbufsize ∧
      (na_client_callback ex_mp (ex_oracle [] 21) EV_WRITE ex_shared ex_client_cw).client.event_state
        = .NA_EVENT_STATE_CLIENT_READ ∧
      (na_client_callback ex_mp (ex_oracle [] 21) EV_WRITE ex_shared ex_client_cw).client.cmd
        = .NA_MEMPROTO_CMD_GET ∧
      (na_client_callback ex_mp (ex_oracle [] 21) EV_WRITE ex_shared ex_client_cw).client.cmd
        ≠ .NA_MEMPROTO_CMD_NOT_DETECTED) ∧
    (passes_checks ex_shared_loop ex_client_cw ∧
      ex_client_cw.cwbufsize + 10 < ex_client_cw.srbufsize ∧
      (na_client_callback ex_mp (ex_oracle [] 10) EV_WRITE ex_shared_loop
        ex_client_cw).client.event_state = .NA_EVENT_STATE_CLIENT_WRITE ∧
      (na_client_callback ex_mp (ex_oracle [] 10) EV_WRITE ex_shared_loop
        ex_client_cw).client.loop_cnt ≠ ex_client_cw.loop_cnt) := by
  decide

/-- C6, amended: in CLIENT_WRITE, a client-writable callback whose `write`
completes the response puts the session back in CLIENT_READ with the four
sizes 0, `req_cnt = res_cnt = 0`, the capacities those of the environment and
the command as it was; a partial write leaves the state CLIENT_WRITE and
changes nothing of the session but `cwbufsize`, the loop counter, the time
stamps and the (re-armed) client watcher. -/
theorem C6_client_write (mp : Memproto) (o : Oracle) (revents : Nat) (st : Shared)
    (client : na_client_t) (n : Nat)
    (hp : passes_checks st client) (hr : hasFlag revents EV_READ = false)
    (hw : hasFlag revents EV_WRITE = true) (hwrite : o.write = .ok n)
    (hstate : client.event_state = .NA_EVENT_STATE_CLIENT_WRITE) :
    let r := na_client_callback mp o revents st client
    (client.srbufsize ≤ client.cwbufsize + n →
      r.client.event_state = .NA_EVENT_STATE_CLIENT_READ ∧
      r.client.crbufsize = 0 ∧ r.client.cwbufsize = 0 ∧
      r.client.srbufsize = 0 ∧ r.client.swbufsize = 0 ∧
      r.client.req_cnt = 0 ∧ r.client.res_cnt = 0 ∧
      r.client.cmd = client.cmd ∧
      r.client.request_bufsize = st.env.request_bufsize ∧
      r.client.response_bufsize = st.env.response_bufsize ∧
      r.client.c_watcher = { active := true, fd := client.c_watcher.fd, events := EV_READ }) ∧
    (client.cwbufsize + n < client.srbufsize →
      r.client.event_state = .NA_EVENT_STATE_CLIENT_WRITE ∧
      r.client.cwbufsize = client.cwbufsize + n ∧
      r.client = { client with
        cwbufsize := client.cwbufsize + n
        loop_cnt := r.client.loop_cnt
        times := r.client.times
        c_watcher := { active := true, fd := client.c_watcher.fd, events := EV_WRITE } }) := by
  obtain ⟨hrc, hl⟩ := hp
  obtain ⟨lc, hlc⟩ : ∃ lc, (loop_check st.env client).2 = { client with loop_cnt := lc } :=
    ⟨_, loop_check_snd _ _⟩
  intro r
  have hcb : r = client_writable o st { client with loop_cnt := lc } := by
    show na_client_callback mp o revents st client = _
    simp [na_client_callback, hrc, hl, hr, hw, hlc]
  rw [hcb]
  unfold client_writable
  simp only [hwrite]
  constructor
  · intro hle
    have : ¬ client.cwbufsize + n < client.srbufsize := by omega
    simp [this, na_event_switch, ev_io_stop, ev_io_set_start]
  · intro hlt
    simp [hlt, na_event_switch, ev_io_stop, ev_io_set_start, hstate]

/-- C6 (amended) at a concrete input: the 21 bytes of the response are written
in one piece. -/
theorem C6_client_write_witness :
    passes_checks ex_shared ex_client_cw ∧ hasFlag EV_WRITE EV_READ = false ∧
    hasFlag EV_WRITE EV_WRITE = true ∧
    (na_client_callback ex_mp (ex_oracle [] 21) EV_WRITE ex_shared ex_client_cw).client.crbufsize
      = 0 :=
  ⟨by decide, by decide, by decide,
    ((C6_client_write ex_mp (ex_oracle [] 21) EV_WRITE ex_shared ex_client_cw 21 (by decide)
      (by decide) (by decide) rfl rfl).1 (by decide)).2.1⟩

/-- The written bytes of two traces in a row. -/
theorem written_append (t1 t2 : List Action) :
    written (t1 ++ t2) = written t1 ++ written t2 := by
  induction t1 with
  | nil => rfl
  | cons a t ih =>
    cases a <;> simp [written, ih]

/-- Unsigned subtraction does not wrap when the result is not negative. -/
theorem size_sub_of_le (a b : Nat) (h : b ≤ a) (ha : a < SIZE_MOD) : size_sub a b = a - b := by
  unfold size_sub
  unfold SIZE_MOD at ha ⊢
  norm_num at ha ⊢
  rw [Nat.mod_eq_of_lt (by omega : b < 18446744073709551616)]
  omega

/-- One upstream-writable callback whose `write` returns `n` bytes. -/
theorem ts_write_step (mp : Memproto) (o : Oracle) (revents : Nat) (st : Shared)
    (client : na_client_t) (n : Nat)
    (hp : passes_checks st client) (hr : hasFlag revents EV_READ = false)
    (hw : hasFlag revents EV_WRITE = true) (hwrite : o.write = .ok n) :
    ∃ r, na_target_server_callback mp o revents st client = .ret r ∧
      r.client.crbuf = client.crbuf ∧ r.client.crbufsize = client.crbufsize ∧
      r.client.swbufsize = client.swbufsize + n ∧
      written r.trace = ((client.crbuf.drop client.swbufsize).take
        (size_sub client.crbufsize client.swbufsize)).take n ∧
      (client.swbufsize + n < client.crbufsize →
        r.client.event_state = client.event_state ∧
        r.client.ts_watcher = { active := true, fd := client.ts_watcher.fd, events := EV_WRITE }) ∧
      (¬ client.swbufsize + n < client.crbufsize →
        r.client.event_state = .NA_EVENT_STATE_TARGET_READ ∧
        r.client.ts_watcher = { active := true, fd := client.ts_watcher.fd, events := EV_READ }) := by
  obtain ⟨hrc, hl⟩ := hp
  obtain ⟨lc, hlc⟩ : ∃ lc, (loop_check st.env client).2 = { client with loop_cnt := lc } :=
    ⟨_, loop_check_snd _ _⟩
  have hcb : na_target_server_callback mp o revents st client
      = ts_writable o st { client with loop_cnt := lc } := by
    simp [na_target_server_callback, hrc, hl, hr, hw, hlc]
  rw [hcb]
  unfold ts_writable
  simp only [hwrite]
  by_cases hlt : client.swbufsize + n < client.crbufsize
  · simp [hlt, na_event_switch, ev_io_stop, ev_io_set_start, written]
  · simp [hlt, na_event_switch, ev_io_stop, ev_io_set_start, written]

/-- A prefix of a sequence of in-range writes is one. -/
theorem writes_in_range_take (mp : Memproto) (revents : Nat) :
    ∀ (os : List Oracle) (k : Nat) (st : Shared) (client : na_client_t),
      writes_in_range mp revents st client os →
      writes_in_range mp revents st client (os.take k) := by
  intro os
  induction os with
  | nil => intro k st client h; simpa using h
  | cons o os ih =>
    intro k st client h
    cases k with
    | zero => simp [writes_in_range]
    | succ k =>
      simp only [List.take_succ_cons, writes_in_range] at h ⊢
      obtain ⟨h1, h2, h3⟩ := h
      refine ⟨h1, h2, ?_⟩
      cases hcb : na_target_server_callback mp o revents st client with
      | die e => rw [hcb] at h3; exact h3.elim
      | ret r => rw [hcb] at h3; exact ih k r.st r.client h3

/-- The invariant of a run of upstream-writable callbacks. -/
theorem ts_write_run (mp : Memproto) (revents : Nat)
    (hr : hasFlag revents EV_READ = false) (hw : hasFlag revents EV_WRITE = true) :
    ∀ (os : List Oracle) (st : Shared) (client : na_client_t),
      client.swbufsize ≤ client.crbufsize → client.crbufsize < SIZE_MOD →
      (client.event_state = .NA_EVENT_STATE_TARGET_WRITE ∨
        (client.event_state = .NA_EVENT_STATE_TARGET_READ ∧
          client.swbufsize = client.crbufsize)) →
      writes_in_range mp revents st client os →
      ∃ r, ts_callbacks mp revents st client os = .ret r ∧
        r.client.crbuf = client.crbuf ∧ r.client.crbufsize = client.crbufsize ∧
        client.swbufsize ≤ r.client.swbufsize ∧ r.client.swbufsize ≤ r.client.crbufsize ∧
        written r.trace = (client.crbuf.drop client.swbufsize).take
          (r.client.swbufsize - client.swbufsize) ∧
        (r.client.event_state = .NA_EVENT_STATE_TARGET_WRITE ∨
          (r.client.event_state = .NA_EVENT_STATE_TARGET_READ ∧
            r.client.swbufsize = r.client.crbufsize)) ∧
        (os ≠ [] →
          (r.client.swbufsize = r.client.crbufsize →
            r.client.event_state = .NA_EVENT_STATE_TARGET_READ ∧
            r.client.ts_watcher =
              { active := true, fd := client.ts_watcher.fd, events := EV_READ }) ∧
          (r.client.swbufsize < r.client.crbufsize →
            r.client.event_state = .NA_EVENT_STATE_TARGET_WRITE ∧
            r.client.ts_watcher =
              { active := true, fd := client.ts_watcher.fd, events := EV_WRITE })) := by
  intro os
  induction os with
  | nil =>
    intro st client hle _ hinv _
    exact ⟨_, rfl, rfl, rfl, le_refl _, hle, by simp [written], hinv, fun h => absurd rfl h⟩
  | cons o os ih =>
    intro st client hle hsz hinv hrange
    simp only [writes_in_range] at hrange
    obtain ⟨hp, ⟨n, hwrite, hn⟩, hrest⟩ := hrange
    obtain ⟨r1, hcb, c1, c2, c3, c4, c5, c6⟩ :=
      ts_write_step mp o revents st client n hp hr hw hwrite
    rw [hcb] at hrest
    have hle1 : r1.client.swbufsize ≤ r1.client.crbufsize := by rw [c2, c3]; omega
    have hsz1 : r1.client.crbufsize < SIZE_MOD := by rw [c2]; exact hsz
    have hinv1 : r1.client.event_state = .NA_EVENT_STATE_TARGET_WRITE ∨
        (r1.client.event_state = .NA_EVENT_STATE_TARGET_READ ∧
          r1.client.swbufsize = r1.client.crbufsize) := by
      by_cases hlt : client.swbufsize + n < client.crbufsize
      · left
        rw [(c5 hlt).1]
        rcases hinv with h | ⟨_, h⟩
        · exact h
        · omega
      · right
        exact ⟨(c6 hlt).1, by rw [c2, c3]; omega⟩
    have hfd1 : r1.client.ts_watcher.fd = client.ts_watcher.fd := by
      by_cases hlt : client.swbufsize + n < client.crbufsize
      · rw [(c5 hlt).2]
      · rw [(c6 hlt).2]
    obtain ⟨r2, hrun, d1, d2, d3, d4, d5, d6, d7⟩ := ih r1.st r1.client hle1 hsz1 hinv1 hrest
    refine ⟨{ r2 with trace := r1.trace ++ r2.trace }, ?_, ?_, ?_, ?_, ?_, ?_, ?_, ?_⟩
    · simp only [ts_callbacks, hcb, hrun]
    · exact d1.trans c1
    · exact d2.trans c2
    · show client.swbufsize ≤ r2.client.swbufsize
      omega
    · exact d4
    · show written (r1.trace ++ r2.trace) = _
      rw [written_append, c4, d5, c1, c3, size_sub_of_le _ _ hle hsz, List.take_take,
        Nat.min_eq_left hn]
      have e : r2.client.swbufsize - client.swbufsize
          = n + (r2.client.swbufsize - (client.swbufsize + n)) := by omega
      rw [e, List.take_add, List.drop_drop]
    · exact d6
    · intro _
      by_cases hos : os = []
      · subst hos
        simp only [ts_callbacks] at hrun
        cases hrun
        constructor
        · intro heq
          have : ¬ client.swbufsize + n < client.crbufsize := by
            show ¬ _
            intro hlt
            have h1 : r1.client.swbufsize = r1.client.crbufsize := heq
            rw [c2, c3] at h1
            omega
          exact c6 this
        · intro hlt
          have h1 : r1.client.swbufsize < r1.client.crbufsize := hlt
          rw [c2, c3] at h1
          refine ⟨?_, (c5 h1).2⟩
          rcases hinv1 with h | ⟨_, h⟩
          · exact h
          · rw [c2, c3] at h; omega
      · have := d7 hos
        rw [hfd1] at this
        exact this

/-- C3: take a session in TARGET_WRITE with `swbufsize ≤ crbufsize` and any
sequence of upstream-writable callbacks whose writes return `n_i` with
`0 ≤ n_i ≤ crbufsize - swbufsize`. After each of them the request buffer is
as before, the session is in TARGET_READ exactly when `swbufsize` has reached
`crbufsize`, and is in TARGET_WRITE, re-armed for write, before that; the
bytes written so far are `crbuf[sw0 .. swbufsize)`, so in TARGET_READ, for a
session that started at offset 0, they are exactly `crbuf[0 .. crbufsize)`. -/
theorem C3_upstream_write_run (mp : Memproto) (revents : Nat)
    (hr : hasFlag revents EV_READ = false) (hw : hasFlag revents EV_WRITE = true)
    (os : List Oracle) (st : Shared) (client : na_client_t)
    (hstate : client.event_state = .NA_EVENT_STATE_TARGET_WRITE)
    (hle : client.swbufsize ≤ client.crbufsize) (hsz : client.crbufsize < SIZE_MOD)
    (hrange : writes_in_range mp revents st client os) :
    ∀ k, 0 < k → k ≤ os.length →
      ∃ r, ts_callbacks mp revents st client (os.take k) = .ret r ∧
        r.client.crbuf = client.crbuf ∧ r.client.crbufsize = client.crbufsize ∧
        r.client.swbufsize ≤ client.crbufsize ∧
        written r.trace = (client.crbuf.drop client.swbufsize).take
          (r.client.swbufsize - client.swbufsize) ∧
        (r.client.event_state = .NA_EVENT_STATE_TARGET_READ ↔
          r.client.swbufsize = client.crbufsize) ∧
        (r.client.swbufsize < client.crbufsize →
          r.client.event_state = .NA_EVENT_STATE_TARGET_WRITE ∧
          r.client.ts_watcher =
            { active := true, fd := client.ts_watcher.fd, events := EV_WRITE }) ∧
        (r.client.event_state = .NA_EVENT_STATE_TARGET_READ →
          r.client.ts_watcher =
            { active := true, fd := client.ts_watcher.fd, events := EV_READ } ∧
          written r.trace = (client.crbuf.drop client.swbufsize).take
            (client.crbufsize - client.swbufsize) ∧
          (client.swbufsize = 0 → written r.trace = client.crbuf.take client.crbufsize)) := by
  intro k hk hkl
  have hne : os.take k ≠ [] := by
    intro h
    have h1 := congrArg List.length h
    rw [List.length_take, List.length_nil] at h1
    have h2 : min k os.length = k := Nat.min_eq_left hkl
    omega
  obtain ⟨r, hrun, d1, d2, d3, d4, d5, d6, d7⟩ :=
    ts_write_run mp revents hr hw (os.take k) st client hle hsz (Or.inl hstate)
      (writes_in_range_take mp revents os k st client hrange)
  obtain ⟨e1, e2⟩ := d7 hne
  rw [d2] at d4 d6 e1 e2
  have hiff : r.client.event_state = .NA_EVENT_STATE_TARGET_READ ↔
      r.client.swbufsize = client.crbufsize := by
    constructor
    · intro h
      rcases d6 with h1 | ⟨_, h1⟩
      · rw [h] at h1; cases h1
      · exact h1
    · intro h; exact (e1 h).1
  refine ⟨r, hrun, d1, d2, d4, d5, hiff, e2, ?_⟩
  intro h
  have heq := hiff.1 h
  refine ⟨(e1 heq).2, ?_, ?_⟩
  · rw [d5, heq]
  · intro h0
    rw [d5, heq, h0]
    simp

/-- C3 at a concrete input: the seven bytes of `get a\r\n` leave in two writes
of 3 and 4 bytes. -/
theorem C3_upstream_write_run_witness :
    writes_in_range ex_mp EV_WRITE ex_shared ex_client_tw [ex_oracle [] 3, ex_oracle [] 4] ∧
    ∃ r, ts_callbacks ex_mp EV_WRITE ex_shared ex_client_tw
        ([ex_oracle [] 3, ex_oracle [] 4].take 2) = .ret r ∧
      r.client.event_state = .NA_EVENT_STATE_TARGET_READ ∧
      written r.trace = ex_get_request := by
  have hrange : writes_in_range ex_mp EV_WRITE ex_shared ex_client_tw
      [ex_oracle [] 3, ex_oracle [] 4] := by
    refine ⟨by decide, ⟨3, rfl, by decide⟩, ?_⟩
    show writes_in_range ex_mp EV_WRITE _ _ [ex_oracle [] 4]
    refine ⟨by decide, ⟨4, rfl, by decide⟩, ?_⟩
    show True
    trivial
  refine ⟨hrange, ?_⟩
  obtain ⟨r, hrun, h1, h2, h3, h4, h5, h6, h7⟩ :=
    C3_upstream_write_run ex_mp EV_WRITE (by decide) (by decide)
      [ex_oracle [] 3, ex_oracle [] 4] ex_shared ex_client_tw rfl (by decide) (by decide)
      hrange 2 (by decide) (by decide)
  have hs : r.client.swbufsize = 7 := by
    have e : ts_callbacks ex_mp EV_WRITE ex_shared ex_client_tw
        ([ex_oracle [] 3, ex_oracle [] 4].take 2) = .ret r := hrun
    have e2 : (match ts_callbacks ex_mp EV_WRITE ex_shared ex_client_tw
        ([ex_oracle [] 3, ex_oracle [] 4].take 2) with
        | .ret x => x.client.swbufsize | .die _ => 0) = 7 := by decide
    rw [e] at e2
    exact e2
  have hst := h5.2 hs
  exact ⟨r, hrun, hst, by rw [((h7 hst).2.2 rfl)]; decide⟩

/-- C7: after the termination routine `na_client_close` the session's `cfd`
and `tsfd` are -1; if the session used a pool slot, the mark of that slot is 0
and every other mark (of either pool) and every pooled socket is as before; if
it used a client slot, its `is_used` is false, and terminating the session in
slot `i` of `ClientPool` leaves every other slot as it was. -/
theorem C7_client_close_releases (st : Shared) (client : na_client_t) :
    let r := na_client_close st client
    let i := client.cur_pool.toNat
    let before := st.env.pool client.connpool
    let after := r.st.env.pool client.connpool
    r.client.cfd = -1 ∧ r.client.tsfd = -1 ∧
    (client.is_use_connpool = true → 0 ≤ client.cur_pool → i < before.mark.length →
      after.mark[i]? = some 0 ∧ after.mark.length = before.mark.length ∧
      (∀ j, j ≠ i → after.mark[j]? = before.mark[j]?) ∧
      after.fd_pool = before.fd_pool ∧
      (∀ p, p ≠ client.connpool → r.st.env.pool p = st.env.pool p)) ∧
    (client.is_use_connpool = false → ∀ p, r.st.env.pool p = st.env.pool p) ∧
    (client.is_use_client_pool = true → r.client.is_used = false) ∧
    (∀ (s : System) (k : Nat), s.st = st → s.ClientPool[k]? = some client →
      client.is_used = true →
      ∃ s1, terminate s (.slot k) = some s1 ∧ s1.ClientPool[k]? = some r.client ∧
        s1.ClientPool.length = s.ClientPool.length ∧
        ∀ j, j ≠ k → s1.ClientPool[j]? = s.ClientPool[j]?) := by
  intro r i before after
  have hc := client_close_client st client
  simp only at hc
  refine ⟨hc.2.2.2.2.2.2.2.2.2.1, hc.2.2.2.2.2.2.2.2.2.2.1, ?_, ?_, ?_, ?_⟩
  · intro hu _ hi
    have hafter : after = { before with mark := before.mark.set i 0 } := by
      show (na_client_close st client).st.env.pool client.connpool = _
      simp only [na_client_close, ev_io_stop, hu, if_true]
      cases hcp : client.connpool <;> split <;>
        simp [na_env_t.pool, na_env_t.setPool, before, i, hcp]
    rw [hafter]
    refine ⟨?_, ?_, ?_, rfl, ?_⟩
    · simp [List.getElem?_set, hi]
    · simp
    · intro j hj
      simp [List.getElem?_set, Ne.symm hj]
    · intro p hp
      show (na_client_close st client).st.env.pool p = _
      simp only [na_client_close, ev_io_stop, hu, if_true]
      cases hcp : client.connpool <;> cases p <;> split <;>
        simp_all [na_env_t.pool, na_env_t.setPool]
  · intro hu p
    show (na_client_close st client).st.env.pool p = _
    simp only [na_client_close, ev_io_stop, hu, Bool.false_eq_true, if_false]
    cases p <;> simp only [na_env_t.pool] <;> split_ifs <;> rfl
  · intro hu
    show (na_client_close st client).client.is_used = false
    simp [na_client_close, ev_io_stop, hu]
  · intro s k hst hk hused
    subst hst
    refine ⟨{ s with st := r.st, ClientPool := s.ClientPool.set k r.client }, ?_, ?_, ?_, ?_⟩
    · simp only [terminate, hk, hused, if_true, r]
    · have hlt : k < s.ClientPool.length := by
        rcases List.getElem?_eq_some_iff.1 hk with ⟨h, _⟩
        exact h
      simp [List.getElem?_set, hlt, r]
    · simp
    · intro j hj
      simp [List.getElem?_set, Ne.symm hj]

/-- C7 at a concrete input: the session in client slot 0, on pool slot 0. -/
theorem C7_client_close_releases_witness :
    ex_client_cw.is_use_connpool = true ∧ ex_client_cw.is_use_client_pool = true ∧
    ((na_client_close ex_system.st ex_client_cw).st.env.pool .active).mark = [0, 1] ∧
    (na_client_close ex_system.st ex_client_cw).client.is_used = false ∧
    ∃ s1, terminate ex_system (.slot 0) = some s1 ∧
      s1.ClientPool[1]? = ex_system.ClientPool[1]? := by
  have h := C7_client_close_releases ex_system.st ex_client_cw
  simp only at h
  obtain ⟨-, -, -, -, h5, h6⟩ := h
  obtain ⟨s1, hs, -, -, hj⟩ := h6 ex_system 0 rfl rfl rfl
  exact ⟨rfl, rfl, by decide, h5 rfl, s1, hs, hj 1 (by decide)⟩

/-- One more command: one more failure, or none. -/
theorem hc_failed_succ (tsfd : Int) (hostname : List Nat) (out : Nat → CmdOutcome) (m : Nat) :
    hc_failed tsfd hostname out (m + 1)
      = hc_failed tsfd hostname out m + (if hc_command_ok tsfd hostname out m then 0 else 1) := by
  unfold hc_failed
  rw [List.range_succ, List.filter_append, List.length_append]
  cases h : hc_command_ok tsfd hostname out m <;> simp [List.filter_cons, h]

/-- The counter `cnt_fail` after `n` iterations counts the failures among the
first `3 * n` commands. -/
theorem hc_loop_counts (tsfd : Int) (hostname : List Nat) (out : Nat → CmdOutcome) (n : Nat) :
    (List.range n).foldl (hc_iteration tsfd hostname out) 0
      = hc_failed tsfd hostname out (3 * n) := by
  induction n with
  | zero => rfl
  | succ n ih =>
    rw [List.range_succ, List.foldl_append, ih]
    have e : 3 * (n + 1) = 3 * n + 1 + 1 + 1 := by ring
    have m0 : (3 * n) % 3 = 0 := by omega
    have m1 : (3 * n + 1) % 3 = 1 := by omega
    have m2 : (3 * n + 2) % 3 = 2 := by omega
    have k0 : hc_command_ok tsfd hostname out (3 * n)
        = is_success_command tsfd (hc_scmd hostname) STORED (out (3 * n)) := by
      simp [hc_command_ok, m0]
    have k1 : hc_command_ok tsfd hostname out (3 * n + 1)
        = is_success_command tsfd (hc_gcmd hostname) (hc_gres hostname) (out (3 * n + 1)) := by
      simp [hc_command_ok, m1]
    have k2 : hc_command_ok tsfd hostname out (3 * n + 1 + 1)
        = is_success_command tsfd (hc_dcmd hostname) DELETED (out (3 * n + 2)) := by
      simp [hc_command_ok, m2]
    rw [e, hc_failed_succ, hc_failed_succ, hc_failed_succ, k0, k1, k2]
    simp only [List.foldl_cons, List.foldl_nil, hc_iteration]
    cases is_success_command tsfd (hc_scmd hostname) STORED (out (3 * n)) <;>
    cases is_success_command tsfd (hc_gcmd hostname) (hc_gres hostname) (out (3 * n + 1)) <;>
    cases is_success_command tsfd (hc_dcmd hostname) DELETED (out (3 * n + 2)) <;>
    simp

/-- There are no more failures than commands. -/
theorem hc_failed_le (tsfd : Int) (hostname : List Nat) (out : Nat → CmdOutcome) (m : Nat) :
    hc_failed tsfd hostname out m ≤ m := by
  induction m with
  | zero => simp [hc_failed]
  | succ m ih =>
    rw [hc_failed_succ]
    split <;> omega

/-- The failures are all of the first `m` commands exactly when none succeeded. -/
theorem hc_failed_eq_iff (tsfd : Int) (hostname : List Nat) (out : Nat → CmdOutcome) (m : Nat) :
    hc_failed tsfd hostname out m = m ↔
      ∀ k, k < m → hc_command_ok tsfd hostname out k = false := by
  induction m with
  | zero => simp [hc_failed]
  | succ m ih =>
    rw [hc_failed_succ]
    have hle := hc_failed_le tsfd hostname out m
    constructor
    · intro h k hk
      cases hok : hc_command_ok tsfd hostname out m with
      | true => rw [hok] at h; simp at h; omega
      | false =>
        rw [hok] at h
        simp at h
        rcases Nat.lt_succ_iff_lt_or_eq.1 hk with h1 | h1
        · exact ih.1 h k h1
        · rw [h1]; exact hok
    · intro h
      have h1 := ih.2 (fun k hk => h k (Nat.lt_succ_of_lt hk))
      rw [h1, h m (Nat.lt_succ_self m)]
      simp

/-- A NUL byte stored behind the bytes read ends the C string there at the
latest. -/
theorem cstr_append_nul (l : List Nat) : cstr (l ++ [0]) = cstr l := by
  induction l with
  | nil => simp [cstr]
  | cons a t ih =>
    simp only [cstr, List.cons_append, List.takeWhile_cons] at ih ⊢
    split
    · rw [ih]
    · rfl

/-- C10, refuted as stated: a `read` that delivers `STORED\r\n` followed by a
NUL byte makes the command succeed although the bytes read are not the
expected reply. -/
theorem C10_counterexample :
    is_success_command 3 (hc_scmd []) STORED
        { write := .ok 8, read := .ok (STORED ++ [0]) } = true ∧
    STORED ++ [0] ≠ STORED ∧
    na_hc_test_request 3 1 []
      (fun _ => { write := .ok 8, read := .ok (STORED ++ [0]) }) = true := by
  decide

/-- A buffer without NUL byte is its own C string. -/
theorem cstr_of_no_nul (l : List Nat) (h : ∀ b ∈ l, b ≠ 0) : cstr l = l := by
  induction l with
  | nil => rfl
  | cons a t ih =>
    have ha : a ≠ 0 := h a (List.mem_cons_self _ _)
    have ht : ∀ b ∈ t, b ≠ 0 := fun b hb => h b (List.mem_cons_of_mem _ hb)
    simp only [cstr, List.takeWhile_cons] at ih ⊢
    simp [ha, ih ht]

/-- The C string of a buffer has no NUL byte. -/
theorem cstr_no_nul (l : List Nat) : ∀ b ∈ cstr l, b ≠ 0 := by
  intro b hb
  have := List.mem_takeWhile_imp hb
  simpa using this

/-- No decimal digit character is the NUL character. -/
theorem digitChar_ne_nul : ∀ d, d < 10 → (Nat.digitChar d).toNat ≠ 0 := by
  decide

/-- The decimal digits of a number hold no NUL byte. -/
theorem toDigitsCore_no_nul (fuel : Nat) : ∀ (n : Nat) (ds : List Char),
    (∀ c ∈ ds, c.toNat ≠ 0) → ∀ c ∈ Nat.toDigitsCore 10 fuel n ds, c.toNat ≠ 0 := by
  induction fuel with
  | zero => intro n ds h c hc; exact h c (by simpa [Nat.toDigitsCore] using hc)
  | succ fuel ih =>
    intro n ds h c hc
    have hds : ∀ c ∈ Nat.digitChar (n % 10) :: ds, c.toNat ≠ 0 := by
      intro c hc
      rcases List.mem_cons.1 hc with rfl | hc
      · exact digitChar_ne_nul _ (Nat.mod_lt _ (by decide))
      · exact h c hc
    simp only [Nat.toDigitsCore] at hc
    split at hc
    · exact hds c hc
    · exact ih _ _ hds c hc

/-- The conversion `%ld` yields no NUL byte. -/
theorem bytes_of_nat_no_nul (n : Nat) : ∀ b ∈ bytes_of_nat n, b ≠ 0 := by
  intro b hb
  simp only [bytes_of_nat, List.mem_map] at hb
  obtain ⟨c, hc, rfl⟩ := hb
  exact toDigitsCore_no_nul _ _ _ (by simp) c hc

/-- Two buffers without NUL byte, one after the other, hold none. -/
theorem no_nul_append (l1 l2 : List Nat) (h1 : ∀ b ∈ l1, b ≠ 0) (h2 : ∀ b ∈ l2, b ≠ 0) :
    ∀ b ∈ l1 ++ l2, b ≠ 0 := by
  intro b hb
  rcases List.mem_append.1 hb with h | h
  · exact h1 b h
  · exact h2 b h

/-- The three expected replies are C strings as they stand. -/
theorem expected_cstr (hostname : List Nat) :
    cstr STORED = STORED ∧ cstr DELETED = DELETED ∧
    cstr (hc_gres hostname) = hc_gres hostname := by
  refine ⟨by decide, by decide, ?_⟩
  apply cstr_of_no_nul
  have hh := cstr_no_nul hostname
  have hd := bytes_of_nat_no_nul (strlen na_hc_test_val + 1 + strlen hostname)
  unfold hc_gres snprintf_bufsiz
  intro b hb
  replace hb := List.mem_of_mem_take hb
  revert b
  repeat' apply no_nul_append
  all_goals first
    | exact hh
    | exact hd
    | decide

/-- C10, amended: `na_hc_test_request` returns true if and only if at least one
of the `3 * try_max` probe commands succeeded, and false if and only if all of
them failed; a command succeeds exactly when its `write` and its `read` do not
fail and the bytes read, up to their first NUL byte, are the expected reply. -/
theorem C10_hc_test_request (tsfd : Int) (try_max : Nat) (hostname : List Nat)
    (out : Nat → CmdOutcome) :
    (na_hc_test_request tsfd try_max hostname out = true ↔
      ∃ k, k < 3 * try_max ∧ hc_command_ok tsfd hostname out k = true) ∧
    (na_hc_test_request tsfd try_max hostname out = false ↔
      ∀ k, k < 3 * try_max → hc_command_ok tsfd hostname out k = false) ∧
    (∀ (command expected : List Nat) (o : CmdOutcome),
      is_success_command tsfd command expected o = true ↔
        ∃ n bytes, o.write = .ok n ∧ o.read = .ok bytes ∧ cstr bytes = cstr expected) ∧
    (∀ k, hc_command_ok tsfd hostname out k = true ↔
      ∃ n bytes, (out k).write = .ok n ∧ (out k).read = .ok bytes ∧
        cstr bytes = (if k % 3 = 0 then STORED else if k % 3 = 1 then hc_gres hostname
          else DELETED)) := by
  have hfalse : na_hc_test_request tsfd try_max hostname out = false ↔
      ∀ k, k < 3 * try_max → hc_command_ok tsfd hostname out k = false := by
    unfold na_hc_test_request
    simp only [hc_loop_counts, Nat.mul_comm try_max 3]
    rw [← hc_failed_eq_iff]
    simp
  have hcmd : ∀ (command expected : List Nat) (o : CmdOutcome),
      is_success_command tsfd command expected o = true ↔
        ∃ n bytes, o.write = .ok n ∧ o.read = .ok bytes ∧ cstr bytes = cstr expected := by
    intro command expected o
    unfold is_success_command
    cases hw : o.write with
    | err e => simp
    | ok n =>
      cases hrd : o.read with
      | err e => simp
      | ok bytes =>
        have hb : bufWrite bytes bytes.length [0] = bytes ++ [0] := by
          simp [bufWrite]
        simp [strcmp_ne, hb, cstr_append_nul]
  obtain ⟨e1, e2, e3⟩ := expected_cstr hostname
  refine ⟨?_, hfalse, hcmd, ?_⟩
  · rw [← Bool.not_eq_false, hfalse]
    push_neg
    simp
  · intro k
    unfold hc_command_ok
    split_ifs
    · rw [hcmd, e1]
    · rw [hcmd, e3]
    · rw [hcmd, e2]

/-- C9: a tick of `na_hc_callback` whose probe connection, if one is needed,
succeeds, returns; it flips `is_refused_active` if and only if the role is
backup and the probe is healthy, or the role is active and the probe is
unhealthy. When it flips, `na_connpool_switch` has been called exactly once
(with `is_refused_accept` set and the new role in place), and on return
`current_conn` is 0 and `is_refused_accept` is false. Otherwise the role,
`current_conn`, `is_refused_accept` and the pools are as before and the pool
is not switched. -/
theorem C9_hc_callback (sw : na_env_t → na_connpool_t × na_connpool_t) (o : HcOracle)
    (st : Shared)
    (hprobe : st.env.is_refused_active = true → 0 ≤ o.tcpsock_init ∧ o.connect = none) :
    ∃ r, na_hc_callback sw o st = .ret r ∧
      let healthy := na_hc_test_request r.1.env.tsfd st.env.try_max o.hostname o.probe
      let flip := (st.env.is_refused_active = true ∧ healthy = true) ∨
        (st.env.is_refused_active = false ∧ healthy = false)
      (r.1.env.is_refused_active ≠ st.env.is_refused_active ↔ flip) ∧
      (flip →
        r.1.env.is_refused_active = (!st.env.is_refused_active) ∧
        r.2.count Action.connpool_switch = 1 ∧
        r.1.env.current_conn = 0 ∧ r.1.env.is_refused_accept = false ∧
        ∃ e : na_env_t, (r.1.env.connpool_active, r.1.env.connpool_backup) = sw e ∧
          e.is_refused_accept = true ∧ e.is_refused_active = (!st.env.is_refused_active)) ∧
      (¬ flip →
        r.1.env.is_refused_active = st.env.is_refused_active ∧
        r.1.env.current_conn = st.env.current_conn ∧
        r.1.env.is_refused_accept = st.env.is_refused_accept ∧
        r.1.env.connpool_active = st.env.connpool_active ∧
        r.1.env.connpool_backup = st.env.connpool_backup ∧
        r.2.count Action.connpool_switch = 0) := by
  cases hrole : st.env.is_refused_active with
  | true =>
    obtain ⟨hfd, hconn⟩ := hprobe hrole
    have hfd' : ¬ o.tcpsock_init < 0 := by omega
    cases hh : na_hc_test_request o.tcpsock_init st.env.try_max o.hostname o.probe with
    | true =>
      refine ⟨_, by simp only [na_hc_callback, hrole, hconn, hfd', if_true, if_false]; rfl, ?_⟩
      simp [hc_decide, hrole, hh, hc_switch]
      exact ⟨_, rfl, rfl, rfl⟩
    | false =>
      refine ⟨_, by simp only [na_hc_callback, hrole, hconn, hfd', if_true, if_false]; rfl, ?_⟩
      simp [hc_decide, hrole, hh]
  | false =>
    cases hh : na_hc_test_request st.env.tsfd st.env.try_max o.hostname o.probe with
    | true =>
      refine ⟨_, by simp only [na_hc_callback, hrole, Bool.false_eq_true, if_false]; rfl, ?_⟩
      simp [hc_decide, hrole, hh]
    | false =>
      refine ⟨_, by simp only [na_hc_callback, hrole, Bool.false_eq_true, if_false]; rfl, ?_⟩
      simp [hc_decide, hrole, hh, hc_switch]
      exact ⟨_, rfl, rfl, rfl⟩

/-- C9 at a concrete input: in the active role every probe command fails, and
the role flips to backup. -/
theorem C9_hc_callback_witness :
    (ex_shared.env.is_refused_active = true →
      0 ≤ ex_hc_down.tcpsock_init ∧ ex_hc_down.connect = none) ∧
    ∃ r, na_hc_callback ex_switch ex_hc_down ex_shared = .ret r ∧
      r.1.env.is_refused_active = true ∧ r.1.env.current_conn = 0 := by
  have hp : ex_shared.env.is_refused_active = true →
      0 ≤ ex_hc_down.tcpsock_init ∧ ex_hc_down.connect = none := by decide
  refine ⟨hp, ?_⟩
  obtain ⟨r, hr, -, h2, -⟩ := C9_hc_callback ex_switch ex_hc_down ex_shared hp
  have hflip : (ex_shared.env.is_refused_active = true ∧
      na_hc_test_request r.1.env.tsfd ex_shared.env.try_max ex_hc_down.hostname
        ex_hc_down.probe = true) ∨
      (ex_shared.env.is_refused_active = false ∧
      na_hc_test_request r.1.env.tsfd ex_shared.env.try_max ex_hc_down.hostname
        ex_hc_down.probe = false) := by
    right
    exact ⟨rfl, rfl⟩
  obtain ⟨a1, -, a3, -⟩ := h2 hflip
  exact ⟨r, hr, a1, a3⟩

/-- C8, refuted as stated: with `conn_max = 1`, a client is admitted, a health
check fails over to the backup (which resets `current_conn` to 0 while the
first session is still open), and a second client is admitted: two live
sessions. -/
theorem C8_counterexample :
    initial ex_init ∧
    (run ex_switch ex_init
      [Event.accept (ex_accept 30), Event.hc ex_hc_down, Event.accept (ex_accept 31)]).map
        (fun s => (live s, s.st.env.conn_max, s.st.env.current_conn)) = some (2, 1, 1) := by
  refine ⟨⟨rfl, by decide, rfl⟩, by decide⟩

/-- Replacing one element moves a count by what the old and the new element
contribute. -/
theorem countP_set {α : Type} (p : α → Bool) :
    ∀ (l : List α) (k : Nat) (a b : α), l[k]? = some a →
      (l.set k b).countP p + (if p a then 1 else 0) = l.countP p + (if p b then 1 else 0) := by
  intro l
  induction l with
  | nil => intro k a b h; simp at h
  | cons x t ih =>
    intro k a b h
    cases k with
    | zero =>
      simp only [List.getElem?_cons_zero, Option.some.injEq] at h
      subst h
      simp only [List.set_cons_zero, List.countP_cons]
      omega
    | succ k =>
      simp only [List.getElem?_cons_succ] at h
      have := ih k a b h
      simp only [List.set_cons_succ, List.countP_cons]
      omega

/-- The two-phase probing returns a free index only. -/
theorem probe_slot_free (free : Nat → Bool) (max r1 r2 k : Nat)
    (h : probe_slot free max r1 r2 = some k) : free k = true := by
  unfold probe_slot at h
  simp only at h
  split at h
  · cases h; assumption
  · split at h
    · exact (List.find?_some h)
    · exact (List.find?_some h)

/-- What `na_client_assign` does: nothing and -1, or it claims a free slot. -/
theorem client_assign_cases (env : na_env_t) (pool : List na_client_t) (r1 r2 : Nat) :
    (na_client_assign env pool r1 r2 = (-1, pool)) ∨
    ∃ (k : Nat) (c : na_client_t), pool[k]? = some c ∧ c.is_used = false ∧
      na_client_assign env pool r1 r2 = ((k : Int), pool.set k { c with is_used := true }) := by
  unfold na_client_assign
  cases h : probe_slot (client_free pool) env.client_pool_max r1 r2 with
  | none => left; rfl
  | some k =>
    right
    have hf := probe_slot_free _ _ _ _ _ h
    unfold client_free at hf
    cases hk : pool[k]? with
    | none => rw [hk] at hf; simp at hf
    | some c =>
      rw [hk] at hf
      refine ⟨k, c, hk, by simpa using hf, ?_⟩
      simp [client_claim, hk]

/-- Storing a pool leaves the counters and flags of the environment alone. -/
theorem setPool_fields (env : na_env_t) (r : connpool_ref) (p : na_connpool_t) :
    (env.setPool r p).current_conn = env.current_conn ∧
    (env.setPool r p).conn_max = env.conn_max ∧
    (env.setPool r p).current_conn_max = env.current_conn_max ∧
    (env.setPool r p).is_refused_active = env.is_refused_active ∧
    (env.setPool r p).is_refused_accept = env.is_refused_accept ∧
    (env.setPool r p).is_worker_busy = env.is_worker_busy ∧
    (env.setPool r p).worker_max = env.worker_max := by
  cases r <;> simp [na_env_t.setPool]

/-- A change that leaves the sessions, the counter, the bound and the role
alone moves nothing. -/
theorem moves_of_same (s s1 : System) (h1 : s1.ClientPool = s.ClientPool)
    (h2 : s1.heap = s.heap) (h3 : s1.st.env.current_conn = s.st.env.current_conn)
    (h4 : s1.st.env.conn_max = s.st.env.conn_max)
    (h5 : s1.st.env.is_refused_active = s.st.env.is_refused_active) : Moves s s1 := by
  refine ⟨h4, h5, ?_, Or.inl ⟨?_, h3⟩⟩
  · intro h; unfold slots_wf at h ⊢; rw [h1]; exact h
  · unfold live; rw [h1, h2]

/-- A change of that kind in front of a move is a move. -/
theorem moves_after_same (s s1 s2 : System) (h1 : s1.ClientPool = s.ClientPool)
    (h2 : s1.heap = s.heap) (h3 : s1.st.env.current_conn = s.st.env.current_conn)
    (h4 : s1.st.env.conn_max = s.st.env.conn_max)
    (h5 : s1.st.env.is_refused_active = s.st.env.is_refused_active)
    (h : Moves s1 s2) : Moves s s2 := by
  obtain ⟨m1, m2, m3, m4⟩ := h
  have hl : live s1 = live s := by unfold live; rw [h1, h2]
  refine ⟨m1.trans h4, m2.trans h5, ?_, ?_⟩
  · intro hw
    apply m3
    unfold slots_wf at hw ⊢; rw [h1]; exact hw
  · rw [hl, h3] at m4; exact m4

/-- The roll-back of the accept callback moves nothing. -/
theorem front_rollback_moves (connpool : connpool_ref) (cur_pool tsfd : Int) (s : System) :
    Moves s (front_rollback connpool cur_pool tsfd s).1 := by
  unfold front_rollback
  split
  · exact moves_of_same _ _ rfl rfl rfl rfl rfl
  · have h := setPool_fields s.st.env connpool
      { s.st.env.pool connpool with
        mark := (s.st.env.pool connpool).mark.set cur_pool.toNat 0 }
    exact moves_of_same _ _ rfl rfl h.1 h.2.1 h.2.2.2.1

/-- The block after `finally:` moves nothing. -/
theorem front_finally_moves (s : System) (r : System × List Action) (h : Moves s r.1) :
    Moves s (front_finally r).1 := by
  unfold front_finally
  split
  · obtain ⟨m1, m2, m3, m4⟩ := h
    exact ⟨m1, m2, m3, m4⟩
  · exact h

/-- The tail of the accept callback stores a session that keeps `is_used`,
knows whether it lives in a slot, and counts one more connection. -/
theorem front_enroll_spec (o : AcceptOracle) (connpool : connpool_ref)
    (cfd tsfd cur_pool cur_cli : Int) (client : na_client_t)
    (store : na_client_t → System → System) (s : System) :
    ∃ (cx : na_client_t) (env1 : na_env_t),
      (front_enroll o connpool cfd tsfd cur_pool cur_cli client store s).1
        = store cx { s with st := { s.st with env := env1 } } ∧
      cx.is_used = client.is_used ∧
      cx.is_use_client_pool = decide (cur_cli ≠ -1) ∧
      env1.current_conn = s.st.env.current_conn + 1 ∧
      env1.conn_max = s.st.env.conn_max ∧
      env1.is_refused_active = s.st.env.is_refused_active := by
  unfold front_enroll
  simp only
  split_ifs <;>
    exact ⟨_, _, rfl, by simp [client_init, client_arm], by simp [client_init, client_arm],
      by simp, by simp, by simp⟩

/-- The accept callback from `na_server_accept` on moves the counts by
nothing or by one admitted session. -/
theorem front_accept_moves (o : AcceptOracle) (connpool : connpool_ref) (cur_pool tsfd : Int)
    (s : System) : Moves s (front_accept o connpool cur_pool tsfd s).1 := by
  unfold front_accept
  simp only
  split
  · exact front_rollback_moves connpool cur_pool tsfd s
  · rcases client_assign_cases s.st.env s.ClientPool o.client_r1 o.client_r2 with ha | ha
    · rw [ha]
      simp only [show ¬ ((-1 : Int) ≥ 0) by decide, if_false]
      have hs : ({ s with ClientPool := s.ClientPool } : System) = s := rfl
      rw [hs]
      split
      · exact front_rollback_moves connpool cur_pool tsfd s
      · split
        · exact front_rollback_moves connpool cur_pool tsfd s
        · obtain ⟨cx, env1, he, -, -, e1, e2, e3⟩ := front_enroll_spec o connpool o.accept tsfd
            cur_pool (-1) (client_malloc s.st.env) (fun c s => { s with heap := s.heap ++ [c] }) s
          simp only
          rw [he]
          refine ⟨e2, e3, fun h => h, Or.inr ⟨?_, e1⟩⟩
          simp only [live, List.length_append, List.length_singleton]
          omega
    · obtain ⟨k, c, hk, hfree, ha⟩ := ha
      rw [ha]
      have hlt : k < s.ClientPool.length := by
        rcases List.getElem?_eq_some_iff.1 hk with ⟨h, _⟩
        exact h
      have hget : (s.ClientPool.set k { c with is_used := true })[((k : Int)).toNat]?
          = some { c with is_used := true } := by
        simp [hlt]
      simp only [show ((k : Int) ≥ 0) by omega, if_true, hget]
      obtain ⟨cx, env1, he, u1, u2, e1, e2, e3⟩ := front_enroll_spec o connpool o.accept tsfd
        cur_pool (k : Int) { c with is_used := true }
        (fun c1 s1 => { s1 with ClientPool := s1.ClientPool.set ((k : Int)).toNat c1 })
        { s with ClientPool := s.ClientPool.set k { c with is_used := true } }
      rw [he]
      have hcx : cx.is_used = true := u1
      have hcx2 : cx.is_use_client_pool = true := by
        rw [u2]; simp
      have hset : (s.ClientPool.set k { c with is_used := true }).set ((k : Int)).toNat cx
          = s.ClientPool.set k cx := by
        simp
      refine ⟨e2, e3, ?_, Or.inr ⟨?_, e1⟩⟩
      · intro hw
        unfold slots_wf at hw ⊢
        simp only [hset]
        intro c1 hc1 hu
        rcases List.mem_or_eq_of_mem_set hc1 with h | h
        · exact hw c1 h hu
        · rw [h]; exact hcx2
      · simp only [live, hset]
        have := countP_set (fun c => c.is_used) s.ClientPool k c cx hk
        simp only [hfree, hcx, Bool.false_eq_true, if_false, if_true] at this
        omega

/-- The accept callback moves the counts by nothing or by one admitted
session, and it admits only below the bound. -/
theorem front_callback_moves (o : AcceptOracle) (s : System) :
    Moves s (na_front_server_callback o s).1 ∧
    ((na_front_server_callback o s).1.st.env.current_conn ≠ s.st.env.current_conn →
      s.st.env.current_conn < s.st.env.conn_max) := by
  have hfin : ∀ r : System × List Action,
      (front_finally r).1.st.env = r.1.st.env := by
    intro r; unfold front_finally; split <;> rfl
  unfold na_front_server_callback
  rw [hfin]
  by_cases h1 : s.st.env.is_refused_accept = true
  · have hb : front_body o s = (s, []) := by simp [front_body, h1]
    rw [hb]
    exact ⟨front_finally_moves s _ (moves_of_same _ _ rfl rfl rfl rfl rfl), fun h => absurd rfl h⟩
  · by_cases h2 : s.st.env.current_conn ≥ s.st.env.conn_max
    · have hb : front_body o s = (s, []) := by simp [front_body, h1, h2]
      rw [hb]
      exact ⟨front_finally_moves s _ (moves_of_same _ _ rfl rfl rfl rfl rfl),
        fun h => absurd rfl h⟩
    · refine ⟨front_finally_moves s _ ?_, fun _ => by omega⟩
      have hf := setPool_fields s.st.env (na_connpool_select s.st.env)
        (na_connpool_assign s.st.env (s.st.env.pool (na_connpool_select s.st.env))
          (select_server s.st.env) o.assign_r1 o.assign_r2 o.assign_sock).pool
      unfold front_body
      simp only [h1, h2, Bool.false_eq_true, if_false]
      split
      · refine moves_after_same s _ _ ?_ ?_ ?_ ?_ ?_ (front_accept_moves o _ _ _ _)
        exacts [rfl, rfl, hf.1, hf.2.1, hf.2.2.2.1]
      · split
        · exact moves_of_same _ _ rfl rfl hf.1 hf.2.1 hf.2.2.2.1
        · split
          · split
            · exact moves_of_same _ _ rfl rfl hf.1 hf.2.1 hf.2.2.2.1
            · refine moves_after_same s _ _ ?_ ?_ ?_ ?_ ?_ (front_accept_moves o _ _ _ _)
              exacts [rfl, rfl, hf.1, hf.2.1, hf.2.2.2.1]
          · refine moves_after_same s _ _ ?_ ?_ ?_ ?_ ?_ (front_accept_moves o _ _ _ _)
            exacts [rfl, rfl, hf.1, hf.2.1, hf.2.2.2.1]

/-- What the termination routine does to the environment's counters. -/
theorem client_close_env (st : Shared) (client : na_client_t) :
    (na_client_close st client).st.env.current_conn = st.env.current_conn - 1 ∧
    (na_client_close st client).st.env.conn_max = st.env.conn_max ∧
    (na_client_close st client).st.env.is_refused_active = st.env.is_refused_active := by
  have hf := setPool_fields st.env client.connpool
    { st.env.pool client.connpool with
      mark := (st.env.pool client.connpool).mark.set client.cur_pool.toNat 0 }
  obtain ⟨f1, f2, -, f4, -⟩ := hf
  simp only [na_client_close, ev_io_stop]
  by_cases hu : client.is_use_connpool = true
  · simp only [hu, if_true]
    split
    · refine ⟨?_, f2, f4⟩
      show (st.env.setPool _ _).current_conn - 1 = _
      rw [f1]
    · rename_i hc
      rw [f1] at hc
      refine ⟨?_, f2, f4⟩
      rw [f1]
      omega
  · simp only [hu, Bool.false_eq_true, if_false]
    split
    · exact ⟨rfl, rfl, rfl⟩
    · rename_i hc
      refine ⟨?_, rfl, rfl⟩
      omega

/-- The termination routine frees the client slot of a session that uses one. -/
theorem client_close_is_used (st : Shared) (client : na_client_t)
    (h : client.is_use_client_pool = true) :
    (na_client_close st client).client.is_used = false := by
  simp [na_client_close, ev_io_stop, h]

/-- The termination of a live session: one live session less, and the counter
decremented unless it is 0. -/
theorem terminate_counts (s s1 : System) (r : SessionRef) (h : terminate s r = some s1)
    (hw : slots_wf s) :
    s1.st.env.conn_max = s.st.env.conn_max ∧
    s1.st.env.is_refused_active = s.st.env.is_refused_active ∧
    slots_wf s1 ∧ live s1 + 1 = live s ∧
    s1.st.env.current_conn = s.st.env.current_conn - 1 := by
  cases r with
  | slot i =>
    simp only [terminate] at h
    cases hi : s.ClientPool[i]? with
    | none => rw [hi] at h; cases h
    | some c =>
      rw [hi] at h
      simp only at h
      by_cases hu : c.is_used = true
      · simp only [hu, if_true, Option.some.injEq] at h
        subst h
        obtain ⟨e1, e2, e3⟩ := client_close_env s.st c
        have hmem : c ∈ s.ClientPool := List.getElem?_mem hi
        have hcl := client_close_is_used s.st c (hw c hmem hu)
        refine ⟨e2, e3, ?_, ?_, e1⟩
        · intro c1 hc1 hu1
          rcases List.mem_or_eq_of_mem_set hc1 with h | h
          · exact hw c1 h hu1
          · rw [h, hcl] at hu1; cases hu1
        · have := countP_set (fun c => c.is_used) s.ClientPool i c
            (na_client_close s.st c).client hi
          simp only [hu, hcl, Bool.false_eq_true, if_false, if_true] at this
          simp only [live]
          omega
      · simp only [hu, if_false] at h
        cases h
  | heap j =>
    simp only [terminate] at h
    cases hj : s.heap[j]? with
    | none => rw [hj] at h; cases h
    | some c =>
      rw [hj] at h
      simp only [Option.some.injEq] at h
      subst h
      obtain ⟨e1, e2, e3⟩ := client_close_env s.st c
      have hlt : j < s.heap.length := by
        rcases List.getElem?_eq_some_iff.1 hj with ⟨h, _⟩
        exact h
      refine ⟨e2, e3, hw, ?_, e1⟩
      simp only [live, List.length_eraseIdx, hlt, if_true]
      omega

/-- What a health-check tick does to the counters. -/
theorem hc_callback_counts (sw : na_env_t → na_connpool_t × na_connpool_t) (o : HcOracle)
    (st : Shared) (r : Shared × List Action) (h : na_hc_callback sw o st = .ret r) :
    r.1.env.conn_max = st.env.conn_max ∧
    (r.1.env.current_conn = st.env.current_conn ∨ r.1.env.current_conn = 0) ∧
    (r.1.env.is_refused_active = st.env.is_refused_active →
      r.1.env.current_conn = st.env.current_conn) := by
  unfold na_hc_callback at h
  simp only at h
  split at h
  · rename_i hrole
    split at h
    · cases h
    · split at h
      · cases h
        exact ⟨rfl, Or.inl rfl, fun _ => rfl⟩
      · simp only [Outcome.ret.injEq] at h
        subst h
        unfold hc_decide
        simp only [hrole]
        split
        · simp [hc_switch, hrole]
        · simp
  · rename_i hrole
    simp only [Outcome.ret.injEq] at h
    subst h
    unfold hc_decide
    simp only [hrole]
    split
    · simp at *
    · split
      · simp [hc_switch, hrole]
      · simp

/-- One event keeps the counter below the bound and the slots well-formed,
and, unless it flips the role, it keeps the counter equal to the number of
live sessions. -/
theorem step_inv (sw : na_env_t → na_connpool_t × na_connpool_t) (s s1 : System) (e : Event)
    (h : step sw s e = some s1)
    (hb : s.st.env.current_conn ≤ s.st.env.conn_max) (hw : slots_wf s) :
    s1.st.env.current_conn ≤ s1.st.env.conn_max ∧ slots_wf s1 ∧
    (live s = s.st.env.current_conn →
      s1.st.env.is_refused_active = s.st.env.is_refused_active →
      live s1 = s1.st.env.current_conn) := by
  cases e with
  | accept o =>
    simp only [step, Option.some.injEq] at h
    subst h
    obtain ⟨⟨m1, -, m3, m4⟩, hlt⟩ := front_callback_moves o s
    refine ⟨?_, m3 hw, ?_⟩
    · rcases m4 with ⟨-, h2⟩ | ⟨-, h2⟩
      · rw [h2, m1]; exact hb
      · have := hlt (by rw [h2]; omega)
        rw [h2, m1]; omega
    · intro hl _
      rcases m4 with ⟨h1, h2⟩ | ⟨h1, h2⟩
      · rw [h1, h2]; exact hl
      · rw [h1, h2, hl]
  | terminate r =>
    simp only [step] at h
    obtain ⟨t1, -, t3, t4, t5⟩ := terminate_counts s s1 r h hw
    refine ⟨by rw [t5, t1]; omega, t3, ?_⟩
    intro hl _
    rw [t5]
    omega
  | hc o =>
    simp only [step] at h
    cases hr : na_hc_callback sw o s.st with
    | die e => rw [hr] at h; cases h
    | ret r =>
      rw [hr] at h
      simp only [Option.some.injEq] at h
      subst h
      obtain ⟨c1, c2, c3⟩ := hc_callback_counts sw o s.st r hr
      refine ⟨?_, hw, ?_⟩
      · show r.1.env.current_conn ≤ r.1.env.conn_max
        rw [c1]
        rcases c2 with h | h <;> omega
      · intro hl hrole
        show live { s with st := r.1 } = r.1.env.current_conn
        rw [c3 hrole, ← hl]
        rfl

/-- The invariants along a run. -/
theorem run_inv (sw : na_env_t → na_connpool_t × na_connpool_t) :
    ∀ (events : List Event) (s s1 : System), run sw s events = some s1 →
      s.st.env.current_conn ≤ s.st.env.conn_max → slots_wf s →
      s1.st.env.current_conn ≤ s1.st.env.conn_max ∧
      (live s = s.st.env.current_conn → no_switch sw s events = true →
        live s1 = s1.st.env.current_conn) := by
  intro events
  induction events with
  | nil =>
    intro s s1 h hb _
    simp only [run, Option.some.injEq] at h
    subst h
    exact ⟨hb, fun hl _ => hl⟩
  | cons e es ih =>
    intro s s1 h hb hw
    simp only [run] at h
    cases hs : step sw s e with
    | none => rw [hs] at h; cases h
    | some s2 =>
      rw [hs] at h
      obtain ⟨i1, i2, i3⟩ := step_inv sw s s2 e hs hb hw
      obtain ⟨j1, j2⟩ := ih s2 s1 h i1 i2
      refine ⟨j1, ?_⟩
      intro hl hns
      simp only [no_switch, hs, Bool.and_eq_true, beq_iff_eq] at hns
      exact j2 (i3 hl hns.1) hns.2

/-- C8, amended: in every state reachable from an initial state by accept
runs, terminations and health-check ticks, `current_conn ≤ conn_max`, and the
accept callback admits a client there only while `current_conn < conn_max`;
as long as no health-check tick has switched the role, the number of live
sessions equals `current_conn`, hence is at most `conn_max`. -/
theorem C8_conn_bound (sw : na_env_t → na_connpool_t × na_connpool_t) (s0 s : System)
    (events : List Event) (h0 : initial s0) (hrun : run sw s0 events = some s) :
    s.st.env.current_conn ≤ s.st.env.conn_max ∧
    (∀ o : AcceptOracle, live (na_front_server_callback o s).1 ≠ live s →
      s.st.env.current_conn < s.st.env.conn_max) ∧
    (no_switch sw s0 events = true →
      live s = s.st.env.current_conn ∧ live s ≤ s.st.env.conn_max) := by
  obtain ⟨hheap, hfree, hcc⟩ := h0
  have hw : slots_wf s0 := by
    intro c hc hu
    rw [hfree c hc] at hu
    cases hu
  have hl : live s0 = s0.st.env.current_conn := by
    unfold live
    rw [hheap, hcc]
    have : s0.ClientPool.countP (fun c => c.is_used) = 0 := by
      rw [List.countP_eq_zero]
      intro c hc
      simp [hfree c hc]
    simp [this]
  obtain ⟨r1, r2⟩ := run_inv sw events s0 s hrun (by rw [hcc]; exact Nat.zero_le _) hw
  refine ⟨r1, ?_, fun hns => ?_⟩
  · intro o hne
    obtain ⟨⟨-, -, -, m4⟩, hlt⟩ := front_callback_moves o s
    rcases m4 with ⟨h1, -⟩ | ⟨-, h2⟩
    · exact absurd h1 hne
    · exact hlt (by rw [h2]; omega)
  · have := r2 hl hns
    exact ⟨this, by rw [this]; exact r1⟩

/-- C8 (amended) at a concrete input: two accept runs with `conn_max = 1`
admit one client. -/
theorem C8_conn_bound_witness :
    initial ex_init ∧
    no_switch ex_switch ex_init [Event.accept (ex_accept 30), Event.accept (ex_accept 31)]
      = true ∧
    ∃ s, run ex_switch ex_init [Event.accept (ex_accept 30), Event.accept (ex_accept 31)]
        = some s ∧ live s = 1 ∧ live s ≤ s.st.env.conn_max := by
  have h0 : initial ex_init := ⟨rfl, by decide, rfl⟩
  have hns : no_switch ex_switch ex_init
      [Event.accept (ex_accept 30), Event.accept (ex_accept 31)] = true := by decide
  refine ⟨h0, hns, _, rfl, by decide, ?_⟩
  exact ((C8_conn_bound ex_switch ex_init _
    [Event.accept (ex_accept 30), Event.accept (ex_accept 31)] h0 rfl).2.2 hns).2

/-- C11, refuted as stated: in the phase stop_accept with `current_conn`
already 0 (as after a failover reset), a run of `na_client_close` leaves
`current_conn` at 0 and the phase at stop_accept, not completed. -/
theorem C11_counterexample :
    (ex_shared_stop 0).GracefulPhase = .NA_GRACEFUL_PHASE_STOP_ACCEPT ∧
    (na_client_close (ex_shared_stop 0) ex_client).st.env.current_conn = 0 ∧
    (na_client_close (ex_shared_stop 0) ex_client).st.GracefulPhase
      = .NA_GRACEFUL_PHASE_STOP_ACCEPT ∧
    (na_client_close (ex_shared_stop 0) ex_client).st.GracefulPhase
      ≠ .NA_GRACEFUL_PHASE_COMPLETED := by
  decide

/-- C11, amended: in the phase stop_accept, a run of `na_client_close` that
decrements `current_conn` to 0 (it was 1 before) leaves the phase completed;
when `current_conn` was already 0 the counter and the phase are left as they
were, and when it was above 1 the phase stays stop_accept. -/
theorem C11_graceful_completed (st : Shared) (client : na_client_t)
    (hphase : st.GracefulPhase = .NA_GRACEFUL_PHASE_STOP_ACCEPT) :
    let r := na_client_close st client
    (0 < st.env.current_conn → r.st.env.current_conn = 0 →
      r.st.GracefulPhase = .NA_GRACEFUL_PHASE_COMPLETED) ∧
    (st.env.current_conn = 1 → r.st.env.current_conn = 0 ∧
      r.st.GracefulPhase = .NA_GRACEFUL_PHASE_COMPLETED) ∧
    (st.env.current_conn = 0 → r.st.env.current_conn = 0 ∧
      r.st.GracefulPhase = .NA_GRACEFUL_PHASE_STOP_ACCEPT) ∧
    (1 < st.env.current_conn → r.st.env.current_conn = st.env.current_conn - 1 ∧
      r.st.GracefulPhase = .NA_GRACEFUL_PHASE_STOP_ACCEPT) := by
  intro r
  have hcc := (client_close_env st client).1
  have hf := (setPool_fields st.env client.connpool
    { st.env.pool client.connpool with
      mark := (st.env.pool client.connpool).mark.set client.cur_pool.toNat 0 }).1
  have hph : r.st.GracefulPhase =
      (if st.env.current_conn > 0 then
        (if st.env.current_conn - 1 = 0 then .NA_GRACEFUL_PHASE_COMPLETED
          else .NA_GRACEFUL_PHASE_STOP_ACCEPT)
       else .NA_GRACEFUL_PHASE_STOP_ACCEPT) := by
    show (na_client_close st client).st.GracefulPhase = _
    simp only [na_client_close, ev_io_stop, hphase]
    by_cases hu : client.is_use_connpool = true
    · simp [hu, hf]
    · simp [hu]
  have hcc' : r.st.env.current_conn = st.env.current_conn - 1 := hcc
  refine ⟨?_, ?_, ?_, ?_⟩
  · intro h1 h2
    rw [hph, if_pos h1, if_pos (by omega)]
  · intro h1
    refine ⟨by omega, ?_⟩
    rw [hph, if_pos (by omega), if_pos (by omega)]
  · intro h1
    refine ⟨by omega, ?_⟩
    rw [hph, if_neg (by omega)]
  · intro h1
    refine ⟨hcc', ?_⟩
    rw [hph, if_pos (by omega), if_neg (by omega)]

/-- C11 (amended) at a concrete input: the last open session is closed in the
phase stop_accept. -/
theorem C11_graceful_completed_witness :
    (ex_shared_stop 1).GracefulPhase = .NA_GRACEFUL_PHASE_STOP_ACCEPT ∧
    (na_client_close (ex_shared_stop 1) ex_client).st.GracefulPhase
      = .NA_GRACEFUL_PHASE_COMPLETED :=
  ⟨rfl, ((C11_graceful_completed (ex_shared_stop 1) ex_client rfl).2.1 rfl).2⟩

/-- The upward scan returns the lowest free index below `max`, if any. -/
theorem scan_up_spec (free : Nat → Bool) : ∀ (max : Nat),
    (∀ i, scan_up free max = some i →
      free i = true ∧ i < max ∧ ∀ j, j < i → free j = false) ∧
    (scan_up free max = none → ∀ j, j < max → free j = false) := by
  intro max
  induction max with
  | zero =>
    constructor
    · intro i h; simp [scan_up] at h
    · intro _ j hj; omega
  | succ n ih =>
    obtain ⟨ih1, ih2⟩ := ih
    have hstep : scan_up free (n + 1)
        = (scan_up free n).or (if free n then some n else none) := by
      simp only [scan_up, List.range_succ, List.find?_append, List.find?_cons, List.find?_nil]
      cases free n <;> rfl
    rw [hstep]
    cases hs : scan_up free n with
    | some k =>
      obtain ⟨a1, a2, a3⟩ := ih1 k hs
      constructor
      · intro i h
        simp only [Option.or] at h
        cases h
        exact ⟨a1, by omega, a3⟩
      · intro h; simp [Option.or] at h
    | none =>
      have hall := ih2 hs
      cases hf : free n with
      | true =>
        constructor
        · intro i h
          simp only [Option.or, if_true] at h
          cases h
          exact ⟨hf, by omega, hall⟩
        · intro h; simp [Option.or] at h
      | false =>
        constructor
        · intro i h; simp [Option.or] at h
        · intro _ j hj
          rcases Nat.lt_succ_iff_lt_or_eq.1 hj with h | h
          · exact hall j h
          · rw [h]; exact hf

/-- The downward scan returns the highest free index below `max`, if any. -/
theorem scan_down_spec (free : Nat → Bool) : ∀ (max : Nat),
    (∀ i, scan_down free max = some i →
      free i = true ∧ i < max ∧ ∀ j, i < j → j < max → free j = false) ∧
    (scan_down free max = none → ∀ j, j < max → free j = false) := by
  intro max
  induction max with
  | zero =>
    constructor
    · intro i h; simp [scan_down] at h
    · intro _ j hj; omega
  | succ n ih =>
    obtain ⟨ih1, ih2⟩ := ih
    have hstep : scan_down free (n + 1)
        = if free n then some n else scan_down free n := by
      simp only [scan_down, List.range_succ, List.reverse_append, List.reverse_cons,
        List.reverse_nil, List.nil_append, List.singleton_append, List.find?_cons]
      cases free n <;> rfl
    rw [hstep]
    cases hf : free n with
    | true =>
      constructor
      · intro i h
        simp only [if_true] at h
        cases h
        exact ⟨hf, by omega, fun j h1 h2 => by omega⟩
      · intro h; simp at h
    | false =>
      simp only [Bool.false_eq_true, if_false]
      constructor
      · intro i h
        obtain ⟨a1, a2, a3⟩ := ih1 i h
        refine ⟨a1, by omega, ?_⟩
        intro j h1 h2
        rcases Nat.lt_succ_iff_lt_or_eq.1 h2 with h | h
        · exact a3 j h1 h
        · rw [h]; exact hf
      · intro h j hj
        rcases Nat.lt_succ_iff_lt_or_eq.1 hj with h1 | h1
        · exact ih2 h j h1
        · rw [h1]; exact hf

/-- A slot that is not free is in use. -/
theorem client_free_false (pool : List na_client_t) (j : Nat) (c : na_client_t)
    (hj : pool[j]? = some c) : client_free pool j = false ↔ c.is_used = true := by
  unfold client_free
  rw [hj]
  cases h : c.is_used <;> simp [h]

/-- C13: for `client_pool_max > 0` slots, `na_client_assign` returns -1 if and
only if every slot is in use, and then changes nothing; otherwise it returns an
index `i < client_pool_max` whose slot was free, sets that slot's `is_used`
and leaves every other slot as it was. The index is the random one if that
slot is free; else it is the highest free index (direction 0) or the lowest
free index (other direction). -/
theorem C13_client_assign (env : na_env_t) (pool : List na_client_t) (r1 r2 : Nat)
    (hmax : 0 < env.client_pool_max) (hlen : pool.length = env.client_pool_max) :
    let a := na_client_assign env pool r1 r2
    let ri := r1 % env.client_pool_max
    (a.1 = -1 ↔ ∀ c ∈ pool, c.is_used = true) ∧
    (a.1 = -1 → a.2 = pool) ∧
    (a.1 ≠ -1 → ∃ (i : Nat) (c : na_client_t),
      a.1 = (i : Int) ∧ i < env.client_pool_max ∧
      pool[i]? = some c ∧ c.is_used = false ∧
      a.2 = pool.set i { c with is_used := true } ∧
      a.2[i]? = some { c with is_used := true } ∧
      (∀ j, j ≠ i → a.2[j]? = pool[j]?) ∧
      (client_free pool ri = true → i = ri) ∧
      (client_free pool ri = false → r2 % 2 = 0 →
        ∀ j c1, i < j → pool[j]? = some c1 → c1.is_used = true) ∧
      (client_free pool ri = false → r2 % 2 ≠ 0 →
        ∀ j c1, j < i → pool[j]? = some c1 → c1.is_used = true)) := by
  intro a ri
  have hri : ri < env.client_pool_max := Nat.mod_lt _ hmax
  have hall : (∀ j, j < env.client_pool_max → client_free pool j = false) ↔
      ∀ c ∈ pool, c.is_used = true := by
    constructor
    · intro h c hc
      obtain ⟨j, hj⟩ := List.getElem?_of_mem hc
      have hlt : j < pool.length := (List.getElem?_eq_some_iff.1 hj).1
      exact (client_free_false pool j c hj).1 (h j (by omega))
    · intro h j hj
      have hlt : j < pool.length := by omega
      have hget : pool[j]? = some pool[j] := List.getElem?_eq_getElem hlt
      exact (client_free_false pool j _ hget).2 (h _ (List.getElem?_mem hget))
  have hup := scan_up_spec (client_free pool) env.client_pool_max
  have hdown := scan_down_spec (client_free pool) env.client_pool_max
  have hin : ∀ j c1, pool[j]? = some c1 → j < env.client_pool_max := by
    intro j c1 h
    have := (List.getElem?_eq_some_iff.1 h).1
    omega
  cases hp : probe_slot (client_free pool) env.client_pool_max r1 r2 with
  | none =>
    have ha : a = (-1, pool) := by
      show na_client_assign env pool r1 r2 = _
      simp only [na_client_assign, hp]
    have hnone : ∀ j, j < env.client_pool_max → client_free pool j = false := by
      unfold probe_slot at hp
      simp only at hp
      split at hp
      · cases hp
      · split at hp
        · exact hdown.2 hp
        · exact hup.2 hp
    rw [ha]
    exact ⟨⟨fun _ => hall.1 hnone, fun _ => rfl⟩, fun _ => rfl, fun h => absurd rfl h⟩
  | some i =>
    have hfree := probe_slot_free _ _ _ _ _ hp
    have hi : ∃ c, pool[i]? = some c ∧ c.is_used = false := by
      unfold client_free at hfree
      cases hk : pool[i]? with
      | none => rw [hk] at hfree; simp at hfree
      | some c => rw [hk] at hfree; exact ⟨c, rfl, by simpa using hfree⟩
    obtain ⟨c, hc, hcu⟩ := hi
    have hilt : i < env.client_pool_max := hin i c hc
    have ha : a = ((i : Int), pool.set i { c with is_used := true }) := by
      show na_client_assign env pool r1 r2 = _
      simp only [na_client_assign, hp, client_claim, hc]
    rw [ha]
    refine ⟨⟨fun h => ?_, fun h => ?_⟩, fun h => ?_, fun _ => ?_⟩
    · simp only at h; omega
    · have := h c (List.getElem?_mem hc)
      rw [hcu] at this; cases this
    · simp only at h; omega
    · refine ⟨i, c, rfl, hilt, hc, hcu, rfl, ?_, ?_, ?_, ?_, ?_⟩
      · simp [List.getElem?_set, (List.getElem?_eq_some_iff.1 hc).1]
      · intro j hj
        simp [List.getElem?_set, Ne.symm hj]
      · intro hf
        unfold probe_slot at hp
        simp only [hf, if_true, Option.some.injEq] at hp
        exact hp.symm
      · intro hf h2 j c1 hij hj
        unfold probe_slot at hp
        simp only [hf, Bool.false_eq_true, if_false, h2, if_true] at hp
        exact (client_free_false pool j c1 hj).1 ((hdown.1 i hp).2.2 j hij (hin j c1 hj))
      · intro hf h2 j c1 hij hj
        unfold probe_slot at hp
        simp only [hf, Bool.false_eq_true, if_false, h2] at hp
        exact (client_free_false pool j c1 hj).1 ((hup.1 i hp).2.2 j hij)

/-- C13 at a concrete input: slot 0 is taken and the scan goes upwards. -/
theorem C13_client_assign_witness :
    0 < ex_env.client_pool_max ∧ ex_system.ClientPool.length = ex_env.client_pool_max ∧
    (na_client_assign ex_env ex_system.ClientPool 0 1).1 = -1 ∧
    (na_client_assign ex_env ex_system.ClientPool 0 1).2 = ex_system.ClientPool :=
  ⟨by decide, by decide, by decide,
    (C13_client_assign ex_env ex_system.ClientPool 0 1 (by decide) (by decide)).2.1
      (by decide)⟩

/-- When `na_server_accept` fails, or the client slots are all in use and an
allocation fails, the accept callback ends in its roll-back. -/
theorem front_accept_fail (o : AcceptOracle) (connpool : connpool_ref) (cur_pool tsfd : Int)
    (s : System)
    (hfail : o.accept < 0 ∨ ((∀ c ∈ s.ClientPool, c.is_used = true) ∧
      (o.malloc_client = false ∨ o.malloc_crbuf = false ∨ o.malloc_srbuf = false))) :
    (front_accept o connpool cur_pool tsfd s).1 = (front_rollback connpool cur_pool tsfd s).1 ∧
    (cur_pool = -1 → Action.close tsfd ∈ (front_accept o connpool cur_pool tsfd s).2) := by
  have hclose : cur_pool = -1 → Action.close tsfd ∈ (front_rollback connpool cur_pool tsfd s).2 := by
    intro h; simp [front_rollback, h]
  unfold front_accept
  simp only
  by_cases hacc : o.accept < 0
  · simp only [hacc, if_true]
    exact ⟨trivial, fun h => List.mem_append_left _ (hclose h)⟩
  · rcases hfail with h | ⟨hall, hm⟩
    · exact absurd h hacc
    · have ha : na_client_assign s.st.env s.ClientPool o.client_r1 o.client_r2
          = (-1, s.ClientPool) := by
        rcases client_assign_cases s.st.env s.ClientPool o.client_r1 o.client_r2 with h | h
        · exact h
        · obtain ⟨k, c, hk, hfree, -⟩ := h
          have := hall c (List.getElem?_mem hk)
          rw [hfree] at this; cases this
      simp only [hacc, if_false, ha, show ¬ ((-1 : Int) ≥ 0) by decide]
      have hs : ({ s with ClientPool := s.ClientPool } : System) = s := rfl
      rw [hs]
      by_cases hmc : o.malloc_client = false
      · simp only [hmc, Bool.not_false, if_true]
        refine ⟨trivial, fun h => ?_⟩
        have := hclose h
        simp [this]
      · have hmc' : o.malloc_client = true := by simpa using hmc
        have hb : (!o.malloc_crbuf || !o.malloc_srbuf) = true := by
          rcases hm with h | h | h
          · exact absurd h hmc
          · simp [h]
          · simp [h]
        simp only [hmc', Bool.not_true, Bool.false_eq_true, if_false, hb, if_true]
        refine ⟨trivial, fun h => ?_⟩
        have := hclose h
        simp [this]

/-- What the assignment of a pool slot does: nothing, or it marks a slot whose
mark was 0. -/
theorem connpool_assign_cases (env : na_env_t) (pool : na_connpool_t) (server : server_ref)
    (r1 r2 : Nat) (sock : Int) :
    let a := na_connpool_assign env pool server r1 r2 sock
    (a.slot = none → a.pool = pool) ∧
    (∀ i fd, a.slot = some (i, fd) →
      i < pool.mark.length ∧ pool.mark[i]? = some 0 ∧ a.pool.mark = pool.mark.set i 1) := by
  intro a
  cases hp : probe_slot (fun i => decide (i < pool.mark.length) && pool.mark.getD i 0 == 0)
      env.connpool_max r1 r2 with
  | none =>
    have ha : a = { slot := none, pool := pool, trace := [] } := by
      show na_connpool_assign env pool server r1 r2 sock = _
      simp only [na_connpool_assign, hp]
    rw [ha]
    exact ⟨fun _ => rfl, fun i fd h => by cases h⟩
  | some k =>
    have hfree := probe_slot_free _ _ _ _ _ hp
    simp only [Bool.and_eq_true, decide_eq_true_eq, beq_iff_eq] at hfree
    obtain ⟨hlt, hm⟩ := hfree
    have hm' : pool.mark[k]? = some 0 := by
      rw [List.getElem?_eq_getElem hlt]
      simp only [List.getD_eq_getElem?_getD, List.getElem?_eq_getElem hlt,
        Option.getD_some] at hm
      rw [hm]
    have ha : a.slot.map Prod.fst = some k ∧ a.pool.mark = pool.mark.set k 1 := by
      show (na_connpool_assign env pool server r1 r2 sock).slot.map Prod.fst = _ ∧
        (na_connpool_assign env pool server r1 r2 sock).pool.mark = _
      simp only [na_connpool_assign, hp]
      split <;> exact ⟨rfl, rfl⟩
    constructor
    · intro h
      rw [h] at ha
      simp at ha
    · intro i fd h
      rw [h] at ha
      simp only [Option.map_some', Option.some.injEq] at ha
      obtain ⟨e, hmark⟩ := ha
      subst e
      exact ⟨hlt, hm', hmark⟩

/-- Reading a pool that has just been stored. -/
theorem pool_setPool (env : na_env_t) (r : connpool_ref) (p : na_connpool_t) :
    (env.setPool r p).pool r = p := by
  cases r <;> rfl

/-- Marking a slot whose mark is 0 and unmarking it again gives the marks
back. -/
theorem set_one_set_zero (mark : List Nat) (i : Nat) (h : mark[i]? = some 0) :
    (mark.set i 1).set i 0 = mark := by
  apply List.ext_getElem?
  intro j
  by_cases hj : i = j
  · subst hj
    have hlt : i < mark.length := (List.getElem?_eq_some_iff.1 h).1
    simp [List.getElem?_set, hlt, h]
  · simp [List.getElem?_set, hj]

/-- C15: take a run of `na_front_server_callback` that gets past the admission
gate and in which `accept()` fails, or the client slots are all in use and the
allocation of the session or of one of its buffers fails. On return
`current_conn` and `current_conn_max` are as before and no client slot has
been claimed (nor a session added to the heap). If a pool slot had been
reserved, its mark, set to 1 by the reservation, is 0 again and all marks are
as before the callback; if none had been reserved, the ephemeral upstream
socket has been closed. -/
theorem C15_accept_rollback (o : AcceptOracle) (s : System)
    (h1 : s.st.env.is_refused_accept = false)
    (h2 : s.st.env.current_conn < s.st.env.conn_max)
    (hfail : o.accept < 0 ∨ ((∀ c ∈ s.ClientPool, c.is_used = true) ∧
      (o.malloc_client = false ∨ o.malloc_crbuf = false ∨ o.malloc_srbuf = false))) :
    let cp := na_connpool_select s.st.env
    let a := na_connpool_assign s.st.env (s.st.env.pool cp) (select_server s.st.env)
      o.assign_r1 o.assign_r2 o.assign_sock
    let r := na_front_server_callback o s
    r.1.st.env.current_conn = s.st.env.current_conn ∧
    r.1.st.env.current_conn_max = s.st.env.current_conn_max ∧
    r.1.ClientPool = s.ClientPool ∧ r.1.heap = s.heap ∧
    (∀ i fd, a.slot = some (i, fd) →
      a.pool.mark[i]? = some 1 ∧ (r.1.st.env.pool cp).mark[i]? = some 0 ∧
      (r.1.st.env.pool cp).mark = (s.st.env.pool cp).mark) ∧
    (a.slot = none → 0 ≤ o.tcpsock_init →
      (o.connect = none ∨ o.connect = some .EINPROGRESS ∨ o.connect = some .EALREADY) →
      Action.close o.tcpsock_init ∈ r.2 ∧
      (r.1.st.env.pool cp).mark = (s.st.env.pool cp).mark) := by
  intro cp a r
  have hfin1 : ∀ x : System × List Action, (front_finally x).1.st.env = x.1.st.env ∧
      (front_finally x).1.ClientPool = x.1.ClientPool ∧ (front_finally x).1.heap = x.1.heap ∧
      ∀ act ∈ x.2, act ∈ (front_finally x).2 := by
    intro x
    unfold front_finally
    split
    · exact ⟨rfl, rfl, rfl, fun act h => List.mem_append_left _ h⟩
    · exact ⟨rfl, rfl, rfl, fun act h => h⟩
  have h2' : ¬ s.st.env.current_conn ≥ s.st.env.conn_max := by omega
  obtain ⟨ac1, ac2⟩ := connpool_assign_cases s.st.env (s.st.env.pool cp)
    (select_server s.st.env) o.assign_r1 o.assign_r2 o.assign_sock
  have hf := setPool_fields s.st.env cp a.pool
  obtain ⟨s1, hs1⟩ : ∃ s1 : System,
      s1 = { s with st := { s.st with env := s.st.env.setPool cp a.pool } } := ⟨_, rfl⟩
  have hpool1 : s1.st.env.pool cp = a.pool := by rw [hs1]; exact pool_setPool _ _ _
  have hroll : ∀ (cur tsfd : Int) (s2 : System),
      (front_rollback cp cur tsfd s2).1.st.env.current_conn = s2.st.env.current_conn ∧
      (front_rollback cp cur tsfd s2).1.st.env.current_conn_max = s2.st.env.current_conn_max ∧
      (front_rollback cp cur tsfd s2).1.ClientPool = s2.ClientPool ∧
      (front_rollback cp cur tsfd s2).1.heap = s2.heap ∧
      (cur = -1 → (front_rollback cp cur tsfd s2).1.st.env.pool cp = s2.st.env.pool cp) ∧
      (cur ≠ -1 → ((front_rollback cp cur tsfd s2).1.st.env.pool cp).mark
        = (s2.st.env.pool cp).mark.set cur.toNat 0) := by
    intro cur tsfd s2
    unfold front_rollback
    split
    · rename_i h
      exact ⟨rfl, rfl, rfl, rfl, fun _ => rfl, fun h' => absurd h h'⟩
    · rename_i h
      have hf2 := setPool_fields s2.st.env cp
        { s2.st.env.pool cp with mark := (s2.st.env.pool cp).mark.set cur.toNat 0 }
      refine ⟨hf2.1, hf2.2.2.1, rfl, rfl, fun h' => absurd h' h, fun _ => ?_⟩
      simp only [pool_setPool]
  cases hslot : a.slot with
  | some p =>
    obtain ⟨i, fd⟩ := p
    obtain ⟨b1, b2, b3⟩ := ac2 i fd hslot
    have hr : r = front_finally ((front_accept o cp (i : Int) fd s1).1,
        a.trace ++ (front_accept o cp (i : Int) fd s1).2) := by
      show na_front_server_callback o s = _
      unfold na_front_server_callback front_body
      simp only [h1, h2', Bool.false_eq_true, if_false]
      rw [show na_connpool_assign s.st.env (s.st.env.pool (na_connpool_select s.st.env))
        (select_server s.st.env) o.assign_r1 o.assign_r2 o.assign_sock = a from rfl]
      simp only [hslot, hs1]
    obtain ⟨f1, f2, f3, -⟩ := hfin1 ((front_accept o cp (i : Int) fd s1).1,
        a.trace ++ (front_accept o cp (i : Int) fd s1).2)
    have hfa := (front_accept_fail o cp (i : Int) fd s1 (by rw [hs1]; exact hfail)).1
    obtain ⟨g1, g2, g3, g4, -, g6⟩ := hroll (i : Int) fd s1
    have hne : (i : Int) ≠ -1 := by omega
    have hmark : (r.1.st.env.pool cp).mark = (s.st.env.pool cp).mark := by
      rw [hr, f1]
      simp only [hfa]
      rw [g6 hne, hpool1, b3]
      simp only [Int.toNat_ofNat]
      exact set_one_set_zero _ _ b2
    refine ⟨?_, ?_, ?_, ?_, ?_, (fun h => by cases h)⟩
    · rw [hr, f1]; simp only [hfa]; rw [g1, hs1]; exact hf.1
    · rw [hr, f1]; simp only [hfa]; rw [g2, hs1]; exact hf.2.2.1
    · rw [hr, f2]; simp only [hfa]; rw [g3, hs1]
    · rw [hr, f3]; simp only [hfa]; rw [g4, hs1]
    · intro i2 fd2 he
      simp only [Option.some.injEq, Prod.mk.injEq] at he
      obtain ⟨e1, e2⟩ := he
      subst e1 e2
      refine ⟨?_, ?_, hmark⟩
      · rw [b3]; simp [List.getElem?_set, b1]
      · rw [hmark]; exact b2
  | none =>
    have hap : a.pool = s.st.env.pool cp := ac1 hslot
    have hacc : ∀ (tsfd : Int) (s2 : System), s2.st.env = s1.st.env →
        s2.ClientPool = s.ClientPool → s2.heap = s.heap →
        (front_accept o cp (-1) tsfd s2).1.st.env.current_conn = s.st.env.current_conn ∧
        (front_accept o cp (-1) tsfd s2).1.st.env.current_conn_max
          = s.st.env.current_conn_max ∧
        (front_accept o cp (-1) tsfd s2).1.ClientPool = s.ClientPool ∧
        (front_accept o cp (-1) tsfd s2).1.heap = s.heap ∧
        ((front_accept o cp (-1) tsfd s2).1.st.env.pool cp).mark = (s.st.env.pool cp).mark ∧
        Action.close tsfd ∈ (front_accept o cp (-1) tsfd s2).2 := by
      intro tsfd s2 e1 e2 e3
      obtain ⟨k1, k2⟩ := front_accept_fail o cp (-1) tsfd s2 (by rw [e2]; exact hfail)
      obtain ⟨g1, g2, g3, g4, g5, -⟩ := hroll (-1) tsfd s2
      rw [k1, g1, g2, g3, g4, g5 rfl, e1, e2, e3, hpool1, hap]
      refine ⟨?_, ?_, rfl, rfl, rfl, k2 rfl⟩
      · rw [hs1]; exact hf.1
      · rw [hs1]; exact hf.2.2.1
    have hs1env : s1.st.env.current_conn = s.st.env.current_conn ∧
        s1.st.env.current_conn_max = s.st.env.current_conn_max ∧
        (s1.st.env.pool cp).mark = (s.st.env.pool cp).mark := by
      refine ⟨by rw [hs1]; exact hf.1, by rw [hs1]; exact hf.2.2.1, by rw [hpool1, hap]⟩
    have hbody : front_body o s =
        (if o.tcpsock_init < 0 then (s1, [Action.error_output .NA_ERROR_INVALID_FD])
         else match o.connect with
          | some e =>
            if e ≠ .EINPROGRESS ∧ e ≠ .EALREADY then
              ({ s1 with st := { s1.st with errno := e } },
                [Action.tcpsock_init o.tcpsock_init,
                  Action.connect o.tcpsock_init (select_server s.st.env),
                  Action.close o.tcpsock_init,
                  Action.error_output .NA_ERROR_CONNECTION_FAILED])
            else
              ((front_accept o cp (-1) o.tcpsock_init
                  { s1 with st := { s1.st with errno := e } }).1,
                [Action.tcpsock_init o.tcpsock_init,
                  Action.connect o.tcpsock_init (select_server s.st.env)]
                  ++ (front_accept o cp (-1) o.tcpsock_init
                    { s1 with st := { s1.st with errno := e } }).2)
          | none =>
            ((front_accept o cp (-1) o.tcpsock_init s1).1,
              [Action.tcpsock_init o.tcpsock_init,
                Action.connect o.tcpsock_init (select_server s.st.env)]
                ++ (front_accept o cp (-1) o.tcpsock_init s1).2)) := by
      unfold front_body
      simp only [h1, h2', Bool.false_eq_true, if_false]
      rw [show na_connpool_assign s.st.env (s.st.env.pool (na_connpool_select s.st.env))
        (select_server s.st.env) o.assign_r1 o.assign_r2 o.assign_sock = a from rfl]
      simp only [hslot, hs1]
    have hr : r = front_finally (front_body o s) := rfl
    obtain ⟨f1, f2, f3, f4⟩ := hfin1 (front_body o s)
    rw [hr, f1, f2, f3]
    rw [hbody] at f4 ⊢
    by_cases hneg : o.tcpsock_init < 0
    · simp only [hneg, if_true]
      refine ⟨hs1env.1, hs1env.2.1, by rw [hs1], by rw [hs1],
        (fun i fd h => by cases h), fun _ h0 _ => absurd hneg (by omega)⟩
    · simp only [hneg, if_false] at f4 ⊢
      cases hconn : o.connect with
      | none =>
        simp only [hconn] at f4 ⊢
        obtain ⟨q1, q2, q3, q4, q5, q6⟩ := hacc o.tcpsock_init s1 rfl (by rw [hs1]) (by rw [hs1])
        exact ⟨q1, q2, q3, q4, (fun i fd h => by cases h),
          fun _ _ _ => ⟨f4 _ (List.mem_append_right _ q6), q5⟩⟩
      | some e =>
        simp only [hconn] at f4 ⊢
        by_cases hfatal : e ≠ .EINPROGRESS ∧ e ≠ .EALREADY
        · rw [if_pos hfatal] at f4 ⊢
          refine ⟨hs1env.1, hs1env.2.1, by rw [hs1], by rw [hs1],
            (fun i fd h => by cases h), fun _ _ hc => ?_⟩
          exact ⟨f4 _ (by simp), hs1env.2.2⟩
        · rw [if_neg hfatal] at f4 ⊢
          obtain ⟨q1, q2, q3, q4, q5, q6⟩ := hacc o.tcpsock_init
            { s1 with st := { s1.st with errno := e } } rfl (by rw [hs1]) (by rw [hs1])
          exact ⟨q1, q2, q3, q4, (fun i fd h => by cases h),
            fun _ _ _ => ⟨f4 _ (List.mem_append_right _ q6), q5⟩⟩

/-- C15 at a concrete input: pool slot 1 is reserved, then `accept()` fails. -/
theorem C15_accept_rollback_witness :
    ex_system_full.st.env.is_refused_accept = false ∧
    ex_system_full.st.env.current_conn < ex_system_full.st.env.conn_max ∧
    ((na_front_server_callback (ex_accept (-1)) ex_system_full).1.st.env.pool .active).mark
      = [1, 0] ∧
    (na_front_server_callback (ex_accept (-1)) ex_system_full).1.st.env.current_conn = 2 := by
  have h := C15_accept_rollback (ex_accept (-1)) ex_system_full rfl (by decide)
    (Or.inl (by decide))
  simp only at h
  obtain ⟨h1, -, -, -, h5, -⟩ := h
  exact ⟨rfl, by decide, (h5 1 6 rfl).2.2, h1⟩

/-- An upstream-writable callback of a pooled session whose `write` fails for
good, the reconnect of the slot going through. -/
theorem ts_write_fail_pooled (mp : Memproto) (o : Oracle) (revents : Nat) (st : Shared)
    (client : na_client_t) (e : Errno)
    (hp : passes_checks st client) (hr : hasFlag revents EV_READ = false)
    (hw : hasFlag revents EV_WRITE = true) (hwrite : o.write = .err e)
    (hretry : is_retry e = false) (hpool : client.is_use_connpool = true)
    (hsock : 0 < o.tcpsock_init)
    (hconn : o.connect = none ∨ o.connect = some .EINPROGRESS ∨ o.connect = some .EALREADY) :
    ∃ (c1 : na_client_t) (st1 : Shared),
      c1.cfd = client.cfd ∧ c1.tsfd = client.tsfd ∧ c1.cur_pool = client.cur_pool ∧
      c1.connpool = client.connpool ∧ c1.is_use_connpool = true ∧
      c1.is_use_client_pool = client.is_use_client_pool ∧
      st1.env = st.env.setPool client.connpool
        { st.env.pool client.connpool with
          fd_pool := (st.env.pool client.connpool).fd_pool.set client.cur_pool.toNat
            o.tcpsock_init } ∧
      na_target_server_callback mp o revents st client = .ret
        { NA_EVENT_FAIL (pooled_write_error e o.connect) .ts_watcher st1 c1 with
          trace := [Action.write_failed client.ts_watcher.fd]
            ++ ((if (st.env.pool client.connpool).fd_pool.getD client.cur_pool.toNat 0 > 0
                  then [Action.close
                    ((st.env.pool client.connpool).fd_pool.getD client.cur_pool.toNat 0)]
                  else [])
              ++ [Action.tcpsock_init o.tcpsock_init]
              ++ [Action.connect o.tcpsock_init (select_server st.env)])
            ++ (NA_EVENT_FAIL (pooled_write_error e o.connect) .ts_watcher st1 c1).trace } := by
  obtain ⟨hrc, hl⟩ := hp
  obtain ⟨lc, hlc⟩ : ∃ lc, (loop_check st.env client).2 = { client with loop_cnt := lc } :=
    ⟨_, loop_check_snd _ _⟩
  have hcb : na_target_server_callback mp o revents st client
      = ts_writable o st { client with loop_cnt := lc } := by
    simp [na_target_server_callback, hrc, hl, hr, hw, hlc]
  have hsock' : ¬ o.tcpsock_init ≤ 0 := by omega
  rw [hcb]
  unfold ts_writable
  simp only [hwrite, errno_after_write, hretry, Bool.false_eq_true, if_false, hpool, if_true,
    reconnect_slot, hsock']
  rcases hconn with h | h | h
  · rw [h]
    simp only [pooled_write_error]
    by_cases he : e = .EPIPE
    · simp only [he, if_true]
      refine ⟨_, _, ?_, ?_, ?_, ?_, ?_, ?_, ?_, rfl⟩ <;> rfl
    · simp only [he, if_false]
      refine ⟨_, _, ?_, ?_, ?_, ?_, ?_, ?_, ?_, rfl⟩ <;> rfl
  · rw [h]
    simp only [pooled_write_error, ne_eq, not_true_eq_false, false_and, if_false,
      reduceCtorEq]
    refine ⟨_, _, ?_, ?_, ?_, ?_, ?_, ?_, ?_, rfl⟩ <;> rfl
  · rw [h]
    simp only [pooled_write_error, ne_eq, not_true_eq_false, and_false, if_false,
      reduceCtorEq]
    refine ⟨_, _, ?_, ?_, ?_, ?_, ?_, ?_, ?_, rfl⟩ <;> rfl

/-- The pool of a pooled session after the termination routine: the old pool
with the mark of the session's slot set to 0. -/
theorem client_close_pool_eq (st : Shared) (client : na_client_t)
    (hu : client.is_use_connpool = true) :
    (na_client_close st client).st.env.pool client.connpool
      = { st.env.pool client.connpool with
          mark := (st.env.pool client.connpool).mark.set client.cur_pool.toNat 0 } := by
  simp only [na_client_close, ev_io_stop, hu, if_true]
  cases hcp : client.connpool <;> split <;>
    simp [na_env_t.pool, na_env_t.setPool, hcp]

/-- The trace of the termination routine for a pooled session whose slot is
still marked: nothing but the client socket is closed. -/
theorem client_close_trace_marked (st : Shared) (client : na_client_t)
    (hu : client.is_use_connpool = true)
    (hm : (st.env.pool client.connpool).mark[client.cur_pool.toNat]? = some 1) :
    (na_client_close st client).trace
      = [Action.close client.cfd, Action.ev_io_stop .c_watcher, Action.ev_io_stop .ts_watcher]
        ++ (if client.is_use_client_pool then [] else [Action.free_client]) := by
  simp [na_client_close, ev_io_stop, hu, hm]

/-- C16: a session on pool slot `i` (the slot marked) whose upstream write
fails with an error other than EAGAIN, EWOULDBLOCK and EINTR, the replacement
socket being created and its connect succeeding or reporting EINPROGRESS or
EALREADY: the callback returns with the session terminated, `fd_pool[i]` is
the new socket, `mark[i]` is 0, and after the creation of the new socket
nothing is closed but the client socket. -/
theorem C16_reconnect_keeps_slot (mp : Memproto) (o : Oracle) (revents : Nat) (st : Shared)
    (client : na_client_t) (e : Errno)
    (hp : passes_checks st client) (hr : hasFlag revents EV_READ = false)
    (hw : hasFlag revents EV_WRITE = true) (hwrite : o.write = .err e)
    (hretry : is_retry e = false) (hpool : client.is_use_connpool = true)
    (hsock : 0 < o.tcpsock_init)
    (hconn : o.connect = none ∨ o.connect = some .EINPROGRESS ∨ o.connect = some .EALREADY)
    (hmark : (st.env.pool client.connpool).mark[client.cur_pool.toNat]? = some 1)
    (hfd : client.cur_pool.toNat < (st.env.pool client.connpool).fd_pool.length) :
    ∃ r, na_target_server_callback mp o revents st client = .ret r ∧
      r.client.cfd = -1 ∧ r.client.tsfd = -1 ∧ Action.close client.cfd ∈ r.trace ∧
      (r.st.env.pool client.connpool).fd_pool[client.cur_pool.toNat]? = some o.tcpsock_init ∧
      (r.st.env.pool client.connpool).mark[client.cur_pool.toNat]? = some 0 ∧
      ∃ pre post, r.trace = pre ++ Action.tcpsock_init o.tcpsock_init :: post ∧
        ∀ fd, Action.close fd ∈ post → fd = client.cfd := by
  obtain ⟨c1, st1, k1, k2, k3, k4, k5, k6, k7, hcb⟩ :=
    ts_write_fail_pooled mp o revents st client e hp hr hw hwrite hretry hpool hsock hconn
  have hstop : (ev_io_stop .ts_watcher c1).cfd = client.cfd ∧
      (ev_io_stop .ts_watcher c1).cur_pool = client.cur_pool ∧
      (ev_io_stop .ts_watcher c1).connpool = client.connpool ∧
      (ev_io_stop .ts_watcher c1).is_use_connpool = true ∧
      (ev_io_stop .ts_watcher c1).is_use_client_pool = client.is_use_client_pool := by
    simp [ev_io_stop, k1, k3, k4, k5, k6]
  obtain ⟨s1, s3, s4, s5, s6⟩ := hstop
  have hpool1 : st1.env.pool client.connpool
      = { st.env.pool client.connpool with
          fd_pool := (st.env.pool client.connpool).fd_pool.set client.cur_pool.toNat
            o.tcpsock_init } := by
    rw [k7]; exact pool_setPool _ _ _
  have hmark1 : (st1.env.pool (ev_io_stop .ts_watcher c1).connpool).mark[
      (ev_io_stop .ts_watcher c1).cur_pool.toNat]? = some 1 := by
    rw [s3, s4, hpool1]; exact hmark
  have hcp := client_close_pool_eq st1 (ev_io_stop .ts_watcher c1) s5
  rw [s3, s4, hpool1] at hcp
  have htr := client_close_trace_marked st1 (ev_io_stop .ts_watcher c1) s5 hmark1
  rw [s1, s6] at htr
  have hcl := client_close_client st1 (ev_io_stop .ts_watcher c1)
  simp only at hcl
  have hmlt : client.cur_pool.toNat < (st.env.pool client.connpool).mark.length :=
    (List.getElem?_eq_some_iff.1 hmark).1
  refine ⟨_, hcb, ?_, ?_, ?_, ?_, ?_, ?_⟩
  · exact hcl.2.2.2.2.2.2.2.2.2.1
  · exact hcl.2.2.2.2.2.2.2.2.2.2.1
  · simp only [NA_EVENT_FAIL, na_event_stop, htr]
    simp
  · show ((na_client_close st1 (ev_io_stop .ts_watcher c1)).st.env.pool
      client.connpool).fd_pool[client.cur_pool.toNat]? = _
    rw [hcp]
    simp [List.getElem?_set, hfd]
  · show ((na_client_close st1 (ev_io_stop .ts_watcher c1)).st.env.pool
      client.connpool).mark[client.cur_pool.toNat]? = _
    rw [hcp]
    simp [List.getElem?_set, hmlt]
  · refine ⟨[Action.write_failed client.ts_watcher.fd]
        ++ (if (st.env.pool client.connpool).fd_pool.getD client.cur_pool.toNat 0 > 0
              then [Action.close
                ((st.env.pool client.connpool).fd_pool.getD client.cur_pool.toNat 0)]
              else []),
      [Action.connect o.tcpsock_init (select_server st.env)]
        ++ (NA_EVENT_FAIL (pooled_write_error e o.connect) .ts_watcher st1 c1).trace, ?_, ?_⟩
    · simp only [List.append_assoc, List.singleton_append, List.cons_append, List.nil_append]
    · intro fd hmem
      simp only [NA_EVENT_FAIL, na_event_stop, htr, List.mem_append, List.mem_cons,
        List.mem_singleton, List.not_mem_nil, or_false] at hmem
      rcases hmem with h | ((h | (h | h | h) | h) | h)
      · cases h
      · cases h
      · cases h; rfl
      · cases h
      · cases h
      · split at h
        · simp at h
        · simp at h
      · cases h

/-- C16 at a concrete input: the write on the socket of slot 0 fails with
ECONNRESET (error number 104) and the connect of the new socket 9 reports
EINPROGRESS. -/
theorem C16_reconnect_keeps_slot_witness :
    passes_checks ex_system_tw ex_client_tw ∧
    ∃ r, na_target_server_callback ex_mp (ex_oracle_wfail (.other 104) (some .EINPROGRESS))
        EV_WRITE ex_system_tw ex_client_tw = .ret r ∧
      (r.st.env.pool .active).fd_pool = [9, 6] ∧ (r.st.env.pool .active).mark = [0, 0] := by
  refine ⟨by decide, ?_⟩
  obtain ⟨r, hr, -⟩ := C16_reconnect_keeps_slot ex_mp
    (ex_oracle_wfail (.other 104) (some .EINPROGRESS)) EV_WRITE ex_system_tw ex_client_tw
    (.other 104) (by decide) (by decide) (by decide) rfl (by decide) rfl (by decide)
    (Or.inr (Or.inl rfl)) (by decide) (by decide)
  have e : na_target_server_callback ex_mp (ex_oracle_wfail (.other 104) (some .EINPROGRESS))
      EV_WRITE ex_system_tw ex_client_tw = .ret r := hr
  have e2 : (match na_target_server_callback ex_mp
      (ex_oracle_wfail (.other 104) (some .EINPROGRESS)) EV_WRITE ex_system_tw ex_client_tw with
      | .ret x => ((x.st.env.pool .active).fd_pool, (x.st.env.pool .active).mark)
      | .die _ => ([], [])) = ([9, 6], [0, 0]) := by decide
  rw [e] at e2
  simp only [Prod.mk.injEq] at e2
  exact ⟨r, hr, e2.1, e2.2⟩

/-- C17, the code at the failing input: a session on a pool slot whose
upstream `write` fails with EPIPE, the connect of the replacement socket
reporting EINPROGRESS, is terminated with `NA_ERROR_FAILED_WRITE`, not with
`NA_ERROR_BROKEN_PIPE`; the same failure of a session with an ephemeral
upstream socket, and of a write to the client, is reported as
`NA_ERROR_BROKEN_PIPE`. -/
theorem C17_pooled_epipe_reported_failed_write :
    passes_checks ex_system_tw ex_client_tw ∧ ex_client_tw.is_use_connpool = true ∧
    errors_of (na_target_server_callback ex_mp (ex_oracle_wfail .EPIPE (some .EINPROGRESS))
      EV_WRITE ex_system_tw ex_client_tw) = [.NA_ERROR_FAILED_WRITE] ∧
    errors_of (na_target_server_callback ex_mp (ex_oracle_wfail .EPIPE (some .EINPROGRESS))
      EV_WRITE ex_system_tw { ex_client_tw with is_use_connpool := false })
      = [.NA_ERROR_BROKEN_PIPE] ∧
    errors (na_client_callback ex_mp (ex_oracle_wfail .EPIPE none) EV_WRITE ex_shared
      ex_client_cw).trace = [.NA_ERROR_BROKEN_PIPE] := by
  decide

/-- The errors of two traces in a row. -/
theorem errors_append (t1 t2 : List Action) : errors (t1 ++ t2) = errors t1 ++ errors t2 := by
  induction t1 with
  | nil => rfl
  | cons a t ih => cases a <;> simp [errors, ih]

/-- Stopping a watcher leaves the core fields alone. -/
theorem core_ev_io_stop (w : watcher_id) (c : na_client_t) : core (ev_io_stop w c) = core c := by
  cases w <;> rfl

/-- Starting a watcher leaves the core fields alone. -/
theorem core_ev_io_set_start (w : watcher_id) (fd : Int) (ev : Nat) (c : na_client_t) :
    core (ev_io_set_start w fd ev c) = core c := by
  cases w <;> rfl

/-- The termination routine leaves the core fields alone and reports no error. -/
theorem core_client_close (st : Shared) (c : na_client_t) :
    core (na_client_close st c).client = core c ∧ errors (na_client_close st c).trace = [] ∧
    was_closed (na_client_close st c) = true := by
  refine ⟨?_, ?_, ?_⟩
  · simp only [na_client_close, ev_io_stop, core]
    split <;> rfl
  · simp only [na_client_close, errors_append]
    split <;> split <;> (try split) <;> simp [errors]
  · simp [na_client_close, was_closed, Action.is_close]

/-- The function `na_event_stop` leaves the core fields alone and reports no
error. -/
theorem core_event_stop (w : watcher_id) (st : Shared) (c : na_client_t) :
    core (na_event_stop w st c).client = core c ∧ errors (na_event_stop w st c).trace = [] ∧
    was_closed (na_event_stop w st c) = true := by
  obtain ⟨h1, h2, h3⟩ := core_client_close st (ev_io_stop w c)
  refine ⟨by simp only [na_event_stop, h1, core_ev_io_stop], ?_, ?_⟩
  · show errors ([Action.ev_io_stop w] ++ (na_client_close st (ev_io_stop w c)).trace) = []
    rw [errors_append, h2]; rfl
  · show ((Action.ev_io_stop w :: (na_client_close st (ev_io_stop w c)).trace).any
      Action.is_close) = true
    unfold was_closed at h3
    rw [List.any_cons, h3]; rfl

/-- The macro `NA_EVENT_FAIL` leaves the core fields alone and reports its
error. -/
theorem core_event_fail (e : na_error_t) (w : watcher_id) (st : Shared) (c : na_client_t) :
    core (NA_EVENT_FAIL e w st c).client = core c ∧
    errors (NA_EVENT_FAIL e w st c).trace = [e] ∧
    was_closed (NA_EVENT_FAIL e w st c) = true := by
  obtain ⟨h1, h2, h3⟩ := core_event_stop w st c
  refine ⟨by simp only [NA_EVENT_FAIL, h1], ?_, ?_⟩
  · show errors ((na_event_stop w st c).trace ++ [Action.error_output e]) = [e]
    rw [errors_append, h2]; rfl
  · show (((na_event_stop w st c).trace ++ [Action.error_output e]).any Action.is_close) = true
    unfold was_closed at h3
    rw [List.any_append, h3]; rfl

/-- The function `na_event_switch` leaves the core fields alone and reports
nothing. -/
theorem core_event_switch (old new : watcher_id) (fd : Int) (ev : Nat) (r : CbResult) :
    core (na_event_switch old new fd ev r).client = core r.client ∧
    errors (na_event_switch old new fd ev r).trace = errors r.trace := by
  refine ⟨by simp only [na_event_switch, core_ev_io_set_start, core_ev_io_stop], ?_⟩
  simp [na_event_switch, errors_append, errors]

/-- The core fields and the errors after the request branch of the client read. -/
theorem client_request_core (mp : Memproto) (st : Shared) (c : na_client_t)
    (bytes : List Nat) (t : List Action) :
    core (client_request mp st c bytes t).client =
      (c.loop_cnt, c.is_refused_active, c.request_bufsize, c.response_bufsize,
        c.crbufsize + bytes.length, c.srbufsize) ∧
    errors (client_request mp st c bytes t).trace = errors t := by
  have hs := fun w st c => (core_event_stop w st c).1
  have hs2 := fun w st c => (core_event_stop w st c).2.1
  have hw := fun a b fd ev r => (core_event_switch a b fd ev r).1
  have hw2 := fun a b fd ev r => (core_event_switch a b fd ev r).2
  unfold client_request
  dsimp only
  split_ifs <;> simp only [hs, hs2, hw, hw2, errors_append, List.append_nil, and_self] <;>
    simp [core]

/-- The core fields and the errors after the client-readable branch. -/
theorem client_readable_core (mp : Memproto) (o : Oracle) (st : Shared) (c : na_client_t) :
    core (client_readable mp o st c).client =
      (c.loop_cnt, c.is_refused_active, (grow c.crbuf c.crbufsize c.request_bufsize).2,
        c.response_bufsize,
        c.crbufsize + (match o.read with | .ok b => b.length | .err _ => 0), c.srbufsize) ∧
    na_error_t.NA_ERROR_OUTOF_LOOP ∉ errors (client_readable mp o st c).trace := by
  have hs := fun w st c => (core_event_stop w st c).1
  have hs2 := fun w st c => (core_event_stop w st c).2.1
  have hf := fun e w st c => (core_event_fail e w st c).1
  have hf2 := fun e w st c => (core_event_fail e w st c).2.1
  unfold client_readable
  dsimp only
  cases hr : o.read with
  | err e =>
    dsimp only
    split_ifs <;> simp only [hf, hf2, errors_append] <;> simp [core, errors]
  | ok bytes =>
    dsimp only
    split_ifs with hb
    · simp only [hs, hs2, errors_append]
      simp [core, errors, hb]
    · have h := client_request_core mp
        { st with errno := errno_after_read st.errno (ReadRes.ok bytes) }
        { c with crbuf := (grow c.crbuf c.crbufsize c.request_bufsize).1,
                 request_bufsize := (grow c.crbuf c.crbufsize c.request_bufsize).2 }
        bytes
        [Action.read c.c_watcher.fd c.crbufsize
          (size_sub (grow c.crbuf c.crbufsize c.request_bufsize).2 c.crbufsize)]
      refine ⟨h.1, ?_⟩
      rw [h.2]
      simp [errors]

/-- The core fields and the errors after the client-writable branch: the
write that completes the response resets the sizes and sets both capacities
to the environment's, every other outcome leaves all of them alone. -/
theorem client_writable_core (o : Oracle) (st : Shared) (c : na_client_t) :
    core (client_writable o st c).client =
      (match o.write with
        | .ok n =>
          if c.cwbufsize + n < c.srbufsize then core c
          else (c.loop_cnt, c.is_refused_active, st.env.request_bufsize,
            st.env.response_bufsize, 0, 0)
        | .err _ => core c) ∧
    na_error_t.NA_ERROR_OUTOF_LOOP ∉ errors (client_writable o st c).trace := by
  have hf := fun e w st c => (core_event_fail e w st c).1
  have hf2 := fun e w st c => (core_event_fail e w st c).2.1
  have hw := fun a b fd ev r => (core_event_switch a b fd ev r).1
  have hw2 := fun a b fd ev r => (core_event_switch a b fd ev r).2
  unfold client_writable
  dsimp only
  cases hr : o.write with
  | err e =>
    dsimp only
    split_ifs <;> simp only [hf, hf2, errors_append] <;> simp [core, errors]
  | ok n =>
    dsimp only
    by_cases hlt : c.cwbufsize + n < c.srbufsize
    · simp only [hlt, if_true, hw, hw2]
      simp [core, errors]
    · simp only [hlt, if_false, hw, hw2]
      simp [core, errors]

/-- The core fields and the errors after the response branch of the upstream
read. -/
theorem ts_response_core (mp : Memproto) (o : Oracle) (st : Shared) (c : na_client_t)
    (bytes : List Nat) (t : List Action) :
    core (ts_response mp o st c bytes t).client =
      (c.loop_cnt, c.is_refused_active, c.request_bufsize, c.response_bufsize,
        c.crbufsize, c.srbufsize + bytes.length) ∧
    errors (ts_response mp o st c bytes t).trace = errors t := by
  have hw := fun a b fd ev r => (core_event_switch a b fd ev r).1
  have hw2 := fun a b fd ev r => (core_event_switch a b fd ev r).2
  have hc : ∀ (r : na_client_t) (tm : na_times_t), core { r with times := tm } = core r :=
    fun _ _ => rfl
  unfold ts_response
  dsimp only
  split_ifs <;> simp only [hc, hw, hw2, errors_append, List.append_nil, and_self] <;>
    simp [core]

/-- The core fields and the errors after the upstream-readable branch. -/
theorem ts_readable_core (mp : Memproto) (o : Oracle) (st : Shared) (c : na_client_t) :
    core (ts_readable mp o st c).client =
      (c.loop_cnt, c.is_refused_active, c.request_bufsize,
        (grow c.srbuf c.srbufsize c.response_bufsize).2, c.crbufsize,
        c.srbufsize + (match o.read with | .ok b => b.length | .err _ => 0)) ∧
    na_error_t.NA_ERROR_OUTOF_LOOP ∉ errors (ts_readable mp o st c).trace := by
  have hf := fun e w st c => (core_event_fail e w st c).1
  have hf2 := fun e w st c => (core_event_fail e w st c).2.1
  unfold ts_readable
  dsimp only
  cases hr : o.read with
  | err e =>
    dsimp only
    split_ifs <;> simp only [hf, hf2, errors_append] <;> simp [core, errors]
  | ok bytes =>
    dsimp only
    by_cases hb : bytes.length = 0
    · rw [if_pos hb]
      split_ifs <;> simp only [hf, hf2, errors_append] <;> simp [core, errors, hb]
    · rw [if_neg hb]
      refine ⟨(ts_response_core mp o _ _ bytes _).1, ?_⟩
      rw [(ts_response_core mp o _ _ bytes _).2]
      simp [errors]

/-- A reconnect of the slot reports no error when it returns. -/
theorem reconnect_errors (o : Oracle) (st : Shared) (c : na_client_t) (s : Shared)
    (t : List Action) (h : reconnect_slot o st c = .ret (s, t)) : errors t = [] := by
  unfold reconnect_slot at h
  dsimp only at h
  split_ifs at h <;>
    (split at h <;> (try split_ifs at h) <;> cases h <;> simp [errors_append, errors])

/-- The core fields and the errors after the upstream-writable branch, when
it returns. -/
theorem ts_writable_core (o : Oracle) (st : Shared) (c : na_client_t) (r : CbResult)
    (h : ts_writable o st c = .ret r) :
    core r.client = core c ∧ na_error_t.NA_ERROR_OUTOF_LOOP ∉ errors r.trace := by
  have hf := fun e w st c => (core_event_fail e w st c).1
  have hf2 := fun e w st c => (core_event_fail e w st c).2.1
  have hw := fun a b fd ev r => (core_event_switch a b fd ev r).1
  have hw2 := fun a b fd ev r => (core_event_switch a b fd ev r).2
  have hc : ∀ (r : na_client_t) (tm : na_times_t), core { r with times := tm } = core r :=
    fun _ _ => rfl
  have herr : ∀ t : List Action, (∀ a ∈ t, ∀ e, a ≠ Action.error_output e) → errors t = [] := by
    intro t
    induction t with
    | nil => intro _; rfl
    | cons a t ih =>
      intro ha
      have h1 := ih (fun b hb => ha b (List.mem_cons_of_mem _ hb))
      cases a <;> simp [errors, h1]
      exact ha _ (List.mem_cons_self _ _) _ rfl
  unfold ts_writable at h
  dsimp only at h
  generalize (if c.times.na_to_ts_time_begin.isZero = true then
      ({ c.times with na_to_ts_time_begin := o.gettime c.times.na_to_ts_time_begin } :
        na_times_t)
    else c.times) = tm at h
  cases hr : o.write with
  | err e =>
    rw [hr] at h
    dsimp only at h
    by_cases h1 : is_retry (errno_after_write st.errno (WriteRes.err e)) = true
    · rw [if_pos h1] at h
      cases h
      simp [core, errors]
    · rw [if_neg h1] at h
      by_cases hp : c.is_use_connpool = true
      · rw [if_pos hp] at h
        generalize hrc : reconnect_slot o _ _ = rc at h
        cases rc with
        | die e1 => cases h
        | ret p =>
          obtain ⟨s2, t2⟩ := p
          have ht2 := reconnect_errors _ _ _ _ _ hrc
          dsimp only at h
          cases h
          split_ifs <;> simp only [hf, hf2, errors_append, ht2] <;> simp [core, errors]
      · rw [if_neg hp] at h
        dsimp only at h
        cases h
        split_ifs <;> simp only [hf, hf2, errors_append] <;> simp [core, errors]
  | ok n =>
    rw [hr] at h
    dsimp only at h
    split_ifs at h with h1
    · cases h
      simp only [hw, hw2]
      simp [core, errors]
    · cases h
      simp only [hc, hw, hw2]
      simp [core, errors]

/-- The core fields of the session after the loop test: only `loop_cnt` can
have changed. -/
theorem core_loop_check (env : na_env_t) (c : na_client_t) :
    core (loop_check env c).2 =
      ((loop_check env c).2.loop_cnt, c.is_refused_active, c.request_bufsize,
        c.response_bufsize, c.crbufsize, c.srbufsize) ∧
    (loop_check env c).2.crbuf = c.crbuf ∧ (loop_check env c).2.srbuf = c.srbuf ∧
    (loop_check env c).2.cwbufsize = c.cwbufsize := by
  unfold loop_check; split <;> exact ⟨rfl, rfl, rfl, rfl⟩

/-- What one call leaves of the core fields, and which error it reports, in
each of the three ways through the head of a callback. -/
theorem run_call_core (mp : Memproto) (c : na_client_t) (call : CbCall) (r : CbResult)
    (h : run_call mp c call = .ret r) :
    if role_check call.st.env c = true then
      core r.client = core c ∧ errors r.trace = [na_error_t.NA_ERROR_INVALID_CONNPOOL] ∧
        was_closed r = true
    else if (loop_check call.st.env c).1 = true then
      core r.client = core (loop_check call.st.env c).2 ∧
        errors r.trace = [na_error_t.NA_ERROR_OUTOF_LOOP] ∧ was_closed r = true
    else
      core r.client = core_after c call ∧ na_error_t.NA_ERROR_OUTOF_LOOP ∉ errors r.trace := by
  obtain ⟨ts, revents, o, st⟩ := call
  obtain ⟨hl, hl1, hl2, hl3⟩ := core_loop_check st.env c
  simp only [core, Prod.mk.injEq] at hl
  obtain ⟨-, a2, a3, a4, a5, a6⟩ := hl
  unfold run_call at h
  dsimp only at h ⊢
  by_cases hrole : role_check st.env c = true
  · rw [if_pos hrole]
    cases ts
    · simp only [na_client_callback, hrole, if_true, Bool.false_eq_true, if_false] at h
      cases h
      exact core_event_fail _ _ _ _
    · simp only [na_target_server_callback, hrole, if_true] at h
      cases h
      exact core_event_fail _ _ _ _
  · rw [if_neg hrole]
    by_cases hover : (loop_check st.env c).1 = true
    · rw [if_pos hover]
      cases ts
      · simp only [na_client_callback, hrole, hover, if_true, Bool.false_eq_true, if_false] at h
        cases h
        exact core_event_fail _ _ _ _
      · simp only [na_target_server_callback, hrole, hover, if_true, if_false] at h
        cases h
        exact core_event_fail _ _ _ _
    · rw [if_neg hover]
      unfold core_after completes CbCall.nread
      dsimp only
      by_cases hR : hasFlag revents EV_READ = true
      · rw [if_pos hR]
        cases ts
        · simp only [na_client_callback, hrole, hover, hR, if_true, Bool.false_eq_true,
            if_false] at h
          cases h
          obtain ⟨h1, h2⟩ := client_readable_core mp o st (loop_check st.env c).2
          refine ⟨?_, h2⟩
          rw [h1]
          simp only [hl1, a2, a3, a4, a5, a6, Bool.false_eq_true, if_false]
        · simp only [na_target_server_callback, hrole, hover, hR, if_true, if_false] at h
          cases h
          obtain ⟨h1, h2⟩ := ts_readable_core mp o st (loop_check st.env c).2
          refine ⟨?_, h2⟩
          rw [h1]
          simp only [hl2, a2, a3, a4, a5, a6, if_true]
      · rw [if_neg hR]
        by_cases hW : hasFlag revents EV_WRITE = true
        · cases ts
          · simp only [na_client_callback, hrole, hover, hR, hW, if_true, Bool.false_eq_true,
              if_false] at h
            cases h
            obtain ⟨h1, h2⟩ := client_writable_core o st (loop_check st.env c).2
            refine ⟨?_, h2⟩
            rw [h1]
            cases hw : o.write with
            | err e => simp [core, a2, a3, a4, a5, a6, hR, hW]
            | ok n =>
              by_cases hlt : c.cwbufsize + n < c.srbufsize
              · simp [core, a2, a3, a4, a5, a6, hR, hW, hl3, hlt]
              · simp [core, a2, a3, a4, a5, a6, hR, hW, hl3, hlt]
          · simp only [na_target_server_callback, hrole, hover, hR, hW, if_true,
              Bool.false_eq_true, if_false] at h
            obtain ⟨h1, h2⟩ := ts_writable_core o st _ r h
            refine ⟨?_, h2⟩
            rw [h1]
            simp [core, a2, a3, a4, a5, a6]
        · cases ts
          · simp only [na_client_callback, hrole, hover, hR, hW, if_true, Bool.false_eq_true,
              if_false] at h
            cases h
            simp [core, a2, a3, a4, a5, a6, hW, errors]
          · simp only [na_target_server_callback, hrole, hover, hR, hW, if_true,
              Bool.false_eq_true, if_false] at h
            cases h
            simp [core, a2, a3, a4, a5, a6, hW, errors]

/-- The loop test spelled out. -/
theorem loop_check_spec (env : na_env_t) (c : na_client_t) :
    ((loop_check env c).1 = true ↔ 0 < env.loop_max ∧ env.loop_max < c.loop_cnt) ∧
    (loop_check env c).2.loop_cnt = (if 0 < env.loop_max then c.loop_cnt + 1 else c.loop_cnt) := by
  unfold loop_check
  by_cases h : env.loop_max > 0
  · simp [h]
  · simp [h]

/-- The role test looks at the session's recorded role only. -/
theorem role_check_congr (env : na_env_t) (c c1 : na_client_t)
    (h : c1.is_refused_active = c.is_refused_active) : role_check env c1 = role_check env c := by
  unfold role_check; rw [h]

/-- A call on a session over the loop bound returns. -/
theorem run_call_over (mp : Memproto) (c : na_client_t) (call : CbCall)
    (hrole : role_check call.st.env c = false) (hover : (loop_check call.st.env c).1 = true) :
    ∃ r, run_call mp c call = .ret r := by
  unfold run_call
  cases call.ts
  · exact ⟨_, rfl⟩
  · simp only [na_target_server_callback, hrole, hover, if_true, Bool.false_eq_true, if_false]
    exact ⟨_, rfl⟩

/-- The counter and the recorded role after a call that passes both checks. -/
theorem core_after_fst (c : na_client_t) (call : CbCall) (r : CbResult)
    (hc : core r.client = core_after c call) :
    r.client.loop_cnt = (loop_check call.st.env c).2.loop_cnt ∧
    r.client.is_refused_active = c.is_refused_active := by
  simp only [core, core_after] at hc
  revert hc
  split_ifs <;> (intro hc; simp only [Prod.mk.injEq] at hc; exact ⟨hc.1, hc.2.1⟩)

/-- The run of a session whose callbacks all pass the role test, started
with any value of `loop_cnt`. -/
theorem session_calls_loop (mp : Memproto) (L : Nat) :
    ∀ (calls : List CbCall) (c : na_client_t),
    (∀ call ∈ calls, call.st.env.loop_max = L) →
    (∀ call ∈ calls, role_check call.st.env c = false) →
    ∀ k out, (session_calls mp c calls)[k]? = some out →
      (0 < L →
        (c.loop_cnt + k ≤ L → na_error_t.NA_ERROR_OUTOF_LOOP ∉ errors_of out) ∧
        (L < c.loop_cnt + k → ∃ r, out = .ret r ∧
          errors r.trace = [na_error_t.NA_ERROR_OUTOF_LOOP] ∧ was_closed r = true) ∧
        (c.loop_cnt + k ≤ L + 1 ∨ k = 0)) ∧
      (L = 0 → na_error_t.NA_ERROR_OUTOF_LOOP ∉ errors_of out ∧
        ∀ r, out = .ret r → r.client.loop_cnt = c.loop_cnt) := by
  intro calls
  induction calls with
  | nil => intro c _ _ k out h; simp [session_calls] at h
  | cons call rest ih =>
    intro c hmax hrole k out h
    have hm : call.st.env.loop_max = L := hmax call (List.mem_cons_self _ _)
    have hr : role_check call.st.env c = false := hrole call (List.mem_cons_self _ _)
    obtain ⟨hl1, hl2⟩ := loop_check_spec call.st.env c
    rw [hm] at hl1 hl2
    unfold session_calls at h
    cases hrun : run_call mp c call with
    | die e =>
      rw [hrun] at h
      dsimp only at h
      cases k with
      | succ k => simp at h
      | zero =>
        simp only [List.getElem?_cons_zero, Option.some.injEq] at h
        subst h
        refine ⟨fun hL => ⟨fun _ => by simp [errors_of], fun hlt => ?_, Or.inr rfl⟩,
          fun _ => ⟨by simp [errors_of], fun r1 hr1 => by cases hr1⟩⟩
        obtain ⟨r, hr1⟩ := run_call_over mp c call hr (hl1.2 ⟨hL, by omega⟩)
        rw [hrun] at hr1
        cases hr1
    | ret r =>
      rw [hrun] at h
      dsimp only at h
      have hcore := run_call_core mp c call r hrun
      rw [if_neg (by rw [hr]; simp)] at hcore
      cases k with
      | zero =>
        simp only [List.getElem?_cons_zero, Option.some.injEq] at h
        subst h
        by_cases hover : (loop_check call.st.env c).1 = true
        · rw [if_pos hover] at hcore
          obtain ⟨-, he, hc⟩ := hcore
          have ho := hl1.1 hover
          refine ⟨fun hL => ⟨fun hle => by omega, fun _ => ⟨r, rfl, he, hc⟩, Or.inr rfl⟩,
            fun h0 => by omega⟩
        · rw [if_neg hover] at hcore
          obtain ⟨hc, he⟩ := hcore
          have hlc := (core_after_fst c call r hc).1
          rw [hl2] at hlc
          refine ⟨fun hL => ⟨fun _ => by simpa [errors_of] using he, fun hlt => ?_, Or.inr rfl⟩,
            fun h0 => ⟨by simpa [errors_of] using he, fun r1 hr1 => ?_⟩⟩
          · exact absurd (hl1.2 ⟨hL, by omega⟩) hover
          · cases hr1
            rw [hlc, if_neg (by omega)]
      | succ k =>
        simp only [List.getElem?_cons_succ] at h
        by_cases hcl : was_closed r = true
        · rw [if_pos hcl] at h; simp at h
        · rw [if_neg hcl] at h
          have hover : ¬ (loop_check call.st.env c).1 = true := by
            intro hover
            rw [if_pos hover] at hcore
            exact hcl hcore.2.2
          rw [if_neg hover] at hcore
          obtain ⟨hc, -⟩ := hcore
          obtain ⟨hlc, hra⟩ := core_after_fst c call r hc
          rw [hl2] at hlc
          have hrole1 : ∀ call ∈ rest, role_check call.st.env r.client = false := by
            intro cl hcl1
            rw [role_check_congr _ c r.client hra]
            exact hrole cl (List.mem_cons_of_mem _ hcl1)
          have hih := ih r.client (fun cl hcl1 => hmax cl (List.mem_cons_of_mem _ hcl1))
            hrole1 k out h
          refine ⟨fun hL => ?_, fun h0 => ⟨(hih.2 h0).1, fun r1 hr1 => ?_⟩⟩
          swap
          · rw [(hih.2 h0).2 r1 hr1, hlc, if_neg (by omega)]
          obtain ⟨i1, i2, i3⟩ := hih.1 hL
          rw [if_pos hL] at hlc
          have hnot : ¬ (L < c.loop_cnt) := fun hlt => hover (hl1.2 ⟨hL, hlt⟩)
          rw [hlc] at i1 i2 i3
          refine ⟨fun hle => i1 (by omega), fun hlt => i2 (by omega), ?_⟩
          rcases i3 with i3 | i3
          · left; omega
          · left; omega

/-- C12: in a session that starts with `loop_cnt = 0` and whose callbacks all
pass the role test under a loop bound `loop_max = L`, count the callbacks from
0. With `L > 0`, none of the callbacks `0 .. L` (the first `L + 1`) reports
`NA_ERROR_OUTOF_LOOP`, callback `L + 1` (the `(L + 2)`-th) returns having
reported exactly that error and run the termination routine, and there is no
later callback; the counter is never reset in between, whatever the callbacks
do. With `L = 0` no callback reports `NA_ERROR_OUTOF_LOOP` and `loop_cnt`
is 0 after every callback. -/
theorem C12_loop_bound (mp : Memproto) (client : na_client_t) (calls : List CbCall) (L : Nat)
    (hmax : ∀ call ∈ calls, call.st.env.loop_max = L)
    (hrole : ∀ call ∈ calls, role_check call.st.env client = false)
    (h0 : client.loop_cnt = 0) :
    ∀ k out, (session_calls mp client calls)[k]? = some out →
      (0 < L →
        (k ≤ L → na_error_t.NA_ERROR_OUTOF_LOOP ∉ errors_of out) ∧
        (k = L + 1 → ∃ r, out = .ret r ∧
          errors r.trace = [na_error_t.NA_ERROR_OUTOF_LOOP] ∧ was_closed r = true) ∧
        k ≤ L + 1) ∧
      (L = 0 → na_error_t.NA_ERROR_OUTOF_LOOP ∉ errors_of out ∧
        ∀ r, out = .ret r → r.client.loop_cnt = 0) := by
  intro k out h
  have hs := session_calls_loop mp L calls client hmax hrole k out h
  rw [h0] at hs
  refine ⟨fun hL => ?_, hs.2⟩
  obtain ⟨i1, i2, i3⟩ := hs.1 hL
  refine ⟨fun hle => i1 (by omega), fun hk => i2 (by omega), by omega⟩

/-- C12 on a session that reads one byte per callback under a loop bound of
5: the run has seven callbacks, and the seventh is the one stopped by the
bound. -/
theorem C12_loop_bound_witness :
    (session_calls ex_mp ex_client (List.replicate 7 ex_call_read)).length = 7 ∧
    ex_client.loop_cnt = 0 ∧
    ∀ k out, (session_calls ex_mp ex_client (List.replicate 7 ex_call_read))[k]? = some out →
      (0 < 5 →
        (k ≤ 5 → na_error_t.NA_ERROR_OUTOF_LOOP ∉ errors_of out) ∧
        (k = 5 + 1 → ∃ r, out = .ret r ∧
          errors r.trace = [na_error_t.NA_ERROR_OUTOF_LOOP] ∧ was_closed r = true) ∧
        k ≤ 5 + 1) ∧
      (5 = 0 → na_error_t.NA_ERROR_OUTOF_LOOP ∉ errors_of out ∧
        ∀ r, out = .ret r → r.client.loop_cnt = 0) :=
  ⟨by decide, rfl,
    C12_loop_bound ex_mp ex_client (List.replicate 7 ex_call_read) 5 (by decide) (by decide) rfl⟩

/-- The growth step on a capacity from 2 to `2 ^ 63`: the capacity does not
shrink, and when the step fires it becomes `(cap - 1) * 2` exactly. -/
theorem grow_cap (buf : List Nat) (size cap : Nat) (h2 : 2 ≤ cap) (hb : cap ≤ 2 ^ 63) :
    cap ≤ (grow buf size cap).2 ∧
    (size ≥ cap → (grow buf size cap).2 = (cap - 1) * 2) ∧
    (size < cap → (grow buf size cap).2 = cap) := by
  have hs : size_mul (size_sub cap 1) 2 = (cap - 1) * 2 := by
    unfold size_mul size_sub SIZE_MOD
    have h1 : (cap + 2 ^ 64 - 1 % 2 ^ 64) % 2 ^ 64 = cap - 1 := by
      have : cap + 2 ^ 64 - 1 % 2 ^ 64 = (cap - 1) + 2 ^ 64 := by omega
      rw [this, Nat.add_mod_right]
      exact Nat.mod_eq_of_lt (by omega)
    rw [h1]
    exact Nat.mod_eq_of_lt (by omega)
  have hg : (grow buf size cap).2 = if size ≥ cap then (cap - 1) * 2 else cap := by
    unfold grow; split <;> simp [hs]
  rw [hg]
  by_cases h : size ≥ cap
  · rw [if_pos h]
    exact ⟨by omega, fun _ => rfl, fun hlt => by omega⟩
  · rw [if_neg h]
    exact ⟨le_refl _, fun hge => absurd hge h, fun _ => rfl⟩

/-- C14, refuted as stated: a session whose response capacity has grown from
16 to 30 to take a 21-byte response gets the capacity 16 back when the
response has been written to the client, so the capacity shrinks at that
step; and the growth step itself turns a capacity of 1 into 0. -/
theorem C14_counterexample :
    (ex_client_full.request_bufsize, ex_client_full.response_bufsize) = (16, 16) ∧
    capacities (session_calls ex_mp ex_client_full [ex_call_grow, ex_call_done])
      = [some (16, 30), some (16, 16)] ∧
    (grow [0, 0] 1 1).2 = 0 := by
  decide

/-- C14, amended: at a callback step on a session whose capacities are both
between 2 and `2 ^ 63`, the client-writable callback that passes both checks
and completes the response sets both capacities to the values configured in
the environment; at every other step that returns, neither capacity is
smaller after the step than before. -/
theorem C14_capacity_step (mp : Memproto) (c : na_client_t) (call : CbCall) (r : CbResult)
    (h : run_call mp c call = .ret r)
    (hreq : 2 ≤ c.request_bufsize ∧ c.request_bufsize ≤ 2 ^ 63)
    (hresp : 2 ≤ c.response_bufsize ∧ c.response_bufsize ≤ 2 ^ 63) :
    (passes_checks call.st c ∧ completes c call = true →
      r.client.request_bufsize = call.st.env.request_bufsize ∧
      r.client.response_bufsize = call.st.env.response_bufsize) ∧
    (¬ (passes_checks call.st c ∧ completes c call = true) →
      c.request_bufsize ≤ r.client.request_bufsize ∧
      c.response_bufsize ≤ r.client.response_bufsize) := by
  have hcore := run_call_core mp c call r h
  obtain ⟨hl, -⟩ := core_loop_check call.st.env c
  have g1 := (grow_cap c.crbuf c.crbufsize c.request_bufsize hreq.1 hreq.2).1
  have g2 := (grow_cap c.srbuf c.srbufsize c.response_bufsize hresp.1 hresp.2).1
  have hcomp : completes c call = true → hasFlag call.revents EV_READ = false := by
    unfold completes
    cases hasFlag call.revents EV_READ <;> simp
  by_cases hrole : role_check call.st.env c = true
  · rw [if_pos hrole] at hcore
    have hc := hcore.1
    simp only [core, Prod.mk.injEq] at hc
    refine ⟨fun hp => ?_, fun _ => ⟨by omega, by omega⟩⟩
    have := hp.1.1
    rw [hrole] at this
    cases this
  · rw [if_neg hrole] at hcore
    by_cases hover : (loop_check call.st.env c).1 = true
    · rw [if_pos hover] at hcore
      have hc := hcore.1
      rw [hl] at hc
      simp only [core, Prod.mk.injEq] at hc
      refine ⟨fun hp => ?_, fun _ => ⟨by omega, by omega⟩⟩
      have := hp.1.2
      rw [hover] at this
      cases this
    · rw [if_neg hover] at hcore
      have hc := hcore.1
      have hpass : passes_checks call.st c := ⟨by simpa using hrole, by simpa using hover⟩
      unfold core_after at hc
      dsimp only at hc
      by_cases hR : hasFlag call.revents EV_READ = true
      · rw [if_pos hR] at hc
        have hnc : ¬ completes c call = true := fun hcp => by
          rw [hcomp hcp] at hR; cases hR
        refine ⟨fun hp => absurd hp.2 hnc, fun _ => ?_⟩
        revert hc
        split_ifs <;> (intro hc; simp only [core, Prod.mk.injEq] at hc; exact ⟨by omega, by omega⟩)
      · rw [if_neg hR] at hc
        by_cases hcp : completes c call = true
        · rw [if_pos hcp] at hc
          simp only [core, Prod.mk.injEq] at hc
          exact ⟨fun _ => ⟨hc.2.2.1, hc.2.2.2.1⟩, fun hn => absurd ⟨hpass, hcp⟩ hn⟩
        · rw [if_neg hcp] at hc
          simp only [core, Prod.mk.injEq] at hc
          exact ⟨fun hp => absurd hp.2 hcp, fun _ => ⟨by omega, by omega⟩⟩

/-- C14 on the write that completes the response of the example: the
response capacity, grown to 30, is set to the configured 16. -/
theorem C14_capacity_step_witness :
    run_call ex_mp ex_client_grown ex_call_done
      = .ret (na_client_callback ex_mp (ex_oracle [] 21) EV_WRITE ex_shared ex_client_grown) ∧
    (2 ≤ ex_client_grown.request_bufsize ∧ ex_client_grown.request_bufsize ≤ 2 ^ 63) ∧
    (2 ≤ ex_client_grown.response_bufsize ∧ ex_client_grown.response_bufsize ≤ 2 ^ 63) ∧
    (passes_checks ex_call_done.st ex_client_grown ∧ completes ex_client_grown ex_call_done = true) ∧
    ((passes_checks ex_call_done.st ex_client_grown ∧ completes ex_client_grown ex_call_done = true →
      (na_client_callback ex_mp (ex_oracle [] 21) EV_WRITE ex_shared
        ex_client_grown).client.request_bufsize = ex_call_done.st.env.request_bufsize ∧
      (na_client_callback ex_mp (ex_oracle [] 21) EV_WRITE ex_shared
        ex_client_grown).client.response_bufsize = ex_call_done.st.env.response_bufsize) ∧
    (¬ (passes_checks ex_call_done.st ex_client_grown ∧ completes ex_client_grown ex_call_done = true) →
      ex_client_grown.request_bufsize ≤ (na_client_callback ex_mp (ex_oracle [] 21) EV_WRITE
        ex_shared ex_client_grown).client.request_bufsize ∧
      ex_client_grown.response_bufsize ≤ (na_client_callback ex_mp (ex_oracle [] 21) EV_WRITE
        ex_shared ex_client_grown).client.response_bufsize)) :=
  ⟨rfl, by decide, by decide, by decide,
    C14_capacity_step ex_mp ex_client_grown ex_call_done _ rfl (by decide) (by decide)⟩

/-- The outcomes of the steps are the run of `session_calls`. -/
theorem session_steps_out (mp : Memproto) :
    ∀ (calls : List CbCall) (c : na_client_t),
      (session_steps mp c calls).map Step.out = session_calls mp c calls := by
  intro calls
  induction calls with
  | nil => intro c; rfl
  | cons call rest ih =>
    intro c
    unfold session_steps session_calls
    cases h : run_call mp c call with
    | die e => rfl
    | ret r =>
      dsimp only
      by_cases hc : was_closed r = true
      · simp [hc]
      · simp [hc, ih]

/-- At admission the hypotheses of C18 hold: the accept callback sets the
sizes to 0 and the capacities to the configured ones, so a session structure
whose blocks hold the configured capacities + 1 bytes fits and is allocated;
the structure made by `malloc` is such a one. -/
theorem client_init_allocated (env : na_env_t) (client : na_client_t)
    (cfd tsfd cur_pool cur_cli : Int) (connpool : connpool_ref)
    (h3 : 3 ≤ env.request_bufsize ∧ 3 ≤ env.response_bufsize) :
    (env.request_bufsize + 1 ≤ client.crbuf.length ∧
      env.response_bufsize + 1 ≤ client.srbuf.length →
      sizes_fit (client_arm (client_init env client cfd tsfd cur_pool cur_cli connpool)) ∧
      allocated env.request_bufsize env.response_bufsize
        (client_arm (client_init env client cfd tsfd cur_pool cur_cli connpool))) ∧
    (env.request_bufsize + 1 ≤ (client_malloc env).crbuf.length ∧
      env.response_bufsize + 1 ≤ (client_malloc env).srbuf.length) := by
  refine ⟨fun hlen => ?_, ?_⟩
  · simp only [sizes_fit, allocated, client_arm, client_init]
    exact ⟨⟨Nat.zero_le _, Nat.zero_le _, h3.1, h3.2⟩, le_refl _, le_refl _, hlen.1, hlen.2⟩
  · simp [client_malloc]

end Neoagent
